import Mathlib

/-!
# RSDKv5 mod layer and data-pack cipher: a shallow embedding

Definitions follow `RSDK/Core/ModAPI.cpp` and `RSDK/Core/Reader.cpp`.

* A C string is the list of its characters before the terminating NUL.
* A `std::map<std::string, std::string>` is an association list read with
  `List.lookup`; a `std::vector<std::string>` is a list.
* A pointer into `modList` or `objectClassList` is the index of the element.
-/

namespace RSDK

/-! ## Strings -/

/-- A C string: the characters before the terminating NUL. -/
abbrev CStr := List Char

/-- The C-locale `tolower` of `ctype.h`: only `A`..`Z` change. -/
def tolower (c : Char) : Char :=
  if 65 ≤ c.toNat ∧ c.toNat ≤ 90 then Char.ofNat (c.toNat + 32) else c

/-- `StrToLower` (RetroEngine.hpp): lowercases every character in place. -/
def StrToLower (str : CStr) : CStr := str.map tolower

/-- `std::replace(tempPath.begin(), tempPath.end(), '\\', '/')`. -/
def replaceBackslash (s : CStr) : CStr := s.map (fun c => if c = '\\' then '/' else c)

/-! ## Mods and the file overlay -/

/-- The fields of `ModInfo` read or written by the overlay functions, by
SortMods and by LoadModSettings: `path` is the mod folder, `forceVersion` and
`targetVersion` are `int32`, `folderName` is the name of the mod folder, and
the three flags are those read from the mod's manifest. -/
structure ModInfo where
  id : CStr
  active : Bool
  fileMap : List (CStr × CStr)
  excludedFiles : List CStr
  path : CStr := []
  forceVersion : Int := 0
  targetVersion : Int := 5
  folderName : CStr := []
  redirectSaveRAM : Bool := false
  disableGameLogic : Bool := false
  forceScripts : Bool := false
deriving DecidableEq, Repr

/-- The key FindModFile looks up: backslashes replaced, `strncpy` into the
256-byte `pathLower` (at most 255 characters survive), then `StrToLower`. -/
def FindModFile.pathLower (filePath : CStr) : CStr :=
  StrToLower ((replaceBackslash filePath).take 255)

/-- The loop of FindModFile, `for (i = modList.size() - 1; i >= 0; --i)`;
`n` is `i + 1`. -/
def FindModFile.scan (modList : List ModInfo) (pathLower : CStr) : Nat → Option CStr
  | 0 => none
  | i + 1 =>
    match modList[i]? with
    | none => FindModFile.scan modList pathLower i
    | some mod =>
      if mod.active then
        match mod.fileMap.lookup pathLower with
        | some real =>
          if pathLower ∉ mod.excludedFiles then some real
          else FindModFile.scan modList pathLower i
        | none => FindModFile.scan modList pathLower i
      else FindModFile.scan modList pathLower i

/-- `RSDK::FindModFile`: the real path of the overlay file, `none` for `nullptr`.
The result is the stored path (`strcpy` into the static `fullFilePath`). -/
def FindModFile (modList : List ModInfo) (filePath : CStr) : Option CStr :=
  FindModFile.scan modList (FindModFile.pathLower filePath) modList.length

/-- The search `for (m = 0; m < modList.size(); ++m) if (modList[m].active &&
modList[m].id == id) break;` shared by the file functions: the index found, or
`modList.size()` when there is none. -/
def findActiveMod (modList : List ModInfo) (id : CStr) : Nat :=
  match modList.findIdx? (fun m => m.active && decide (m.id = id)) with
  | some m => m
  | none => modList.length

/-- `RSDK::ExcludeFile` for a path shorter than 256 characters. `id = none` is a
null pointer; `currentMod` is the index of the current mod. Returns the result
flag and the new mod list. -/
def ExcludeFile (modList : List ModInfo) (currentMod : Option Nat) (id : Option CStr)
    (path : CStr) : Bool × List ModInfo :=
  match id with
  | none => (false, modList)
  | some id0 =>
    let id1 : CStr :=
      match id0, currentMod with
      | [], some cur => (modList[cur]?.map (fun m => m.id)).getD id0
      | _, _ => id0
    let m := findActiveMod modList id1
    if m = modList.length then (false, modList)
    else
      let pathLower := path.map tolower
      match modList[m]? with
      | none => (false, modList)
      | some mod =>
        if pathLower ∉ mod.excludedFiles then
          (true, modList.set m { mod with excludedFiles := mod.excludedFiles ++ [pathLower] })
        else (false, modList)

/-- The mod of the overlay scenario: `A` inactive with `x.png`. -/
def scenarioA : ModInfo :=
  { id := "A".toList, active := false,
    fileMap := [("x.png".toList, "mods/A/x.png".toList)], excludedFiles := [] }

/-- The mod of the overlay scenario: `B` active with `x.png`. -/
def scenarioB : ModInfo :=
  { id := "B".toList, active := true,
    fileMap := [("x.png".toList, "mods/B/x.png".toList)], excludedFiles := [] }

/-- The mod of the overlay scenario: `C` active without `x.png`. -/
def scenarioC : ModInfo :=
  { id := "C".toList, active := true,
    fileMap := [("y.png".toList, "mods/C/y.png".toList)], excludedFiles := [] }

/-! ## The data-pack stream cipher (Reader.cpp) -/

/-- What the `FileIO *file` of a `FileInfo` points to: a file opened with `fOpen`
and positioned with `fSeek`, or a place in the buffer of a data pack. -/
inductive FileIO where
  | disk (name : CStr) (pos : Nat)
  | memory (packID : Nat) (offset : Nat)
deriving DecidableEq, Repr

/-- The fields of `FileInfo`: the two 16-byte keys and the cursor of the cipher,
then the fields set when a file is opened (`none` for a null `file` or
`fileBuffer`). The cursor fields are naturals; a byte of a key read outside the
16 entries reads as 0. -/
structure FileInfo where
  encryptionKeyA : List Nat
  encryptionKeyB : List Nat
  eKeyPosA : Nat
  eKeyPosB : Nat
  eKeyNo : Nat
  eNybbleSwap : Bool
  fileSize : Nat := 0
  externalFile : Bool := false
  file : Option FileIO := none
  fileBuffer : Option FileIO := none
  readPos : Nat := 0
  fileOffset : Nat := 0
  usingFileBuffer : Bool := false
  encrypted : Bool := false
deriving DecidableEq, Repr

/-- The body of the `while` loop of `RSDK::DecryptBytes` for one byte `data`:
the new cursor and the byte written back (`*data` is a `uint8`, so every store
keeps the low 8 bits). -/
def DecryptBytes.step (info : FileInfo) (data : Nat) : FileInfo × Nat :=
  let d1 := (data ^^^ (info.eKeyNo ^^^ info.encryptionKeyB.getD info.eKeyPosB 0)) % 256
  let d2 := if info.eNybbleSwap then ((d1 <<< 4) + (d1 >>> 4)) &&& 0xFF else d1
  let d3 := (d2 ^^^ info.encryptionKeyA.getD info.eKeyPosA 0) % 256
  let posA := info.eKeyPosA + 1
  let posB := info.eKeyPosB + 1
  let info1 :=
    if posA ≤ 15 then
      if posB > 12 then
        { info with eKeyPosA := posA, eKeyPosB := 0, eNybbleSwap := !info.eNybbleSwap }
      else { info with eKeyPosA := posA, eKeyPosB := posB }
    else if posB ≤ 8 then
      { info with eKeyPosA := 0, eKeyPosB := posB, eNybbleSwap := !info.eNybbleSwap }
    else
      let keyNo := (info.eKeyNo + 2) &&& 0x7F
      if info.eNybbleSwap then
        { info with eKeyNo := keyNo, eNybbleSwap := false,
                    eKeyPosA := keyNo % 7, eKeyPosB := keyNo % 12 + 2 }
      else
        { info with eKeyNo := keyNo, eNybbleSwap := true,
                    eKeyPosA := keyNo % 12 + 3, eKeyPosB := keyNo % 7 }
  (info1, d3)

/-- `RSDK::DecryptBytes(info, buffer, size)`: `buffer` is the list of the `size`
bytes decrypted in place; returns the final `FileInfo` and the bytes written. -/
def DecryptBytes (info : FileInfo) : List Nat → FileInfo × List Nat
  | [] => (info, [])
  | data :: rest =>
    let r := DecryptBytes.step info data
    let r2 := DecryptBytes r.1 rest
    (r2.1, r.2 :: r2.2)

/-- The body of the `while` loop of `RSDK::SkipBytes`. -/
def SkipBytes.step (info : FileInfo) : FileInfo :=
  let posA := info.eKeyPosA + 1
  let posB := info.eKeyPosB + 1
  if posA ≤ 15 then
    if posB > 12 then
      { info with eKeyPosA := posA, eKeyPosB := 0, eNybbleSwap := !info.eNybbleSwap }
    else { info with eKeyPosA := posA, eKeyPosB := posB }
  else if posB ≤ 8 then
    { info with eKeyPosA := 0, eKeyPosB := posB, eNybbleSwap := !info.eNybbleSwap }
  else
    let keyNo := (info.eKeyNo + 2) &&& 0x7F
    if info.eNybbleSwap then
      { info with eKeyNo := keyNo, eNybbleSwap := false,
                  eKeyPosA := keyNo % 7, eKeyPosB := keyNo % 12 + 2 }
    else
      { info with eKeyNo := keyNo, eNybbleSwap := true,
                  eKeyPosA := keyNo % 12 + 3, eKeyPosB := keyNo % 7 }

/-- The loop `while (size > 0) { ...; --size; }` of SkipBytes, `n` rounds. -/
def SkipBytes.loop (info : FileInfo) : Nat → FileInfo
  | 0 => info
  | n + 1 => SkipBytes.loop (SkipBytes.step info) n

/-- `RSDK::SkipBytes(info, size)` with `size` an `int32`: nothing happens for
`size <= 0`. -/
def SkipBytes (info : FileInfo) (size : Int) : FileInfo :=
  SkipBytes.loop info size.toNat

/-- Decrypting a buffer with one `DecryptBytes` call per byte. -/
def decryptOneAtATime (info : FileInfo) : List Nat → FileInfo × List Nat
  | [] => (info, [])
  | data :: rest =>
    let r := DecryptBytes info [data]
    let r2 := decryptOneAtATime r.1 rest
    (r2.1, r.2 ++ r2.2)

/-- The nibble exchange `((x << 4) + (x >> 4)) & 0xFF` of DecryptBytes. -/
def nybbleSwap (x : Nat) : Nat := ((x <<< 4) + (x >>> 4)) &&& 0xFF

/-- The combined key byte at a cursor: `eKeyNo ^ encryptionKeyB[eKeyPosB] ^
encryptionKeyA[eKeyPosA]`, as a byte. -/
def keyByte (info : FileInfo) : Nat :=
  (info.eKeyNo ^^^ info.encryptionKeyB.getD info.eKeyPosB 0
    ^^^ info.encryptionKeyA.getD info.eKeyPosA 0) % 256

/-- A stream with constant keys at the cursor OpenDataFile sets for a 1000-byte
entry. -/
def constantKeyStream : FileInfo :=
  { encryptionKeyA := List.replicate 16 7, encryptionKeyB := List.replicate 16 9,
    eKeyPosA := 0, eKeyPosB := 8, eKeyNo := 122, eNybbleSwap := false }

/-- The stream state OpenDataFile sets up for an encrypted 1000-byte entry
opened as `Data/Game/GameConfig.bin`: `eKeyNo = (1000 / 4) & 0x7F`,
`eKeyPosA = 0`, `eKeyPosB = 8`, `eNybbleSwap = false`. The keys are the MD5
words of the upper-cased name and of the text `1000`, the bytes of each word
taken from the high one down as GenerateELoadKeys does. -/
def gameConfigStream : FileInfo :=
  { encryptionKeyA := [206, 234, 52, 66, 132, 214, 30, 103, 13, 60, 229, 137, 7, 214, 189, 90],
    encryptionKeyB := [112, 186, 183, 169, 126, 97, 59, 120, 77, 220, 152, 153, 197, 179, 46, 216],
    eKeyPosA := 0, eKeyPosB := 8, eKeyNo := 122, eNybbleSwap := false }

/-! ## Object classes and Super dispatch (ModAPI.cpp)

* `objectClassList` is the static array of class records, read as a function
  from the index; entries at `objectClassCount` and above are not live.
* `superLevels` is a `std::map<uint32, uint32>` that is only ever accessed with
  `operator[]`, so it is the function from a key to its count (0 for a key not
  yet inserted); `inheritLevel` is an `int32` (signed overflow, undefined in
  C++, is outside the model).
* A `std::function` slot holds one of the closures built in this file, or a
  plain function; the body of a registrant's function is a list of statements.
-/

/-- An MD5 digest (the four words compared by `HASH_MATCH_MD5`). -/
abbrev Hash := Nat

/-- The slot kinds handled by the `switch` of SuperInternal. -/
inductive ModSuper where
  | SUPER_UPDATE
  | SUPER_LATEUPDATE
  | SUPER_STATICUPDATE
  | SUPER_DRAW
  | SUPER_CREATE
  | SUPER_STAGELOAD
  | SUPER_EDITORDRAW
  | SUPER_EDITORLOAD
  | SUPER_SERIALIZE
deriving DecidableEq, Repr

/-- A statement of a registrant's function: an observable action `emit tag`, or
the call `Super(objectID, callback, data)`, which is
`SuperInternal(&objectClassList[stageObjectIDs[objectID]], callback, data)`;
`classID` is the table index `stageObjectIDs[objectID]`. -/
inductive Stmt where
  | emit (tag : Nat)
  | super (classID : Nat) (callback : ModSuper) (data : Nat)
deriving DecidableEq, Repr

/-- The body of a function handed to the engine by a registrant. -/
abbrev UserFn := List Stmt

/-- What a `std::function` slot of a class record holds.
* `plain fn`: the function itself;
* `wrapped curMod fn`: `[curMod, fn]() { currentMod = curMod; fn(); currentMod = NULL; }`;
* `superCall curMod info cb`:
  `[curMod, info]() { currentMod = curMod; SuperInternal(info, cb, ..); currentMod = NULL; }`
  with `info` the index of the table entry pointed to. -/
inductive Callable where
  | plain (fn : UserFn)
  | wrapped (curMod : Option Nat) (fn : UserFn)
  | superCall (curMod : Option Nat) (info : Nat) (callback : ModSuper)
deriving DecidableEq, Repr

/-- The fields of `ObjectClass` other than the `inherited` pointer. -/
structure ClassInfo where
  hash : Hash
  staticVars : Nat
  entityClassSize : Nat
  staticClassSize : Nat
  update : Option Callable
  lateUpdate : Option Callable
  staticUpdate : Option Callable
  draw : Option Callable
  create : Option Callable
  stageLoad : Option Callable
  staticLoad : Option Callable
  editorDraw : Option Callable
  editorLoad : Option Callable
  serialize : Option Callable
deriving DecidableEq, Repr

/-- An `ObjectClass` record: its fields and the record `inherited` points to
(`none` for `NULL`). A clone made with `new ObjectClass(..)` is never written
again, so the pointer is followed by value. -/
inductive ObjectClass where
  | mk (info : ClassInfo) (inherited : Option ObjectClass)

/-- The fields of a record. -/
def ObjectClass.info : ObjectClass → ClassInfo
  | .mk info _ => info

/-- The record `inherited` points to. -/
def ObjectClass.inherited : ObjectClass → Option ObjectClass
  | .mk _ inherited => inherited

/-- The field `hash` of a record. -/
def ObjectClass.hash (c : ObjectClass) : Hash := c.info.hash

/-- The slot read by each `case` of the `switch (callback)` of SuperInternal. -/
def ObjectClass.slot (c : ObjectClass) : ModSuper → Option Callable
  | .SUPER_UPDATE => c.info.update
  | .SUPER_LATEUPDATE => c.info.lateUpdate
  | .SUPER_STATICUPDATE => c.info.staticUpdate
  | .SUPER_DRAW => c.info.draw
  | .SUPER_CREATE => c.info.create
  | .SUPER_STAGELOAD => c.info.stageLoad
  | .SUPER_EDITORDRAW => c.info.editorDraw
  | .SUPER_EDITORLOAD => c.info.editorLoad
  | .SUPER_SERIALIZE => c.info.serialize

/-- A zero-initialised record. -/
def ObjectClass.zero : ObjectClass :=
  .mk { hash := 0, staticVars := 0, entityClassSize := 0, staticClassSize := 0,
        update := none, lateUpdate := none, staticUpdate := none, draw := none,
        create := none, stageLoad := none, staticLoad := none, editorDraw := none,
        editorLoad := none, serialize := none } none

/-- An entry of the history: `target c cb` is recorded when SuperInternal has
resolved the record `c` whose slot `cb` it is about to call; `user tag mod arg`
is recorded by the statement `emit tag` of a registrant's function, with the
current-mod marker and the argument it sees. -/
inductive Event where
  | target (c : ObjectClass) (callback : ModSuper)
  | user (tag : Nat) (currentMod : Option Nat) (arg : Nat)

/-- The globals of ModAPI.cpp used by registration and Super dispatch.
`history` is a ghost field: it is appended to and never read. -/
structure ModState where
  currentMod : Option Nat
  inheritLevel : Int
  superLevels : Nat → Nat
  objectClassList : Nat → ObjectClass
  objectClassCount : Nat
  allocatedInherits : List ObjectClass
  history : List Event

/-- The key `superLevels[inheritLevel]` uses: the `int32` converted to `uint32`. -/
def levelKey (inheritLevel : Int) : Nat := (inheritLevel % 4294967296).toNat

/-- The loop `for (i = 0; i < superLevels[inheritLevel]; i++) { if
(!super->inherited) break; super = super->inherited; }` of SuperInternal. -/
def SuperInternal.walk : Nat → ObjectClass → ObjectClass
  | 0, super => super
  | n + 1, super =>
    match super.inherited with
    | none => super
    | some anc => SuperInternal.walk n anc

/-- SuperInternal from `++superLevels[inheritLevel]` to the end of the
`if (HASH_MATCH_MD5(super->hash, super->inherited->hash))`, for a record whose
`inherited` is `anc`: the flag `override`, the record `super` now points to,
and the state. -/
def SuperInternal.enter (super anc : ObjectClass) (st : ModState) :
    Bool × ObjectClass × ModState :=
  -- ++superLevels[inheritLevel];
  let key := levelKey st.inheritLevel
  let st1 : ModState :=
    { st with superLevels :=
        Function.update st.superLevels key ((st.superLevels key + 1) % 4294967296) }
  if super.hash = anc.hash then
    -- entity override
    (true, SuperInternal.walk (st1.superLevels key) super, st1)
  else
    -- basic entity inherit
    (false, anc, { st1 with inheritLevel := st1.inheritLevel + 1 })

/-- The `switch (callback)` of SuperInternal on the resolved record:
`if (super->slot) super->slot();`, `create` alone receiving `data`. The first
line records the resolved record in the history. `invoke f arg st` runs the
`std::function` `f`; it yields `none` when that run does not return. -/
def SuperInternal.dispatch (invoke : Callable → Nat → ModState → Option ModState)
    (super : ObjectClass) (callback : ModSuper) (data : Nat) (st : ModState) :
    Option ModState :=
  let st1 : ModState := { st with history := st.history ++ [Event.target super callback] }
  match super.slot callback with
  | some f => invoke f (if callback = ModSuper.SUPER_CREATE then data else 0) st1
  | none => some st1

/-- The end of SuperInternal: `if (!override) inheritLevel--;
superLevels[inheritLevel]--; currentMod = curMod;`. -/
def SuperInternal.leave (override : Bool) (curMod : Option Nat) (st : ModState) : ModState :=
  let st1 : ModState := if override then st else { st with inheritLevel := st.inheritLevel - 1 }
  let key := levelKey st1.inheritLevel
  { st1 with
    superLevels :=
      Function.update st1.superLevels key
        ((st1.superLevels key + 4294967296 - 1) % 4294967296),
    currentMod := curMod }

/-- `SuperInternal(super, callback, data)`; `none` when the slot it calls does
not return. -/
def SuperInternal (invoke : Callable → Nat → ModState → Option ModState)
    (super : ObjectClass) (callback : ModSuper) (data : Nat) (st : ModState) :
    Option ModState :=
  let curMod := st.currentMod
  match super.inherited with
  | none => some st
  | some anc =>
    let e := SuperInternal.enter super anc st
    match SuperInternal.dispatch invoke e.2.1 callback data e.2.2 with
    | none => none
    | some st1 => some (SuperInternal.leave e.1 curMod st1)

/-- One statement of a registrant's function, called with argument `arg`. -/
def runStmt (invoke : Callable → Nat → ModState → Option ModState) (arg : Nat) :
    Stmt → ModState → Option ModState
  | .emit tag, st => some { st with history := st.history ++ [Event.user tag st.currentMod arg] }
  | .super classID callback data, st =>
    SuperInternal invoke (st.objectClassList classID) callback data st

/-- The body of a registrant's function, statement by statement. -/
def runUser (invoke : Callable → Nat → ModState → Option ModState) (arg : Nat) :
    UserFn → ModState → Option ModState
  | [], st => some st
  | s :: rest, st =>
    match runStmt invoke arg s st with
    | none => none
    | some st1 => runUser invoke arg rest st1

/-- Calling the closure held by a slot with argument `arg` (the `data` of
`create`, 0 for the slots without a parameter). -/
def Callable.call (invoke : Callable → Nat → ModState → Option ModState) :
    Callable → Nat → ModState → Option ModState
  | .plain fn, arg, st => runUser invoke arg fn st
  | .wrapped curMod fn, arg, st =>
    match runUser invoke arg fn { st with currentMod := curMod } with
    | none => none
    | some st1 => some { st1 with currentMod := none }
  | .superCall curMod info callback, arg, st =>
    match SuperInternal invoke (st.objectClassList info) callback
        (if callback = ModSuper.SUPER_CREATE then arg else 0) { st with currentMod := curMod } with
    | none => none
    | some st1 => some { st1 with currentMod := none }

/-- Running a slot with a bound on the depth of nested calls; `none` when the
bound is reached. -/
def invoke : Nat → Callable → Nat → ModState → Option ModState
  | 0, _, _, _ => none
  | fuel + 1, f, arg, st => Callable.call (invoke fuel) f arg st

/-! ### Registration -/

/-- The arguments of `ModRegisterObject_STD`; a null `std::function` or a null
`inherited` is `none`, a null `staticVars` or `modStaticVars` is 0. -/
structure RegisterArgs where
  staticVars : Nat
  modStaticVars : Nat
  name : CStr
  entityClassSize : Nat
  staticClassSize : Nat
  modClassSize : Nat
  update : Option UserFn
  lateUpdate : Option UserFn
  staticUpdate : Option UserFn
  draw : Option UserFn
  create : Option UserFn
  stageLoad : Option UserFn
  editorDraw : Option UserFn
  editorLoad : Option UserFn
  serialize : Option UserFn
  staticLoad : Option UserFn
  inherited : Option CStr
deriving DecidableEq, Repr

/-- The search `for (i = 0; i < count; ++i) if (HASH_MATCH_MD5(objectClassList[i].hash,
hash)) { ..; break; }`: the first index below `count` whose record has the hash. -/
def findHash (objectClassList : Nat → ObjectClass) (hash : Hash) (count : Nat) : Option Nat :=
  (List.range count).find? (fun i => decide ((objectClassList i).hash = hash))

/-- Modelled from the spec: `RSDK::RegisterObject_STD` (Object.cpp) is not among
the sources. Per sections 3 and 4.6 of the spec a record is created at
registration time with the hash of its name, its sizes and its call slots, and
with no ancestor; `ModRegisterObject_STD` then addresses it as
`objectClassList[objectClassCount - 1]`, so it is written at index
`objectClassCount`, which is incremented. -/
def RegisterObject_STD (md5 : CStr → Hash) (st : ModState) (staticVars : Nat) (name : CStr)
    (entityClassSize staticClassSize : Nat)
    (update lateUpdate staticUpdate draw create stageLoad editorDraw editorLoad serialize
      staticLoad : Option Callable) : ModState :=
  { st with
    objectClassList :=
      Function.update st.objectClassList st.objectClassCount
        (.mk { hash := md5 name, staticVars := staticVars,
               entityClassSize := entityClassSize, staticClassSize := staticClassSize,
               update := update, lateUpdate := lateUpdate, staticUpdate := staticUpdate,
               draw := draw, create := create, stageLoad := stageLoad,
               staticLoad := staticLoad, editorDraw := editorDraw,
               editorLoad := editorLoad, serialize := serialize } none),
    objectClassCount := st.objectClassCount + 1 }

/-- The slot left in the registered record for one of the nine inheritable
kinds: `if (fn) info->slot = [curMod, fn]..` and, under `if (inherited)`,
`if (!fn) info->slot = [curMod, info]..SuperInternal(info, kind, ..)`. -/
def ModRegisterObject_STD.slotFor (curMod : Option Nat) (info : Nat) (hasInherit : Bool)
    (kind : ModSuper) (old : Option Callable) (fn : Option UserFn) : Option Callable :=
  match fn with
  | some f => some (Callable.wrapped curMod f)
  | none => if hasInherit then some (Callable.superCall curMod info kind) else old

/-- `RSDK::ModRegisterObject_STD` (the `RETRO_REV0U` signature, with `staticLoad`).
The two side registries written under `if (HASH_MATCH_MD5(info->hash,
inherit->hash))`, `objectHookList` and the `staticVars` map of the mod, are not
part of `ModState`. -/
def ModRegisterObject_STD (md5 : CStr → Hash) (st : ModState) (a : RegisterArgs) : ModState :=
  let curMod := st.currentMod
  -- int32 preCount = objectClassCount + 1;  GEN_HASH_MD5(name, hash);
  let hash := md5 a.name
  -- for (i < objectClassCount) if (match) { objectClassCount = i; inherit = new ..;
  --   allocatedInherits.push_back(inherit); --preCount; if (!inherited) inherited = name; break; }
  let found := findHash st.objectClassList hash st.objectClassCount
  let objectClassCount1 : Nat :=
    match found with
    | some i => i
    | none => st.objectClassCount
  let preCount : Nat :=
    match found with
    | some _ => st.objectClassCount + 1 - 1
    | none => st.objectClassCount + 1
  let inherit1 : Option ObjectClass := found.map st.objectClassList
  let inherited1 : Option CStr :=
    match found with
    | some _ => some (a.inherited.getD a.name)
    | none => a.inherited
  -- if (inherited) { GEN_HASH_MD5(inherited, hash); if (!inherit) for (i < preCount) ..;
  --   if (!inherit) inherited = NULL; }
  let inherit2 : Option ObjectClass :=
    match inherited1, inherit1 with
    | some inh, none => (findHash st.objectClassList (md5 inh) preCount).map st.objectClassList
    | _, _ => inherit1
  let inherited2 : Option CStr :=
    match inherited1 with
    | some inh => if inherit2.isSome then some inh else none
    | none => none
  let allocated : List ObjectClass :=
    match inherit2 with
    | some c => st.allocatedInherits ++ [c]
    | none => st.allocatedInherits
  -- `inherit` as dereferenced under `if (inherited)`
  let inherit : Option ObjectClass :=
    match inherited2 with
    | some _ => inherit2
    | none => none
  -- if (inherited) if (inherit->entityClassSize > entityClassSize) entityClassSize = ..;
  let entityClassSize : Nat :=
    match inherit with
    | some c => if c.info.entityClassSize > a.entityClassSize then c.info.entityClassSize
                else a.entityClassSize
    | none => a.entityClassSize
  let st1 : ModState :=
    RegisterObject_STD md5
      { st with objectClassCount := objectClassCount1, allocatedInherits := allocated }
      a.staticVars a.name entityClassSize a.staticClassSize
      none none none none none none none none none none
  -- ObjectClass *info = &objectClassList[objectClassCount - 1];
  let info := st1.objectClassCount - 1
  let rec0 := st1.objectClassList info
  let r := rec0.info
  let slot := ModRegisterObject_STD.slotFor curMod info inherit.isSome
  let sameHash : Bool :=
    match inherit with
    | some c => decide (r.hash = c.hash)
    | none => false
  let r1 : ClassInfo :=
    { r with
      staticVars := if sameHash then (inherit.map (fun c => c.info.staticVars)).getD r.staticVars
                    else r.staticVars,
      staticClassSize :=
        if sameHash then (inherit.map (fun c => c.info.staticClassSize)).getD r.staticClassSize
        else r.staticClassSize,
      update := slot .SUPER_UPDATE r.update a.update,
      lateUpdate := slot .SUPER_LATEUPDATE r.lateUpdate a.lateUpdate,
      staticUpdate := slot .SUPER_STATICUPDATE r.staticUpdate a.staticUpdate,
      draw := slot .SUPER_DRAW r.draw a.draw,
      create := slot .SUPER_CREATE r.create a.create,
      stageLoad := slot .SUPER_STAGELOAD r.stageLoad a.stageLoad,
      staticLoad :=
        match a.staticLoad with
        | some f => some (Callable.wrapped curMod f)
        | none => r.staticLoad,
      editorDraw := slot .SUPER_EDITORDRAW r.editorDraw a.editorDraw,
      editorLoad := slot .SUPER_EDITORLOAD r.editorLoad a.editorLoad,
      serialize := slot .SUPER_SERIALIZE r.serialize a.serialize }
  let inheritedPtr : Option ObjectClass :=
    match inherit with
    | some c => some c
    | none => rec0.inherited
  -- objectClassCount = preCount;
  { st1 with
    objectClassList := Function.update st1.objectClassList info (.mk r1 inheritedPtr),
    objectClassCount := preCount }

/-- The index of the record written by `ModRegisterObject_STD md5 st a`: the
first live entry with the hash of the name, else the old `objectClassCount`. -/
def registeredIndex (md5 : CStr → Hash) (st : ModState) (a : RegisterArgs) : Nat :=
  (findHash st.objectClassList (md5 a.name) st.objectClassCount).getD st.objectClassCount

/-- A registration made by mod `m`: `ModRegisterObject_STD` runs with
`currentMod` pointing to `m`. -/
def registerBy (md5 : CStr → Hash) (st : ModState) (r : Option Nat × RegisterArgs) : ModState :=
  ModRegisterObject_STD md5 { st with currentMod := r.1 } r.2

/-- A sequence of registrations, in order. -/
def registerAll (md5 : CStr → Hash) (st : ModState)
    (regs : List (Option Nat × RegisterArgs)) : ModState :=
  regs.foldl (registerBy md5) st

/-- The function a registrant passes for a slot kind. -/
def RegisterArgs.slot (a : RegisterArgs) : ModSuper → Option UserFn
  | .SUPER_UPDATE => a.update
  | .SUPER_LATEUPDATE => a.lateUpdate
  | .SUPER_STATICUPDATE => a.staticUpdate
  | .SUPER_DRAW => a.draw
  | .SUPER_CREATE => a.create
  | .SUPER_STAGELOAD => a.stageLoad
  | .SUPER_EDITORDRAW => a.editorDraw
  | .SUPER_EDITORLOAD => a.editorLoad
  | .SUPER_SERIALIZE => a.serialize

/-! ### Concrete states used to evaluate the definitions -/

/-- A stand-in digest for evaluating the definitions on examples. -/
def exampleMd5 (name : CStr) : Hash := name.foldl (fun h c => h * 131 + c.toNat) 7

/-- The state after `InitModAPI` clears `superLevels` and `inheritLevel`, with
an empty class table. -/
def initialState : ModState :=
  { currentMod := none, inheritLevel := 0, superLevels := fun _ => 0,
    objectClassList := fun _ => ObjectClass.zero, objectClassCount := 0,
    allocatedInherits := [], history := [] }

/-- Registration arguments with the given name, `draw` function and ancestor
name, every other slot unset. -/
def exampleArgs (name : CStr) (draw : Option UserFn) (inherited : Option CStr) : RegisterArgs :=
  { staticVars := 100, modStaticVars := 0, name := name, entityClassSize := 64,
    staticClassSize := 16, modClassSize := 0, update := none, lateUpdate := none,
    staticUpdate := none, draw := draw, create := none, stageLoad := none, editorDraw := none,
    editorLoad := none, serialize := none, staticLoad := none, inherited := inherited }

/-- The table holding the engine's own class `Enemy` (no call slots) and the
class `Boss` registered by mod 1 with the explicit ancestor name `Enemy`. -/
def bossState : ModState :=
  registerBy exampleMd5
    (RegisterObject_STD exampleMd5 initialState 0 "Enemy".toList 32 8
      none none none none none none none none none none)
    (some 1, exampleArgs "Boss".toList none (some "Enemy".toList))

/-- The state `bossState` with every `superLevels` count at `0xFFFFFFFF`. -/
def bossStateFull : ModState := { bossState with superLevels := fun _ => 4294967295 }

/-- A chain of `d` synthesized defaults below a record: the record and its first
`d - 1` ancestors hold in slot `callback` the call of SuperInternal on table
entry `info`, and the record `d` links down has no ancestor and an unset slot. -/
def DefaultChain (info : Nat) (callback : ModSuper) : Nat → ObjectClass → Prop
  | 0, c => c.inherited = none ∧ c.slot callback = none
  | d + 1, c =>
    (∃ m, c.slot callback = some (Callable.superCall m info callback)) ∧
    ∃ anc, c.inherited = some anc ∧ DefaultChain info callback d anc

/-- The draw function of mod 3 in the Player scenario: an action, Super(draw) on
the class at table index 0, another action. -/
def playerDraw : UserFn := [Stmt.emit 1, Stmt.super 0 ModSuper.SUPER_DRAW 0, Stmt.emit 2]

/-- The table after the class Player was registered by mods 1, 2 and 3, mod 3
alone passing a draw function. -/
def playerState : ModState :=
  registerAll exampleMd5 initialState
    [(some 1, exampleArgs "Player".toList none none),
     (some 2, exampleArgs "Player".toList none none),
     (some 3, exampleArgs "Player".toList (some playerDraw) none)]

/-! ## SortMods (ModAPI.cpp) -/

/-- One step of the stable sort: `a`, which stood before every element of the
sorted list, goes behind the elements that `comp` puts strictly before it. -/
def stable_sort.insert {α : Type} (comp : α → α → Bool) (a : α) : List α → List α
  | [] => [a]
  | b :: rest => if comp b a then b :: stable_sort.insert comp a rest else a :: b :: rest

/-- `std::stable_sort(first, last, comp)` of the C++ library: the elements in the
order of `comp`, equivalent elements keeping their relative order; computed by
insertion from the right. -/
def stable_sort {α : Type} (comp : α → α → Bool) (l : List α) : List α :=
  l.foldr (stable_sort.insert comp) []

/-- The comparison passed to `std::stable_sort` in SortMods:
`if (!(a.active && b.active)) return a.active; return false;`. -/
def SortMods.comp (a b : ModInfo) : Bool :=
  if !(a.active && b.active) then a.active else false

/-- The body of the first loop of SortMods for one mod: it is deactivated when
it is active and its target version is neither -1 nor `ENGINE_VERSION`. -/
def SortMods.checkVersion (ENGINE_VERSION : Nat) (mod : ModInfo) : ModInfo :=
  let targetVersion : Int := if mod.forceVersion ≠ 0 then mod.forceVersion else mod.targetVersion
  if mod.active ∧ targetVersion ≠ -1 ∧ targetVersion ≠ (ENGINE_VERSION : Int) then
    { mod with active := false }
  else mod

/-- `RSDK::SortMods`; `ENGINE_VERSION` is `engine.version`. -/
def SortMods (ENGINE_VERSION : Nat) (modList : List ModInfo) : List ModInfo :=
  let modList1 :=
    if ENGINE_VERSION ≠ 0 then modList.map (SortMods.checkVersion ENGINE_VERSION) else modList
  stable_sort SortMods.comp modList1

/-- A mod with the given id and activation and no files. -/
def plainMod (id : CStr) (active : Bool) : ModInfo :=
  { id := id, active := active, fileMap := [], excludedFiles := [], targetVersion := -1 }

/-! ## Data packs (Reader.cpp)

* `dataFileList` and `dataPacks` are the static arrays, read as functions from
  the index; `dataPackCount` is a `uint8` and `dataFileListCount` a `uint16`.
* The file system, the signature constant and the way `ReadInt16` and
  `ReadInt32` form a value from the bytes they read are parameters
  (`ReaderEnv`); the MD5 digest of a string, as its four 32-bit words, is the
  parameter `md5w`, and `HASH_MATCH_MD5` is the equality of the four words.
-/

/-- The four 32-bit words of an MD5 digest (`RETRO_HASH_MD5`). -/
abbrev HashMD5 := Nat × Nat × Nat × Nat

/-- The word `hash[i]` of a digest. -/
def HashMD5.word (hash : HashMD5) : Nat → Nat
  | 0 => hash.1
  | 1 => hash.2.1
  | 2 => hash.2.2.1
  | _ => hash.2.2.2

/-- An entry of `dataFileList` (`RSDKFileInfo`). -/
structure RSDKFileInfo where
  hash : HashMD5
  size : Nat
  offset : Nat
  encrypted : Bool
  useFileBuffer : Bool
  packID : Nat
deriving DecidableEq, Repr

/-- An entry of `dataPacks` (`RSDKContainer`). -/
structure RSDKContainer where
  name : CStr
  fileBuffer : Option (List Nat)
  fileCount : Int
deriving DecidableEq, Repr

/-- A zeroed index entry. -/
def RSDKFileInfo.zero : RSDKFileInfo :=
  { hash := (0, 0, 0, 0), size := 0, offset := 0, encrypted := false, useFileBuffer := false,
    packID := 0 }

/-- A pack record after `MEM_ZERO`. -/
def RSDKContainer.zero : RSDKContainer := { name := [], fileBuffer := none, fileCount := 0 }

/-- The globals of Reader.cpp. -/
structure ReaderState where
  dataFileList : Nat → RSDKFileInfo
  dataPacks : Nat → RSDKContainer
  dataPackCount : Nat
  dataFileListCount : Nat
  useDataPack : Bool

/-- What Reader.cpp takes from outside: `loadFile path` is the content of the
external file that `LoadFile(&info, path, FMODE_RB)` opens (`none` when it
returns false), `fOpen name` tells whether `fOpen(name, "rb")` succeeds,
`int16Of` is the value `ReadInt16` returns for the two bytes read (an integer,
the header that fixes its signedness not being among the sources), `int32Of`
the value of `ReadInt32(.., false)` for the four bytes read, taken modulo 2^32
where it is stored, and `pastEnd pos` is the byte found in the destination of
a read at a position past the end of the file. -/
structure ReaderEnv where
  RSDK_SIGNATURE_RSDK : Nat
  int16Of : List Nat → Int
  int32Of : List Nat → Nat
  loadFile : CStr → Option (List Nat)
  fOpen : CStr → Bool
  pastEnd : Nat → Nat

/-- Modelled from the spec: `ReadBytes`, `ReadInt8`, `ReadInt16` and `ReadInt32`
(Reader.hpp) are not among the sources. Per sections 4.3 and 6 of the spec the
header and the index are read in sequence from the start of the file; `readAt
env content pos n` is the `n` bytes a read at position `pos` delivers, a byte
past the end of the file being `env.pastEnd`. -/
def readAt (env : ReaderEnv) (content : List Nat) (pos n : Nat) : List Nat :=
  (List.range n).map (fun i => (content.get? (pos + i)).getD (env.pastEnd (pos + i)))

/-- The body of the loop `for (f = 0; f < fileCount; ++f)` of LoadDataPack: the
record written to `dataFileList[f]`. The signature, `'v'`, the version and the
count take bytes 0..7, so the reads for entry `f` start at byte `8 + 24 * f`. -/
def LoadDataPack.entry (env : ReaderEnv) (content : List Nat) (useBuffer : Bool)
    (dataPackCount : Nat) (f : Nat) : RSDKFileInfo :=
  let word (y : Nat) : Nat :=
    let b := readAt env content (8 + 24 * f + 4 * y) 4
    ((b.getD 0 0 <<< 24) ||| (b.getD 1 0 <<< 16) ||| (b.getD 2 0 <<< 8) ||| (b.getD 3 0 <<< 0))
      % 4294967296
  let offset := env.int32Of (readAt env content (8 + 24 * f + 16) 4) % 4294967296
  let size := env.int32Of (readAt env content (8 + 24 * f + 20) 4) % 4294967296
  { hash := (word 0, word 1, word 2, word 3),
    offset := offset,
    encrypted := decide (size &&& 0x80000000 ≠ 0),
    size := size &&& 0x7FFFFFFF,
    useFileBuffer := useBuffer,
    packID := dataPackCount }

/-- `RSDK::LoadDataPack(filePath, fileOffset, useBuffer)`: the result flag and
the new globals. `userFileDir` is `SKU::userFileDir`. -/
def LoadDataPack (env : ReaderEnv) (userFileDir : CStr) (st : ReaderState) (filePath : CStr)
    (_fileOffset : Nat) (useBuffer : Bool) : Bool × ReaderState :=
  -- MEM_ZERO(dataPacks[dataPackCount]); useDataPack = false;
  let st0 : ReaderState :=
    { st with
      dataPacks := Function.update st.dataPacks st.dataPackCount RSDKContainer.zero,
      useDataPack := false }
  -- sprintf_s(dataPackPath, sizeof(dataPackPath), "%s%s", SKU::userFileDir, filePath);
  let dataPackPath : CStr := (userFileDir ++ filePath).take 255
  match env.loadFile dataPackPath with
  | none => (false, { st0 with useDataPack := false })
  | some content =>
    let sig := env.int32Of (readAt env content 0 4) % 4294967296
    if sig ≠ env.RSDK_SIGNATURE_RSDK then (false, st0)
    else
      let fileCount := env.int16Of (readAt env content 6 2)
      let list : Nat → RSDKFileInfo :=
        (List.range fileCount.toNat).foldl
          (fun l f => Function.update l f
            (LoadDataPack.entry env content useBuffer st0.dataPackCount f))
          st0.dataFileList
      let pack : RSDKContainer :=
        { name := dataPackPath, fileCount := fileCount,
          fileBuffer := if useBuffer then some content else none }
      (true,
        { st0 with
          useDataPack := true,
          dataFileList := list,
          dataPacks := Function.update st0.dataPacks st0.dataPackCount pack,
          dataFileListCount := (((st0.dataFileListCount : Int) + fileCount) % 65536).toNat,
          dataPackCount := (st0.dataPackCount + 1) % 256 })

/-- The C-locale `toupper` of `ctype.h`: only `a`..`z` change. -/
def toupper (c : Char) : Char :=
  if 97 ≤ c.toNat ∧ c.toNat ≤ 122 then Char.ofNat (c.toNat - 32) else c

/-- Modelled from the spec: `StringLowerCase` (String.hpp) is not among the
sources; section 4.3 of the spec has the lookup key `digest(lowercase(name))`. -/
def StringLowerCase (s : CStr) : CStr := s.map tolower

/-- Modelled from the spec: `StringUpperCase` (String.hpp) is not among the
sources; section 4.2 of the spec has the identifier converted to uppercase. -/
def StringUpperCase (s : CStr) : CStr := s.map toupper

/-- The sixteen key bytes GenerateELoadKeys takes from four digest words:
`key[i * 4 + j] = (hash[i] >> (8 * (j ^ 3))) & 0xFF`. -/
def GenerateELoadKeys.keyOf (hash : HashMD5) : List Nat :=
  (List.range 4).flatMap (fun i =>
    (List.range 4).map (fun j => (hash.word i >>> (8 * (j ^^^ 3))) &&& 0xFF))

/-- `RSDK::GenerateELoadKeys(info, key1, key2)`, the variant compiled with
`RETRO_USE_ORIGINAL_CODE` 0; `key2` is printed with `%d`. -/
def GenerateELoadKeys (md5w : CStr → HashMD5) (info : FileInfo) (key1 : CStr) (key2 : Int) :
    FileInfo :=
  { info with
    encryptionKeyA := GenerateELoadKeys.keyOf (md5w (StringUpperCase key1)),
    encryptionKeyB := GenerateELoadKeys.keyOf (md5w (Int.repr key2).toList) }

/-- The search of OpenDataFile: the first index below `count` whose entry has
the four hash words. -/
def findDataFile (dataFileList : Nat → RSDKFileInfo) (hash : HashMD5) (count : Nat) :
    Option Nat :=
  (List.range count).find? (fun f => decide ((dataFileList f).hash = hash))

/-- `RSDK::OpenDataFile(info, filename)`: the result flag and the `FileInfo`. -/
def OpenDataFile (env : ReaderEnv) (md5w : CStr → HashMD5) (st : ReaderState)
    (info : FileInfo) (filename : CStr) : Bool × FileInfo :=
  let hash := md5w (StringLowerCase filename)
  match findDataFile st.dataFileList hash st.dataFileListCount with
  | none => (false, info)
  | some f =>
    let file := st.dataFileList f
    let info1 : FileInfo := { info with usingFileBuffer := file.useFileBuffer }
    if !file.useFileBuffer && !env.fOpen (st.dataPacks file.packID).name then
      (false, { info1 with file := none })
    else
      let info2 : FileInfo :=
        if !file.useFileBuffer then
          -- fOpen, then fSeek(info->file, file->offset, SEEK_SET)
          { info1 with file := some ( FileIO.disk (st.dataPacks file.packID).name file.offset) }
        else
          { info1 with
            file := some ( FileIO.memory file.packID file.offset),
            fileBuffer := some ( FileIO.memory file.packID file.offset) }
      let info3 : FileInfo :=
        { info2 with
          fileSize := file.size, readPos := 0, fileOffset := file.offset,
          encrypted := file.encrypted,
          encryptionKeyA := List.replicate 16 0, encryptionKeyB := List.replicate 16 0 }
      if info3.encrypted then
        (true,
          { GenerateELoadKeys md5w info3 filename (info3.fileSize : Int) with
            eKeyNo := (info3.fileSize / 4) &&& 0x7F, eKeyPosA := 0, eKeyPosB := 8,
            eNybbleSwap := false })
      else (true, info3)

/-- The number a sequence of bytes denotes with the most significant byte
first. -/
def bigEndian (bytes : List Nat) : Nat := bytes.foldl (fun acc b => acc * 256 + b) 0

/-- The `n` bytes of a file from position `pos` on. -/
def bytesAt (content : List Nat) (pos n : Nat) : List Nat := (content.drop pos).take n

/-! ### A concrete reader used to evaluate the definitions -/

/-- The number a sequence of bytes denotes with the least significant byte
first. -/
def littleEndian (bytes : List Nat) : Nat := bytes.foldr (fun b acc => b + 256 * acc) 0

/-- The four bytes of a 32-bit word, least significant first. -/
def le32 (w : Nat) : List Nat := [w % 256, w / 256 % 256, w / 65536 % 256, w / 16777216 % 256]

/-- The four bytes of a 32-bit word, most significant first. -/
def be32 (w : Nat) : List Nat := (le32 w).reverse

/-- A stand-in for the MD5 digest in concrete evaluations: four words that
tell the example names apart. -/
def exampleMd5w (s : CStr) : HashMD5 :=
  (exampleMd5 s % 4294967296, s.length, 0x67452301, 0xEFCDAB89)

/-- A little-endian reader over the files `files` (path, content): the
signature is the bytes `RSDK`, a read past the end of a file leaves 0. -/
def exampleEnv (files : List (CStr × List Nat)) : ReaderEnv :=
  { RSDK_SIGNATURE_RSDK := 0x4B445352,
    int16Of := fun b => (littleEndian b : Int),
    int32Of := littleEndian,
    loadFile := fun p => files.lookup p,
    fOpen := fun p => (files.lookup p).isSome,
    pastEnd := fun _ => 0 }

/-- The 24 bytes of an index entry for the file `name`. -/
def packEntry (name : CStr) (offset size : Nat) (encrypted : Bool) : List Nat :=
  (List.range 4).flatMap (fun i => be32 ((exampleMd5w (StringLowerCase name)).word i)) ++
    le32 offset ++
    le32 (size + if encrypted then 0x80000000 else 0)

/-- The header and index of a pack with the given entries. -/
def packFile (entries : List (List Nat)) : List Nat :=
  [0x52, 0x53, 0x44, 0x4B, 0x76, 0x35, entries.length % 256, entries.length / 256 % 256] ++
    entries.flatten

/-- Pack A: two entries, the second one encrypted. -/
def packA : List Nat :=
  packFile [packEntry "Data/A.bin".toList 56 16 false, packEntry "Data/B.bin".toList 72 4 true]

/-- Pack B: one entry. -/
def packB : List Nat := packFile [packEntry "Data/C.bin".toList 32 8 false]

/-- The files on disk: the two packs, a file that is not a pack, and a pack
that declares one entry and ends after its header. -/
def exampleFiles : List (CStr × List Nat) :=
  [("Data.rsdk".toList, packA), ("Extra.rsdk".toList, packB),
    ("Bad.rsdk".toList, [0x50, 0x4B, 0x03, 0x04, 0, 0, 0, 0]),
    ("Short.rsdk".toList, [0x52, 0x53, 0x44, 0x4B, 0x76, 0x35, 1, 0])]

/-- The globals of Reader.cpp at start-up. -/
def ReaderState.initial : ReaderState :=
  { dataFileList := fun _ => RSDKFileInfo.zero, dataPacks := fun _ => RSDKContainer.zero,
    dataPackCount := 0, dataFileListCount := 0, useDataPack := false }

/-- The state after `LoadDataPack("Data.rsdk", 0, false)`. -/
def stateA : ReaderState :=
  (LoadDataPack (exampleEnv exampleFiles) [] ReaderState.initial "Data.rsdk".toList 0 false).2

/-- The state after loading pack A and then pack B. -/
def stateAB : ReaderState :=
  (LoadDataPack (exampleEnv exampleFiles) [] stateA "Extra.rsdk".toList 0 false).2

/-- A fresh `FileInfo`, as `InitFileInfo` leaves it. -/
def FileInfo.initial : FileInfo :=
  { encryptionKeyA := List.replicate 16 0, encryptionKeyB := List.replicate 16 0,
    eKeyPosA := 0, eKeyPosB := 0, eKeyNo := 0, eNybbleSwap := false }

/-- Two calls of LoadDataPack in a row: pack A, then pack B. -/
def LoadDataPack.twice (env : ReaderEnv) (userFileDir : CStr) (st : ReaderState)
    (pathA : CStr) (useA : Bool) (pathB : CStr) (useB : Bool) : ReaderState :=
  (LoadDataPack env userFileDir (LoadDataPack env userFileDir st pathA 0 useA).2 pathB 0 useB).2

/-! ## Rescanning and excluding overlay files (ModAPI.cpp) -/

/-- What ScanModFolder asks of the file system: `pathExists` is `PS3_PathExists`
(`fs::exists` on other platforms), `isDirectory` is `PS3_IsDirectory`, and
`listDirectoryRecursive dir` is the list of relative paths that
`PS3_ListDirectoryRecursive(dir, "", foundFiles)` delivers, `none` when it
returns false. -/
structure FileSystem where
  pathExists : CStr → Bool
  isDirectory : CStr → Bool
  listDirectoryRecursive : CStr → Option (List CStr)

/-- `std::map::insert(std::pair(key, value))`: the pair is added when the map
has no element with the key, and the map is left alone when it has one. -/
def map_insert (fileMap : List (CStr × CStr)) (key value : CStr) : List (CStr × CStr) :=
  match fileMap.lookup key with
  | some _ => fileMap
  | none => fileMap ++ [(key, value)]

/-- `RSDK::ScanModFolder(info, targetFile)` for a non-null `info` and a
`targetFile` shorter than 256 characters, `none` being the null pointer: the
result flag and the new `ModInfo`. The parameters `fromLoadMod` and
`loadingBar` only draw the progress bar and are left out. -/
def ScanModFolder (fs : FileSystem) (info : ModInfo) (targetFile : Option CStr) :
    Bool × ModInfo :=
  let modDir := info.path
  match targetFile with
  | some target =>
    let targetFileStr0 : CStr := target.map tolower
    -- if (targetFile && targetFileStr.empty()) { lowercase again; std::replace(.., '\\', '/'); }
    let targetFileStr : CStr :=
      if targetFileStr0 = [] then replaceBackslash (target.map tolower) else targetFileStr0
    if fs.pathExists (modDir ++ "/".toList ++ targetFileStr) then
      (true,
        { info with
          fileMap :=
            map_insert info.fileMap targetFileStr (modDir ++ "/".toList ++ targetFileStr) })
    else (false, info)
  | none =>
    -- if (!targetFile) info->fileMap.clear();
    let info1 : ModInfo := { info with fileMap := [] }
    if fs.pathExists modDir && fs.isDirectory modDir then
      match fs.listDirectoryRecursive modDir with
      | some foundFiles =>
        (true,
          { info1 with
            fileMap :=
              foundFiles.foldl
                (fun fileMap originalRelativePath =>
                  map_insert fileMap
                    (originalRelativePath.map (fun c => if c = '\\' then '/' else tolower c))
                    (modDir ++ "/".toList ++ originalRelativePath))
                info1.fileMap })
      | none => (true, info1)
    else (true, info1)

/-- The order of the `std::string` keys of a `std::map`: `a < b`, lexicographic
on the character codes. -/
def stringLess : CStr → CStr → Bool
  | [], [] => false
  | [], _ :: _ => true
  | _ :: _, [] => false
  | a :: as, b :: bs =>
    if a.toNat < b.toNat then true
    else if b.toNat < a.toNat then false
    else stringLess as bs

/-- Adding a key to the ascending list of the keys of a `std::map`; a key the
list holds is not added again. -/
def mapKeys.insert (key : CStr) : List CStr → List CStr
  | [] => [key]
  | k :: rest =>
    if stringLess key k then key :: k :: rest
    else if stringLess k key then k :: mapKeys.insert key rest
    else k :: rest

/-- The keys an iteration `for (auto file : fileMap)` meets, in its order: the
keys of the list that stands for the `std::map`, ascending, each once. -/
def mapKeys (fileMap : List (CStr × CStr)) : List CStr :=
  (fileMap.map (fun file => file.1)).foldr mapKeys.insert []

/-- `RSDK::ExcludeAllFiles`: every key of the mod's `fileMap` is pushed to its
`excludedFiles` and the `fileMap` is cleared. The keys are pushed in the order
the iteration over the `std::map` meets them, ascending. -/
def ExcludeAllFiles (modList : List ModInfo) (currentMod : Option Nat) (id : Option CStr) :
    Bool × List ModInfo :=
  match id with
  | none => (false, modList)
  | some id0 =>
    let id1 : CStr :=
      match id0, currentMod with
      | [], some cur => (modList[cur]?.map (fun m => m.id)).getD id0
      | _, _ => id0
    let m := findActiveMod modList id1
    if m = modList.length then (false, modList)
    else
      match modList[m]? with
      | none => (false, modList)
      | some mod =>
        (true,
          modList.set m
            { mod with
              excludedFiles := mod.excludedFiles ++ mapKeys mod.fileMap,
              fileMap := [] })

/-- `RSDK::ReloadFile` for a path shorter than 256 characters: when the
lowercased path is excluded, every occurrence is erased from `excludedFiles`
and the function returns; otherwise the single file is scanned. -/
def ReloadFile (fs : FileSystem) (modList : List ModInfo) (currentMod : Option Nat)
    (id : Option CStr) (path : CStr) : Bool × List ModInfo :=
  match id with
  | none => (false, modList)
  | some id0 =>
    let id1 : CStr :=
      match id0, currentMod with
      | [], some cur => (modList[cur]?.map (fun m => m.id)).getD id0
      | _, _ => id0
    let m := findActiveMod modList id1
    if m = modList.length then (false, modList)
    else
      let pathLower := path.map tolower
      match modList[m]? with
      | none => (false, modList)
      | some mod =>
        if pathLower ∈ mod.excludedFiles then
          (true,
            modList.set m
              { mod with excludedFiles := mod.excludedFiles.filter (fun e => e ≠ pathLower) })
        else (true, modList.set m (ScanModFolder fs mod (some path)).2)

/-- `RSDK::ReloadAllFiles`: the exclusions are cleared and the folder is
scanned again. -/
def ReloadAllFiles (fs : FileSystem) (modList : List ModInfo) (currentMod : Option Nat)
    (id : Option CStr) : Bool × List ModInfo :=
  match id with
  | none => (false, modList)
  | some id0 =>
    let id1 : CStr :=
      match id0, currentMod with
      | [], some cur => (modList[cur]?.map (fun m => m.id)).getD id0
      | _, _ => id0
    let m := findActiveMod modList id1
    if m = modList.length then (false, modList)
    else
      match modList[m]? with
      | none => (false, modList)
      | some mod =>
        (true, modList.set m (ScanModFolder fs { mod with excludedFiles := [] } none).2)

/-! ### A concrete overlay used to evaluate the definitions -/

/-- An active mod `B` in folder `mods/B` whose scan found `Data/X.png`. -/
def overlayMod : ModInfo :=
  { id := "B".toList, active := true, path := "mods/B".toList,
    fileMap := [("data/x.png".toList, "mods/B/Data/X.png".toList)], excludedFiles := [] }

/-- A file system that holds `mods/B/Data/X.png` and answers for any letter
case of a path. -/
def overlayFs : FileSystem :=
  { pathExists := fun p => decide (p.map tolower = "mods/b/data/x.png".toList) ||
      decide (p.map tolower = "mods/b".toList),
    isDirectory := fun p => decide (p.map tolower = "mods/b".toList),
    listDirectoryRecursive := fun p =>
      if p.map tolower = "mods/b".toList then some ["Data/X.png".toList] else none }

/-- The id the file functions search for:
`if (!strlen(id) && currentMod) id = currentMod->id.c_str();`. -/
def effectiveId (modList : List ModInfo) (currentMod : Option Nat) (id : CStr) : CStr :=
  match id, currentMod with
  | [], some cur => (modList[cur]?.map (fun m => m.id)).getD id
  | _, _ => id

/-- The local `int32 targetVersion = modList[m].forceVersion ?
modList[m].forceVersion : modList[m].targetVersion;` of SortMods. -/
def SortMods.targetVersion (mod : ModInfo) : Int :=
  if mod.forceVersion ≠ 0 then mod.forceVersion else mod.targetVersion

/-- A mod with the given id, activation and version fields and no files. -/
def versionMod (id : CStr) (active : Bool) (forceVersion targetVersion : Int) : ModInfo :=
  { id := id, active := active, fileMap := [], excludedFiles := [],
    forceVersion := forceVersion, targetVersion := targetVersion }

/-! ## LoadModSettings (ModAPI.cpp) -/

/-- The global `modSettings`; `versionOverride` takes the `int32`
`forceVersion` of a mod. -/
structure ModSettings where
  redirectSaveRAM : Bool
  disableGameLogic : Bool
  versionOverride : Int
  forceScripts : Bool
deriving DecidableEq, Repr

/-- The search `int32 start = modList.size() - 1; while ((start != -1) &&
!modList[start].active) --start;` of LoadModSettings; `n` is `start + 1`, and
the result is `none` when `start` ends at -1. -/
def LoadModSettings.start (modList : List ModInfo) : Nat → Option Nat
  | 0 => none
  | n + 1 =>
    match modList[n]? with
    | some mod => if mod.active then some n else LoadModSettings.start modList n
    | none => LoadModSettings.start modList n

/-- The body of the loop `for (int32 i = start; i >= 0; --i)` of
LoadModSettings for the mod `modList[i]`, on the pair of `customUserFileDir`
and `modSettings`; the text is taken to fit the 256-byte buffer. -/
def LoadModSettings.visit (userFileDir : CStr) (acc : CStr × ModSettings) (mod : ModInfo) :
    CStr × ModSettings :=
  let customUserFileDir : CStr :=
    if mod.redirectSaveRAM then
      if userFileDir ≠ [] then userFileDir ++ "mods/".toList ++ mod.folderName ++ "/".toList
      else "mods/".toList ++ mod.folderName ++ "/".toList
    else acc.1
  (customUserFileDir,
    { redirectSaveRAM := acc.2.redirectSaveRAM || mod.redirectSaveRAM,
      disableGameLogic := acc.2.disableGameLogic || mod.disableGameLogic,
      versionOverride := if mod.forceVersion ≠ 0 then mod.forceVersion else acc.2.versionOverride,
      forceScripts := acc.2.forceScripts || mod.forceScripts })

/-- `RSDK::LoadModSettings`: the new `customUserFileDir` and `modSettings`.
`userFileDir` is `SKU::userFileDir` and `forceScripts` is
`customSettings.forceScripts`. The loop visits the mods at the indices
`start`, `start - 1`, .., 0. -/
def LoadModSettings (userFileDir : CStr) (forceScripts : Bool) (modList : List ModInfo) :
    CStr × ModSettings :=
  let init : CStr × ModSettings :=
    ([], { redirectSaveRAM := false, disableGameLogic := false, versionOverride := 0,
           forceScripts := forceScripts })
  if modList.isEmpty then init
  else
    match LoadModSettings.start modList modList.length with
    | none => init
    | some start =>
      ((modList.take (start + 1)).reverse).foldl (LoadModSettings.visit userFileDir) init

/-- A mod for the settings examples: its folder name, activation and the two
flags. -/
def settingsMod (folderName : CStr) (active redirectSaveRAM disableGameLogic : Bool) : ModInfo :=
  { id := folderName, active := active, fileMap := [], excludedFiles := [],
    folderName := folderName, redirectSaveRAM := redirectSaveRAM,
    disableGameLogic := disableGameLogic }

/-! ## Uses of the cipher cursor -/

/-- One use of the cursor of an open file: a call of DecryptBytes on a buffer,
or a call of SkipBytes. -/
inductive CursorOp where
  | decrypt (buffer : List Nat)
  | skip (size : Int)
deriving DecidableEq, Repr

/-- The cursor after a sequence of DecryptBytes and SkipBytes calls. -/
def runCursorOps (info : FileInfo) : List CursorOp → FileInfo
  | [] => info
  | CursorOp.decrypt buffer :: rest => runCursorOps (DecryptBytes info buffer).1 rest
  | CursorOp.skip size :: rest => runCursorOps (SkipBytes info size) rest

/-- The table after mod 1 registered the class `Enemy` with a draw function
and mod 2 registered the class `Boss` with the ancestor name `Enemy` and no
draw function, at a moment when mod 2 is the current mod. -/
def hookedState : ModState :=
  { registerAll exampleMd5 initialState
      [(some 1, exampleArgs "Enemy".toList (some [Stmt.emit 7]) none),
       (some 2, exampleArgs "Boss".toList none (some "Enemy".toList))]
    with currentMod := some 2 }

/-! ## The reference cipher

The cipher as section 4.2 of the specification words it, on a state of its
own; it is compared with DecryptBytes below. -/

/-- The cipher state of the specification: the cursor and the two keys. -/
structure CipherState where
  keyIndex : Nat
  posA : Nat
  posB : Nat
  nybbleSwap : Bool
  keyA : List Nat
  keyB : List Nat
deriving DecidableEq, Repr

/-- The cipher state held in a `FileInfo`. -/
def FileInfo.cipherState (info : FileInfo) : CipherState :=
  { keyIndex := info.eKeyNo, posA := info.eKeyPosA, posB := info.eKeyPosB,
    nybbleSwap := info.eNybbleSwap, keyA := info.encryptionKeyA, keyB := info.encryptionKeyB }

/-- The exchange of the high and the low nibble of a byte. -/
def Reference.swapNibbles (x : Nat) : Nat := x % 16 * 16 + x / 16

/-- The cursor advance rule of the specification. -/
def Reference.advance (s : CipherState) : CipherState :=
  let posA := s.posA + 1
  let posB := s.posB + 1
  if posA ≤ 15 then
    if posB > 12 then { s with posA := posA, posB := 0, nybbleSwap := !s.nybbleSwap }
    else { s with posA := posA, posB := posB }
  else if posB ≤ 8 then { s with posA := 0, posB := posB, nybbleSwap := !s.nybbleSwap }
  else
    let keyIndex := (s.keyIndex + 2) % 128
    if s.nybbleSwap then
      { s with keyIndex := keyIndex, nybbleSwap := false, posA := keyIndex % 7,
               posB := keyIndex % 12 + 2 }
    else
      { s with keyIndex := keyIndex, nybbleSwap := true, posA := keyIndex % 12 + 3,
               posB := keyIndex % 7 }

/-- The byte that replaces `x` in the specification: XOR with `keyIndex XOR
keyB[posB]`, nibble swap when `nybbleSwap` is set, XOR with `keyA[posA]`. -/
def Reference.decryptByte (s : CipherState) (x : Nat) : Nat :=
  let y := x ^^^ (s.keyIndex ^^^ s.keyB.getD s.posB 0)
  let z := if s.nybbleSwap then Reference.swapNibbles y else y
  z ^^^ s.keyA.getD s.posA 0

/-- `decryptInPlace` of the specification: each byte in order, the cursor
advanced after each. -/
def Reference.decryptInPlace (s : CipherState) : List Nat → CipherState × List Nat
  | [] => (s, [])
  | x :: rest =>
    let r := Reference.decryptInPlace (Reference.advance s) rest
    (r.1, Reference.decryptByte s x :: r.2)

/-! ## The key derivation compiled with `RETRO_USE_ORIGINAL_CODE` -/

/-- The 16 bytes of `uint8 hash[0x10]` after `GEN_HASH_MD5_BUFFER(hashBuffer,
(uint32 *)hash)` on a host that stores a word with its least significant byte
first. -/
def HashMD5.bytesLittleEndian (hash : HashMD5) : List Nat :=
  (List.range 4).flatMap (fun i => le32 (hash.word i))

/-- The 16 bytes of the same array on a host that stores a word with its most
significant byte first. -/
def HashMD5.bytesBigEndian (hash : HashMD5) : List Nat :=
  (List.range 4).flatMap (fun i => be32 (hash.word i))

/-- The key bytes of the `#else` variant of GenerateELoadKeys: `for (y = 0; y <
0x10; y += 4) { key[y + 3] = hash[y + 0]; key[y + 2] = hash[y + 1]; key[y + 1] =
hash[y + 2]; key[y + 0] = hash[y + 3]; }` on the byte array `hash`. -/
def GenerateELoadKeys.keyOfBytes (hash : List Nat) : List Nat :=
  [0, 4, 8, 12].flatMap (fun y =>
    [hash.getD (y + 3) 0, hash.getD (y + 2) 0, hash.getD (y + 1) 0, hash.getD (y + 0) 0])

/-! ## Ancestor chains -/

/-- The record reached by following `inherited` exactly `n` times; `none` when
the chain ends before. -/
def ObjectClass.ancestorAt : Nat → ObjectClass → Option ObjectClass
  | 0, c => some c
  | n + 1, c =>
    match c.inherited with
    | none => none
    | some anc => ObjectClass.ancestorAt n anc

/-- The chain below a record has exactly `d` ancestor links: following
`inherited` `d` times reaches a record whose `inherited` is null. -/
def ObjectClass.hasDepth (d : Nat) (c : ObjectClass) : Bool :=
  match c.ancestorAt d with
  | some e => e.inherited.isNone
  | none => false

/-! ## The form of the keys of `fileMap` and of `excludedFiles` -/

/-- The C-locale `isupper` of `ctype.h`: `A`..`Z`. -/
def isupper (c : Char) : Bool := decide (65 ≤ c.toNat ∧ c.toNat ≤ 90)

/-- A path without an uppercase letter. -/
def lowercasePath (key : CStr) : Bool := key.all (fun c => !isupper c)

/-- A file system that holds `mods/B/Data/X.png`, answers for any letter case
and takes a backslash for a separator as well. -/
def separatorFs : FileSystem :=
  { pathExists := fun p =>
      decide (p.map (fun c => if c = '\\' then '/' else tolower c) = "mods/b/data/x.png".toList) ||
      decide (p.map tolower = "mods/b".toList),
    isDirectory := fun p => decide (p.map tolower = "mods/b".toList),
    listDirectoryRecursive := fun p =>
      if p.map tolower = "mods/b".toList then some ["Data\\X.png".toList] else none }

/-! ## LoadFile (Reader.cpp) -/

/-- The file modes LoadFile tests for. Reader.hpp, which declares the
enumeration, is not among the sources; `FMODE_NONE` stands for every value
other than the three named in LoadFile. -/
inductive FileModes where
  | FMODE_NONE
  | FMODE_RB
  | FMODE_WB
  | FMODE_RB_PLUS
deriving DecidableEq, Repr

/-- The C-locale `isdigit` of `ctype.h`. -/
def isdigit (c : Char) : Bool := decide (48 ≤ c.toNat ∧ c.toNat ≤ 57)

/-- The C-locale `islower` of `ctype.h`. -/
def islower (c : Char) : Bool := decide (97 ≤ c.toNat ∧ c.toNat ≤ 122)

/-- The C-locale `isalpha` of `ctype.h`. -/
def isalpha (c : Char) : Bool := isupper c || islower c

/-- `StrToUpper` (Reader.cpp). -/
def StrToUpper (str : CStr) : CStr := str.map toupper

/-- `StrToTitleCase` (Reader.cpp): the first character uppercased, the others
lowercased. -/
def StrToTitleCase : CStr → CStr
  | [] => []
  | c :: rest => toupper c :: rest.map tolower

/-- `strrchr(s, c)` as the index of the last `c` in `s`, `none` for a null
result. -/
def strrchr (s : CStr) (c : Char) : Option Nat :=
  (s.reverse.findIdx? (fun x => x == c)).map (fun r => s.length - 1 - r)

/-- The letter with its case flipped, as `flippedLetterFN` and
`flippedVariantChar` are computed; `none` for the value 0. -/
def LoadFile.flipCase (c : Char) : Option Char :=
  if islower c then some (toupper c) else if isupper c then some (tolower c) else none

/-- The length of the directory part of `fullFilePath`: one past the last `/`
or `\\`, 0 when it has neither. -/
def LoadFile.dirPathLen (fullFilePath : CStr) : Nat :=
  let originalFilenamePartPtr := strrchr fullFilePath '/'
  let winOriginalFilenamePartPtr := strrchr fullFilePath '\\'
  let ptr :=
    match winOriginalFilenamePartPtr, originalFilenamePartPtr with
    | some w, some o => if w > o then some w else some o
    | some w, none => some w
    | none, o => o
  match ptr with
  | some p => p + 1
  | none => 0

/-- Attempt 5, the `<Name><Number><Letter>.ext` heuristic: the file name with
the letter before the last dot flipped, when a digit stands before it. -/
def LoadFile.attempt5 (filenameBaseCopy : CStr) : Option CStr :=
  match strrchr filenameBaseCopy '.' with
  | none => none
  | some dotPosFN =>
    if dotPosFN ≠ 0 ∧ dotPosFN ≥ 3 then
      let letterPosFN := dotPosFN - 1
      let digitPosFN := letterPosFN - 1
      if isalpha (filenameBaseCopy.getD letterPosFN (Char.ofNat 0)) &&
          isdigit (filenameBaseCopy.getD digitPosFN (Char.ofNat 0)) then
        (LoadFile.flipCase (filenameBaseCopy.getD letterPosFN (Char.ofNat 0))).map
          (fun flipped => filenameBaseCopy.set letterPosFN flipped)
      else none
    else none

/-- Attempt 6, the file `RattleKiller.bin`. -/
def LoadFile.attempt6 (filenameBaseCopy : CStr) : Option CStr :=
  if StrToLower filenameBaseCopy = "rattlekiller.bin".toList then some "RattleKiller.bin".toList
  else none

/-- Attempt 7, the `Scene<N><V>.bin` heuristic. -/
def LoadFile.attempt7 (filenameBaseCopy : CStr) : Option CStr :=
  let lower := StrToLower filenameBaseCopy
  if lower.length = 11 ∧ lower.take 5 = "scene".toList ∧
      isdigit (lower.getD 5 (Char.ofNat 0)) = true ∧ lower.drop 7 = ".bin".toList then
    (LoadFile.flipCase (filenameBaseCopy.getD 6 (Char.ofNat 0))).map
      (fun flipped =>
        "Scene".toList ++ [filenameBaseCopy.getD 5 (Char.ofNat 0), flipped] ++
          filenameBaseCopy.drop 7)
  else none

/-- The paths of attempts 2 to 7 in the order LoadFile tries them after the
first `fOpen` failed; each attempt is made only while `info->file` is null. -/
def LoadFile.variations (fullFilePath : CStr) : List CStr :=
  let dirPathLen := LoadFile.dirPathLen fullFilePath
  let dir := fullFilePath.take dirPathLen
  let filenameBaseCopy := fullFilePath.drop dirPathLen
  if filenameBaseCopy.length > 0 then
    [dir ++ StrToLower filenameBaseCopy, dir ++ StrToUpper filenameBaseCopy,
      dir ++ StrToTitleCase filenameBaseCopy] ++
    ((LoadFile.attempt5 filenameBaseCopy).map (fun v => dir ++ v)).toList ++
    ((LoadFile.attempt6 filenameBaseCopy).map (fun v => dir ++ v)).toList ++
    ((LoadFile.attempt7 filenameBaseCopy).map (fun v => dir ++ v)).toList
  else []

/-- What LoadFile asks for, in order: a path handed to `fOpen` with the mode,
or a name handed to OpenDataFile. -/
inductive LoadFile.Access where
  | fOpen (path : CStr) (fileMode : FileModes)
  | OpenDataFile (filename : CStr)
deriving DecidableEq, Repr

/-- The sequence `info->file = fOpen(..); if (!info->file) { next attempt }`:
the first path that opens, and the paths tried. -/
def LoadFile.tryOpen (fOpen : CStr → FileModes → Bool) (fileMode : FileModes) :
    List CStr → Option CStr × List LoadFile.Access
  | [] => (none, [])
  | p :: rest =>
    if fOpen p fileMode then (some p, [LoadFile.Access.fOpen p fileMode])
    else
      let r := LoadFile.tryOpen fOpen fileMode rest
      (r.1, LoadFile.Access.fOpen p fileMode :: r.2)

/-- `RSDK::LoadFile(info, filename, fileMode)` for names shorter than 256
characters: the result flag, the `FileInfo`, and the accesses made in order.
`fOpen path mode` tells whether `fOpen(path, openModes[mode - 1])` succeeds and
`fileLength path` is what `fTell` returns at the end of the file. -/
def LoadFile (env : ReaderEnv) (md5w : CStr → HashMD5) (fOpen : CStr → FileModes → Bool)
    (fileLength : CStr → Nat) (userFileDir : CStr) (modList : List ModInfo) (st : ReaderState)
    (info : FileInfo) (filename : CStr) (fileMode : FileModes) :
    Bool × FileInfo × List LoadFile.Access :=
  match info.file with
  | some _ => (false, info, [])
  | none =>
    let modFilePath := FindModFile modList filename
    let fullFilePath0 : CStr := modFilePath.getD filename
    let info1 : FileInfo := if modFilePath.isSome then { info with externalFile := true } else info
    let fullFilePath : CStr :=
      if !info1.externalFile then (userFileDir ++ fullFilePath0).take 255 else fullFilePath0
    if !info1.externalFile && fileMode = FileModes.FMODE_RB && st.useDataPack then
      let r := OpenDataFile env md5w st info1 filename
      (r.1, r.2, [LoadFile.Access.OpenDataFile filename])
    else
      let opened : Option CStr × List LoadFile.Access :=
        if fileMode = FileModes.FMODE_RB ∨ fileMode = FileModes.FMODE_WB ∨
            fileMode = FileModes.FMODE_RB_PLUS then
          if (info1.externalFile || !st.useDataPack) &&
              (fileMode = FileModes.FMODE_RB || fileMode = FileModes.FMODE_RB_PLUS) then
            if fOpen fullFilePath fileMode then
              (some fullFilePath, [LoadFile.Access.fOpen fullFilePath fileMode])
            else if modFilePath.isNone then
              let r := LoadFile.tryOpen fOpen fileMode (LoadFile.variations fullFilePath)
              (r.1, LoadFile.Access.fOpen fullFilePath fileMode :: r.2)
            else (none, [LoadFile.Access.fOpen fullFilePath fileMode])
          else
            -- the branch for FMODE_WB and the fallback branch are the same call
            (if fOpen fullFilePath fileMode then some fullFilePath else none,
              [LoadFile.Access.fOpen fullFilePath fileMode])
        else (none, [])
      match opened.1 with
      | none => (false, info1, opened.2)
      | some path =>
        (true,
          { info1 with
            file := some ( FileIO.disk path 0),
            readPos := 0,
            fileSize := if fileMode ≠ FileModes.FMODE_WB then fileLength path else 0 },
          opened.2)

/-- An active mod `B` whose scan found `Data/A.bin`, a name that pack A holds
as well. -/
def shadowMod : ModInfo :=
  { id := "B".toList, active := true, path := "mods/B".toList,
    fileMap := [("data/a.bin".toList, "mods/B/Data/A.bin".toList)], excludedFiles := [] }

/-! ## Chains of clones on the heap -/

/-- The chain below the record `c` has `d` links and lies in the clones `heap`
(the list `allocatedInherits`, a clone being addressed by its position): each
ancestor is a clone stored at a position below `b`, and the positions fall
strictly from one ancestor to the next; the last record has a null
`inherited`. -/
def HeapChain (heap : List ObjectClass) : Nat → Nat → ObjectClass → Prop
  | 0, _, c => c.inherited = none
  | d + 1, b, c =>
    ∃ (p : Nat) (anc : ObjectClass),
      p < b ∧ heap[p]? = some anc ∧ c.inherited = some anc ∧ HeapChain heap d p anc

/-- Registration arguments for the class `Boss` with ancestor name `Enemy` and
an entity size of 16, below the 32 of `Enemy`. -/
def smallBossArgs : RegisterArgs :=
  { exampleArgs "Boss".toList none (some "Enemy".toList) with entityClassSize := 16 }

/-- The table holding the engine's own class `Enemy` with entity size 32. -/
def enemyState : ModState :=
  RegisterObject_STD exampleMd5 initialState 0 "Enemy".toList 32 8
    none none none none none none none none none none

/-! ## Termination of Super dispatch -/

/-- The nine kinds of `ModSuper`. -/
def ModSuper.kinds : List ModSuper :=
  [.SUPER_UPDATE, .SUPER_LATEUPDATE, .SUPER_STATICUPDATE, .SUPER_DRAW, .SUPER_CREATE,
    .SUPER_STAGELOAD, .SUPER_EDITORDRAW, .SUPER_EDITORLOAD, .SUPER_SERIALIZE]

/-- A function of a registrant without a call of Super. -/
def UserFn.callsNoSuper (fn : UserFn) : Bool :=
  fn.all (fun s =>
    match s with
    | .emit _ => true
    | .super _ _ _ => false)

/-- A closure whose user function, when it wraps one, has no call of Super. -/
def Callable.callsNoSuper : Callable → Bool
  | .plain fn => UserFn.callsNoSuper fn
  | .wrapped _ fn => UserFn.callsNoSuper fn
  | .superCall _ _ _ => true

/-- The table index a synthesized default re-enters SuperInternal on. -/
def Callable.target : Callable → Option Nat
  | .superCall _ info _ => some info
  | _ => none

/-- Registration arguments none of whose functions, the nine inheritable slots
and `staticLoad`, calls Super. -/
def RegisterArgs.callsNoSuper (a : RegisterArgs) : Bool :=
  ModSuper.kinds.all (fun kind =>
    match a.slot kind with
    | some fn => UserFn.callsNoSuper fn
    | none => true) &&
  (match a.staticLoad with
    | some fn => UserFn.callsNoSuper fn
    | none => true)

/-- A record as the engine's own registration leaves it: no ancestor, and in
its slots functions that do not call Super. -/
def ObjectClass.original (c : ObjectClass) : Prop :=
  c.inherited = none ∧
  (∀ kind f, c.slot kind = some f → f.callsNoSuper = true ∧ f.target = none) ∧
  (∀ f, c.info.staticLoad = some f → f.callsNoSuper = true ∧ f.target = none)

/-- The slots of a record hold functions without a call of Super or
synthesized defaults, the latter only in a record with an ancestor. -/
def ObjectClass.slotsSound (c : ObjectClass) : Prop :=
  ∀ kind f, c.slot kind = some f →
    f.callsNoSuper = true ∧ (f.target ≠ none → c.inherited ≠ none)

/-- Every synthesized default of the record re-enters on an index below `b`. -/
def ObjectClass.targetsBelow (b : Nat) (c : ObjectClass) : Prop :=
  ∀ kind f j, c.slot kind = some f → f.target = some j → j < b

/-- What registration keeps true of a class table with `count` live entries:
along the chain of entry `i` the slots are sound and the defaults re-enter on
indices up to `i`; below an ancestor of another hash they re-enter on indices
below `i`; a chain has at most `D` links; the entries from `count` on have no
ancestor and no default. -/
structure DispatchInvariant (table : Nat → ObjectClass) (count D : Nat) : Prop where
  sound : ∀ i n, (SuperInternal.walk n (table i)).slotsSound
  targets : ∀ i n, (SuperInternal.walk n (table i)).targetsBelow (i + 1)
  inherit : ∀ i anc, (table i).inherited = some anc → (table i).hash ≠ anc.hash →
    ∀ n, (SuperInternal.walk n anc).targetsBelow i
  depth : ∀ i, (SuperInternal.walk D (table i)).inherited = none
  tail : ∀ i, count ≤ i → (table i).inherited = none ∧ (table i).targetsBelow 0

/-- Four registrations from the empty table that mix overrides and an
extension: `Enemy` with a draw function, `Boss` with the ancestor name `Enemy`
and no function, then `Enemy` and `Boss` once more without a function. -/
def mixedRegs : List (Option Nat × RegisterArgs) :=
  [(some 1, exampleArgs "Enemy".toList (some [Stmt.emit 1]) none),
   (some 2, exampleArgs "Boss".toList none (some "Enemy".toList)),
   (some 3, exampleArgs "Enemy".toList none none),
   (some 4, exampleArgs "Boss".toList none none)]

/-- The table after the registrations `mixedRegs`. -/
def mixedState : ModState := registerAll exampleMd5 initialState mixedRegs

end RSDK


namespace RSDK

/-! ## The file overlay: FindModFile -/

theorem FindModFile.scan_none (modList : List ModInfo) (key : CStr) (n : Nat) :
    FindModFile.scan modList key n = none ↔
      ∀ i mod, i < n → modList[i]? = some mod →
        ¬ (mod.active = true ∧ (mod.fileMap.lookup key).isSome = true ∧ key ∉ mod.excludedFiles) := by
  induction n with
  | zero => simp [FindModFile.scan]
  | succ n ih =>
    unfold FindModFile.scan
    constructor
    · intro h i mod hi hmod
      rcases Nat.lt_succ_iff_lt_or_eq.mp hi with hlt | heq
      · have hrec : FindModFile.scan modList key n = none := by
          split at h
          · exact h
          · split at h
            · split at h
              · split at h
                · exact absurd h (by simp)
                · exact h
              · exact h
            · exact h
        exact ih.mp hrec i mod hlt hmod
      · subst heq
        rw [hmod] at h
        simp only at h
        rintro ⟨ha, hl, he⟩
        rw [if_pos ha] at h
        cases hlk : mod.fileMap.lookup key with
        | none => rw [hlk] at hl; simp at hl
        | some real =>
          rw [hlk] at h
          simp only at h
          rw [if_pos he] at h
          exact absurd h (by simp)
    · intro h
      have hrec : FindModFile.scan modList key n = none :=
        ih.mpr (fun i mod hi hmod => h i mod (Nat.lt_succ_of_lt hi) hmod)
      cases hmod : modList[n]? with
      | none => simpa using hrec
      | some mod =>
        simp only
        have hq := h n mod (Nat.lt_succ_self n) hmod
        by_cases ha : mod.active = true
        · rw [if_pos ha]
          cases hlk : mod.fileMap.lookup key with
          | none => simpa using hrec
          | some real =>
            simp only
            by_cases he : key ∉ mod.excludedFiles
            · exact absurd ⟨ha, by simp [hlk], he⟩ hq
            · rw [if_neg he]; exact hrec
        · rw [if_neg ha]; exact hrec

theorem FindModFile.scan_some (modList : List ModInfo) (key : CStr) (n : Nat) (real : CStr) :
    FindModFile.scan modList key n = some real ↔
      ∃ i mod, i < n ∧ modList[i]? = some mod ∧ mod.active = true ∧
        mod.fileMap.lookup key = some real ∧ key ∉ mod.excludedFiles ∧
        ∀ j mod2, i < j → j < n → modList[j]? = some mod2 →
          ¬ (mod2.active = true ∧ (mod2.fileMap.lookup key).isSome = true ∧
              key ∉ mod2.excludedFiles) := by
  induction n with
  | zero => simp [FindModFile.scan]
  | succ n ih =>
    have lower : FindModFile.scan modList key n = some real →
        (∀ mod2, modList[n]? = some mod2 →
          ¬ (mod2.active = true ∧ (mod2.fileMap.lookup key).isSome = true ∧
              key ∉ mod2.excludedFiles)) →
        ∃ i mod, i < n + 1 ∧ modList[i]? = some mod ∧ mod.active = true ∧
          mod.fileMap.lookup key = some real ∧ key ∉ mod.excludedFiles ∧
          ∀ j mod2, i < j → j < n + 1 → modList[j]? = some mod2 →
            ¬ (mod2.active = true ∧ (mod2.fileMap.lookup key).isSome = true ∧
                key ∉ mod2.excludedFiles) := by
      intro hrec hn
      obtain ⟨i, mod, hi, hmod, ha, hl, he, hmax⟩ := ih.mp hrec
      refine ⟨i, mod, Nat.lt_succ_of_lt hi, hmod, ha, hl, he, ?_⟩
      intro j mod2 hij hj hmod2
      rcases Nat.lt_succ_iff_lt_or_eq.mp hj with hlt | heq
      · exact hmax j mod2 hij hlt hmod2
      · subst heq; exact hn mod2 hmod2
    have upper : (∃ i mod, i < n + 1 ∧ modList[i]? = some mod ∧ mod.active = true ∧
          mod.fileMap.lookup key = some real ∧ key ∉ mod.excludedFiles ∧
          ∀ j mod2, i < j → j < n + 1 → modList[j]? = some mod2 →
            ¬ (mod2.active = true ∧ (mod2.fileMap.lookup key).isSome = true ∧
                key ∉ mod2.excludedFiles)) →
        (∀ mod2, modList[n]? = some mod2 →
          ¬ (mod2.active = true ∧ (mod2.fileMap.lookup key).isSome = true ∧
              key ∉ mod2.excludedFiles)) →
        FindModFile.scan modList key n = some real := by
      rintro ⟨i, mod, hi, hmod, ha, hl, he, hmax⟩ hn
      rcases Nat.lt_succ_iff_lt_or_eq.mp hi with hlt | heq
      · exact ih.mpr ⟨i, mod, hlt, hmod, ha, hl, he,
          fun j mod2 hij hj hm => hmax j mod2 hij (Nat.lt_succ_of_lt hj) hm⟩
      · subst heq
        exact absurd ⟨ha, by simp [hl], he⟩ (hn mod hmod)
    unfold FindModFile.scan
    cases hmodn : modList[n]? with
    | none =>
      simp only
      exact ⟨fun h => lower h (by simp [hmodn]), fun h => upper h (by simp [hmodn])⟩
    | some modn =>
      simp only
      have hnot : ¬ (modn.active = true ∧ (modn.fileMap.lookup key).isSome = true ∧
          key ∉ modn.excludedFiles) →
          (∀ mod2, modList[n]? = some mod2 →
            ¬ (mod2.active = true ∧ (mod2.fileMap.lookup key).isSome = true ∧
                key ∉ mod2.excludedFiles)) := by
        intro hq mod2 hm
        rw [hmodn] at hm
        cases hm
        exact hq
      by_cases ha : modn.active = true
      · rw [if_pos ha]
        cases hlk : modn.fileMap.lookup key with
        | none =>
          simp only
          have hq := hnot (by simp [hlk])
          exact ⟨fun h => lower h hq, fun h => upper h hq⟩
        | some r =>
          simp only
          by_cases he : key ∉ modn.excludedFiles
          · rw [if_pos he]
            constructor
            · intro h
              cases h
              exact ⟨n, modn, Nat.lt_succ_self n, hmodn, ha, hlk, he,
                fun j mod2 hij hj _ => absurd hij (Nat.not_lt.mpr (Nat.le_of_lt_succ hj))⟩
            · rintro ⟨i, mod, hi, hmod, ha2, hl2, he2, hmax⟩
              rcases Nat.lt_succ_iff_lt_or_eq.mp hi with hlt | heq
              · exact absurd ⟨ha, by simp [hlk], he⟩ (hmax n modn hlt (Nat.lt_succ_self n) hmodn)
              · subst heq
                rw [hmodn] at hmod
                cases hmod
                rw [hlk] at hl2
                exact hl2
          · rw [if_neg he]
            have hq := hnot (fun h => he h.2.2)
            exact ⟨fun h => lower h hq, fun h => upper h hq⟩
      · rw [if_neg ha]
        have hq := hnot (fun h => ha h.1)
        exact ⟨fun h => lower h hq, fun h => upper h hq⟩

theorem FindModFile.pathLower_of_short (filePath : CStr) (hlen : filePath.length < 256) :
    FindModFile.pathLower filePath = StrToLower (replaceBackslash filePath) := by
  unfold FindModFile.pathLower
  rw [List.take_of_length_le]
  simp only [replaceBackslash, List.length_map]
  omega

/-- C1: for a query path shorter than 256 characters, FindModFile looks up the
normalized key (backslashes to slashes, then lowercase) and returns the path
stored under it by the highest-index mod that is active, has the key in its
fileMap and does not exclude it; it returns null exactly when no mod
qualifies, so a file held only by inactive mods is never returned. In the
scenario A (inactive, x.png), B (active, x.png), C (active, no x.png) the
answer is B's path, and null after ExcludeFile(B, x.png). -/
theorem FindModFile_resolves_last_active (modList : List ModInfo) (filePath : CStr)
    (hlen : filePath.length < 256) :
    (∀ real, FindModFile modList filePath = some real ↔
      ∃ (i : Nat) (mod : ModInfo), modList[i]? = some mod ∧ mod.active = true ∧
        mod.fileMap.lookup (StrToLower (replaceBackslash filePath)) = some real ∧
        StrToLower (replaceBackslash filePath) ∉ mod.excludedFiles ∧
        ∀ (j : Nat) (mod2 : ModInfo), i < j → modList[j]? = some mod2 →
          ¬ (mod2.active = true ∧
              (mod2.fileMap.lookup (StrToLower (replaceBackslash filePath))).isSome = true ∧
              StrToLower (replaceBackslash filePath) ∉ mod2.excludedFiles)) ∧
    (FindModFile modList filePath = none ↔
      ∀ (i : Nat) (mod : ModInfo), modList[i]? = some mod →
        ¬ (mod.active = true ∧
            (mod.fileMap.lookup (StrToLower (replaceBackslash filePath))).isSome = true ∧
            StrToLower (replaceBackslash filePath) ∉ mod.excludedFiles)) ∧
    ((∀ mod ∈ modList,
        (mod.fileMap.lookup (StrToLower (replaceBackslash filePath))).isSome = true →
          mod.active = false) →
      FindModFile modList filePath = none) ∧
    FindModFile [scenarioA, scenarioB, scenarioC] "x.png".toList = some "mods/B/x.png".toList ∧
    FindModFile (ExcludeFile [scenarioA, scenarioB, scenarioC] none (some "B".toList)
      "x.png".toList).2 "x.png".toList = none := by
  have hkey := FindModFile.pathLower_of_short filePath hlen
  have hnone : FindModFile modList filePath = none ↔
      ∀ (i : Nat) (mod : ModInfo), modList[i]? = some mod →
        ¬ (mod.active = true ∧
            (mod.fileMap.lookup (StrToLower (replaceBackslash filePath))).isSome = true ∧
            StrToLower (replaceBackslash filePath) ∉ mod.excludedFiles) := by
    unfold FindModFile
    rw [hkey, FindModFile.scan_none]
    constructor
    · intro h i mod hmod
      have hi : i < modList.length := (List.getElem?_eq_some.mp hmod).1
      exact h i mod hi hmod
    · intro h i mod _ hmod
      exact h i mod hmod
  refine ⟨?_, hnone, ?_, by decide, by decide⟩
  · intro real
    unfold FindModFile
    rw [hkey, FindModFile.scan_some]
    constructor
    · rintro ⟨i, mod, _, hmod, ha, hl, he, hmax⟩
      refine ⟨i, mod, hmod, ha, hl, he, ?_⟩
      intro j mod2 hij hmod2
      exact hmax j mod2 hij (List.getElem?_eq_some.mp hmod2).1 hmod2
    · rintro ⟨i, mod, hmod, ha, hl, he, hmax⟩
      exact ⟨i, mod, (List.getElem?_eq_some.mp hmod).1, hmod, ha, hl, he,
        fun j mod2 hij _ hmod2 => hmax j mod2 hij hmod2⟩
  · intro hall
    rw [hnone]
    rintro i mod hmod ⟨ha, hl, _⟩
    have hmem : mod ∈ modList := List.getElem?_mem hmod
    have := hall mod hmem hl
    rw [ha] at this
    exact absurd this (by simp)

/-- C1 at the overlay scenario with the query `X.PNG`: the path of B is found
through mod index 1. -/
theorem FindModFile_resolves_last_active_witness :
    ("X.PNG".toList).length < 256 ∧
    FindModFile [scenarioA, scenarioB, scenarioC] "X.PNG".toList = some "mods/B/x.png".toList ∧
    ∃ (i : Nat) (mod : ModInfo), [scenarioA, scenarioB, scenarioC][i]? = some mod ∧ mod.active = true ∧
        mod.fileMap.lookup (StrToLower (replaceBackslash "X.PNG".toList))
          = some "mods/B/x.png".toList :=
  ⟨by decide, by decide,
    by
      obtain ⟨i, mod, h1, h2, h3, _⟩ :=
        ((FindModFile_resolves_last_active [scenarioA, scenarioB, scenarioC] "X.PNG".toList
          (by decide)).1 "mods/B/x.png".toList).mp (by decide)
      exact ⟨i, mod, h1, h2, h3⟩⟩

/-! ## The stream cipher -/

theorem DecryptBytes.step_cursor (info : FileInfo) (data : Nat) :
    (DecryptBytes.step info data).1 = SkipBytes.step info := rfl

theorem DecryptBytes.cursor (info : FileInfo) (buffer : List Nat) :
    (DecryptBytes info buffer).1 = SkipBytes.loop info buffer.length := by
  induction buffer generalizing info with
  | nil => rfl
  | cons d rest ih =>
    simp only [DecryptBytes, List.length_cons, SkipBytes.loop]
    rw [ih, DecryptBytes.step_cursor]

theorem DecryptBytes.length_out (info : FileInfo) (buffer : List Nat) :
    (DecryptBytes info buffer).2.length = buffer.length := by
  induction buffer generalizing info with
  | nil => rfl
  | cons d rest ih => simp only [DecryptBytes, List.length_cons, ih]

theorem DecryptBytes.append (info : FileInfo) (a b : List Nat) :
    DecryptBytes info (a ++ b) =
      ((DecryptBytes (DecryptBytes info a).1 b).1,
        (DecryptBytes info a).2 ++ (DecryptBytes (DecryptBytes info a).1 b).2) := by
  induction a generalizing info with
  | nil => simp [DecryptBytes]
  | cons d rest ih =>
    show DecryptBytes info (d :: (rest ++ b)) = _
    simp only [DecryptBytes, ih, List.cons_append]

theorem decryptOneAtATime_eq (info : FileInfo) (buffer : List Nat) :
    decryptOneAtATime info buffer = DecryptBytes info buffer := by
  induction buffer generalizing info with
  | nil => rfl
  | cons d rest ih =>
    simp only [decryptOneAtATime, DecryptBytes, ih, List.singleton_append]

/-- C2: SkipBytes(n) followed by DecryptBytes on the bytes after the first n gives
the same output bytes and final cursor as DecryptBytes on the whole buffer with
the first n output bytes dropped. -/
theorem SkipBytes_then_DecryptBytes (info : FileInfo) (n : Nat) (buffer : List Nat)
    (hn : n ≤ buffer.length) :
    DecryptBytes (SkipBytes info (n : Int)) (buffer.drop n) =
      ((DecryptBytes info buffer).1, (DecryptBytes info buffer).2.drop n) := by
  have hsplit : DecryptBytes info buffer = DecryptBytes info (buffer.take n ++ buffer.drop n) := by
    rw [List.take_append_drop]
  have hlen : (DecryptBytes info (buffer.take n)).2.length = n := by
    rw [DecryptBytes.length_out, List.length_take]
    omega
  have hcur : (DecryptBytes info (buffer.take n)).1 = SkipBytes info (n : Int) := by
    rw [DecryptBytes.cursor, List.length_take]
    simp only [SkipBytes, Int.toNat_ofNat]
    rw [Nat.min_eq_left hn]
  have hdrop : ∀ (l1 l2 : List Nat), l1.length = n → (l1 ++ l2).drop n = l2 := by
    intro l1 l2 h
    subst h
    simp
  rw [hsplit, DecryptBytes.append, hcur]
  simp only
  rw [hdrop _ _ hlen]

/-- C2 at a six-byte buffer, skipping two bytes from the cursor OpenDataFile sets
for a 1000-byte file. -/
theorem SkipBytes_then_DecryptBytes_witness :
    2 ≤ [10, 20, 30, 40, 50, 60].length ∧
    DecryptBytes (SkipBytes constantKeyStream 2)
        [30, 40, 50, 60] =
      ((DecryptBytes constantKeyStream
          [10, 20, 30, 40, 50, 60]).1,
       (DecryptBytes constantKeyStream
          [10, 20, 30, 40, 50, 60]).2.drop 2) :=
  ⟨by decide,
    SkipBytes_then_DecryptBytes constantKeyStream 2
      [10, 20, 30, 40, 50, 60] (by decide)⟩

/-- C4: decrypting the first k bytes and then the rest, and in particular
decrypting one byte per call, gives the same output bytes and the same final
cursor as one DecryptBytes call on the whole buffer. -/
theorem DecryptBytes_split (info : FileInfo) (buffer : List Nat) (k : Nat) :
    DecryptBytes info buffer =
      ((DecryptBytes (DecryptBytes info (buffer.take k)).1 (buffer.drop k)).1,
        (DecryptBytes info (buffer.take k)).2 ++
          (DecryptBytes (DecryptBytes info (buffer.take k)).1 (buffer.drop k)).2) ∧
    decryptOneAtATime info buffer = DecryptBytes info buffer := by
  refine ⟨?_, decryptOneAtATime_eq info buffer⟩
  rw [← DecryptBytes.append, List.take_append_drop]

/-! ### Applying the cipher twice -/

set_option maxRecDepth 100000 in
theorem nybbleSwap_testBit :
    ∀ u < 256, ∀ i < 8, (nybbleSwap u).testBit i = u.testBit ((i + 4) % 8) := by
  decide

theorem nybbleSwap_lt (u : Nat) : nybbleSwap u < 256 := by
  unfold nybbleSwap
  exact Nat.lt_succ_of_le Nat.and_le_right

theorem byte_ext {a b : Nat} (ha : a < 256) (hb : b < 256)
    (h : ∀ i < 8, a.testBit i = b.testBit i) : a = b := by
  apply Nat.eq_of_testBit_eq
  intro i
  by_cases hi : i < 8
  · exact h i hi
  · have hpow : 256 ≤ 2 ^ i := by
      have : 2 ^ 8 ≤ 2 ^ i := Nat.pow_le_pow_right (by decide) (Nat.le_of_not_lt hi)
      simpa using this
    rw [Nat.testBit_lt_two_pow (Nat.lt_of_lt_of_le ha hpow),
      Nat.testBit_lt_two_pow (Nat.lt_of_lt_of_le hb hpow)]

theorem byte_xor_lt {a b : Nat} (ha : a < 256) (hb : b < 256) : a ^^^ b < 256 :=
  @Nat.xor_lt_two_pow a b 8 ha hb

theorem xor_mod_256 (a b : Nat) : (a ^^^ b) % 256 = a % 256 ^^^ b % 256 := by
  apply Nat.eq_of_testBit_eq
  intro i
  have h256 : (256 : Nat) = 2 ^ 8 := by decide
  rw [h256]
  simp only [Nat.testBit_mod_two_pow, Nat.testBit_xor]
  by_cases hi : i < 8 <;> simp [hi]

theorem nybbleSwap_xor {u v : Nat} (hu : u < 256) (hv : v < 256) :
    nybbleSwap (nybbleSwap u ^^^ v) = u ^^^ nybbleSwap v := by
  apply byte_ext (nybbleSwap_lt _) (byte_xor_lt hu (nybbleSwap_lt _))
  intro i hi
  have hj : (i + 4) % 8 < 8 := Nat.mod_lt _ (by decide)
  have hback : ((i + 4) % 8 + 4) % 8 = i := by omega
  rw [nybbleSwap_testBit _ (byte_xor_lt (nybbleSwap_lt _) hv) i hi, Nat.testBit_xor,
    nybbleSwap_testBit u hu _ hj, hback, Nat.testBit_xor, nybbleSwap_testBit v hv i hi]

theorem DecryptBytes.step_lt (info : FileInfo) (x : Nat) : (DecryptBytes.step info x).2 < 256 :=
  Nat.mod_lt _ (by decide)

theorem DecryptBytes.step_out (info : FileInfo) (x : Nat) (hx : x < 256) :
    (DecryptBytes.step info x).2 =
      (if info.eNybbleSwap then
          nybbleSwap (x ^^^ (info.eKeyNo ^^^ info.encryptionKeyB.getD info.eKeyPosB 0) % 256)
        else x ^^^ (info.eKeyNo ^^^ info.encryptionKeyB.getD info.eKeyPosB 0) % 256)
        ^^^ info.encryptionKeyA.getD info.eKeyPosA 0 % 256 := by
  have h1 : (x ^^^ (info.eKeyNo ^^^ info.encryptionKeyB.getD info.eKeyPosB 0)) % 256 =
      x ^^^ (info.eKeyNo ^^^ info.encryptionKeyB.getD info.eKeyPosB 0) % 256 := by
    rw [xor_mod_256, Nat.mod_eq_of_lt hx]
  show ((if info.eNybbleSwap then
        (((x ^^^ (info.eKeyNo ^^^ info.encryptionKeyB.getD info.eKeyPosB 0)) % 256) <<< 4 +
          ((x ^^^ (info.eKeyNo ^^^ info.encryptionKeyB.getD info.eKeyPosB 0)) % 256) >>> 4) &&& 0xFF
      else (x ^^^ (info.eKeyNo ^^^ info.encryptionKeyB.getD info.eKeyPosB 0)) % 256)
      ^^^ info.encryptionKeyA.getD info.eKeyPosA 0) % 256 = _
  rw [xor_mod_256, h1]
  congr 1
  have hK : (info.eKeyNo ^^^ info.encryptionKeyB.getD info.eKeyPosB 0) % 256 < 256 :=
    Nat.mod_lt _ (by decide)
  cases info.eNybbleSwap with
  | false => exact Nat.mod_eq_of_lt (byte_xor_lt hx hK)
  | true => exact Nat.mod_eq_of_lt (nybbleSwap_lt _)

theorem DecryptBytes.step_twice (info : FileInfo) (x : Nat) (hx : x < 256) :
    (DecryptBytes.step info (DecryptBytes.step info x).2).2 = x ↔
      (info.eNybbleSwap = true → nybbleSwap (keyByte info) = keyByte info) := by
  rw [DecryptBytes.step_out info _ (DecryptBytes.step_lt info x), DecryptBytes.step_out info x hx]
  have hM : keyByte info =
      (info.eKeyNo ^^^ info.encryptionKeyB.getD info.eKeyPosB 0) % 256
        ^^^ info.encryptionKeyA.getD info.eKeyPosA 0 % 256 := by
    unfold keyByte
    rw [xor_mod_256]
  rw [hM]
  have hK : (info.eKeyNo ^^^ info.encryptionKeyB.getD info.eKeyPosB 0) % 256 < 256 :=
    Nat.mod_lt _ (by decide)
  have hA : info.encryptionKeyA.getD info.eKeyPosA 0 % 256 < 256 := Nat.mod_lt _ (by decide)
  generalize (info.eKeyNo ^^^ info.encryptionKeyB.getD info.eKeyPosB 0) % 256 = K at hK ⊢
  generalize info.encryptionKeyA.getD info.eKeyPosA 0 % 256 = A at hA ⊢
  cases info.eNybbleSwap with
  | false =>
    have h : ((x ^^^ K) ^^^ A ^^^ K) ^^^ A = x ^^^ ((K ^^^ A) ^^^ (K ^^^ A)) := by ac_rfl
    simp [h]
  | true =>
    have h1 : (nybbleSwap (x ^^^ K) ^^^ A) ^^^ K = nybbleSwap (x ^^^ K) ^^^ (K ^^^ A) := by
      ac_rfl
    have h2 : ((x ^^^ K) ^^^ nybbleSwap (K ^^^ A)) ^^^ A =
        (x ^^^ (K ^^^ A)) ^^^ nybbleSwap (K ^^^ A) := by ac_rfl
    have h3 : x = (x ^^^ (K ^^^ A)) ^^^ (K ^^^ A) := (Nat.xor_cancel_right _ _).symm
    simp only [if_true, forall_true_left]
    rw [h1, nybbleSwap_xor (byte_xor_lt hx hK) (byte_xor_lt hK hA), h2]
    constructor
    · intro h
      exact Nat.xor_right_inj.mp (h.trans h3)
    · intro h
      rw [h, Nat.xor_cancel_right]

theorem DecryptBytes.twice_loop (info : FileInfo) (data : List Nat)
    (hbytes : ∀ b ∈ data, b < 256) :
    (DecryptBytes info (DecryptBytes info data).2).2 = data ↔
      ∀ i : Nat, i < data.length → (SkipBytes.loop info i).eNybbleSwap = true →
        nybbleSwap (keyByte (SkipBytes.loop info i)) = keyByte (SkipBytes.loop info i) := by
  induction data generalizing info with
  | nil =>
    simp [DecryptBytes]
  | cons x rest ih =>
    have hx : x < 256 := hbytes x (List.mem_cons_self _ _)
    have hrest : ∀ b ∈ rest, b < 256 := fun b hb => hbytes b (List.mem_cons_of_mem _ hb)
    simp only [DecryptBytes, DecryptBytes.step_cursor, List.cons.injEq, List.length_cons]
    rw [DecryptBytes.step_twice info x hx, ih (SkipBytes.step info) hrest]
    constructor
    · rintro ⟨h0, hs⟩ i hi
      cases i with
      | zero => exact h0
      | succ j => exact hs j (Nat.lt_of_succ_lt_succ hi)
    · intro h
      exact ⟨h 0 (Nat.succ_pos _), fun j hj => h (j + 1) (Nat.succ_lt_succ hj)⟩

/-- C3 (amended): DecryptBytes applied to its own output from the same start
state gives back the original bytes exactly when, at every position whose cursor
has the nibble swap set, the combined key byte equals its own nibble swap; in
particular it does so when the swap is clear at every position of the run. -/
theorem DecryptBytes_twice_iff (info : FileInfo) (data : List Nat)
    (hbytes : ∀ b ∈ data, b < 256) :
    ((DecryptBytes info (DecryptBytes info data).2).2 = data ↔
      ∀ i : Nat, i < data.length → (SkipBytes info (i : Int)).eNybbleSwap = true →
        nybbleSwap (keyByte (SkipBytes info (i : Int))) = keyByte (SkipBytes info (i : Int))) ∧
    ((∀ i : Nat, i < data.length → (SkipBytes info (i : Int)).eNybbleSwap = false) →
      (DecryptBytes info (DecryptBytes info data).2).2 = data) := by
  have h := DecryptBytes.twice_loop info data hbytes
  simp only [SkipBytes, Int.toNat_ofNat]
  refine ⟨h, fun hclear => h.mpr ?_⟩
  intro i hi hswap
  have := hclear i hi
  simp only [SkipBytes, Int.toNat_ofNat] at this
  rw [this] at hswap
  exact absurd hswap (by simp)

/-- C3 (amended) on the first five bytes of the GameConfig stream, where the
nibble swap is still clear. -/
theorem DecryptBytes_twice_iff_witness :
    (∀ b ∈ [1, 2, 3, 4, 5], b < 256) ∧
    (DecryptBytes gameConfigStream (DecryptBytes gameConfigStream [1, 2, 3, 4, 5]).2).2
      = [1, 2, 3, 4, 5] :=
  ⟨by decide, (DecryptBytes_twice_iff gameConfigStream [1, 2, 3, 4, 5] (by decide)).2 (by decide)⟩

/-- C3 as stated fails: from the start state of the GameConfig stream, six zero
bytes decrypted twice come back as 0, 0, 0, 0, 0, 17. -/
theorem DecryptBytes_twice_counterexample :
    (∀ b ∈ [0, 0, 0, 0, 0, 0], b < 256) ∧
    (DecryptBytes gameConfigStream (DecryptBytes gameConfigStream [0, 0, 0, 0, 0, 0]).2).2
      = [0, 0, 0, 0, 0, 17] ∧
    (DecryptBytes gameConfigStream (DecryptBytes gameConfigStream [0, 0, 0, 0, 0, 0]).2).2
      ≠ [0, 0, 0, 0, 0, 0] := by
  decide

/-! ## Super dispatch -/

theorem counter_restore (v : Nat) (hv : v < 4294967296) :
    ((v + 1) % 4294967296 + 4294967296 - 1) % 4294967296 = v := by
  omega

theorem counter_no_wrap (v : Nat) (hv : v < 4294967295) : (v + 1) % 4294967296 = v + 1 := by
  omega

theorem SuperInternal.walk_one (super anc : ObjectClass) (h : super.inherited = some anc) :
    SuperInternal.walk 1 super = anc := by
  simp [SuperInternal.walk, h]

theorem SuperInternal.dispatch_levels (invoke : Callable → Nat → ModState → Option ModState)
    (target : ObjectClass) (callback : ModSuper) (data : Nat) (st : ModState)
    (hslot : ∀ f, target.slot callback = some f →
      ∃ s2, invoke f (if callback = ModSuper.SUPER_CREATE then data else 0)
          { st with history := st.history ++ [Event.target target callback] } = some s2 ∧
        s2.inheritLevel = st.inheritLevel ∧ s2.superLevels = st.superLevels) :
    ∃ mid, SuperInternal.dispatch invoke target callback data st = some mid ∧
      mid.inheritLevel = st.inheritLevel ∧ mid.superLevels = st.superLevels := by
  unfold SuperInternal.dispatch
  cases hf : target.slot callback with
  | none => exact ⟨_, rfl, rfl, rfl⟩
  | some f =>
    obtain ⟨s2, h1, h2, h3⟩ := hslot f hf
    exact ⟨s2, h1, h2, h3⟩

theorem SuperInternal.enter_override (super anc : ObjectClass) (st : ModState)
    (hh : super.hash = anc.hash) :
    SuperInternal.enter super anc st =
      (true,
        SuperInternal.walk ((st.superLevels (levelKey st.inheritLevel) + 1) % 4294967296) super,
        { st with
          superLevels :=
            Function.update st.superLevels (levelKey st.inheritLevel)
              ((st.superLevels (levelKey st.inheritLevel) + 1) % 4294967296) }) := by
  unfold SuperInternal.enter
  simp only [if_pos hh, Function.update_same]

theorem SuperInternal.enter_inherit (super anc : ObjectClass) (st : ModState)
    (hh : super.hash ≠ anc.hash) :
    SuperInternal.enter super anc st =
      (false, anc,
        { st with
          superLevels :=
            Function.update st.superLevels (levelKey st.inheritLevel)
              ((st.superLevels (levelKey st.inheritLevel) + 1) % 4294967296),
          inheritLevel := st.inheritLevel + 1 }) := by
  unfold SuperInternal.enter
  simp only [if_neg hh]

theorem SuperInternal.leave_override (curMod : Option Nat) (mid : ModState) :
    SuperInternal.leave true curMod mid =
      { mid with
        superLevels :=
          Function.update mid.superLevels (levelKey mid.inheritLevel)
            ((mid.superLevels (levelKey mid.inheritLevel) + 4294967296 - 1) % 4294967296),
        currentMod := curMod } := rfl

theorem SuperInternal.leave_inherit (curMod : Option Nat) (mid : ModState) :
    SuperInternal.leave false curMod mid =
      { mid with
        inheritLevel := mid.inheritLevel - 1,
        superLevels :=
          Function.update mid.superLevels (levelKey (mid.inheritLevel - 1))
            ((mid.superLevels (levelKey (mid.inheritLevel - 1)) + 4294967296 - 1) % 4294967296),
        currentMod := curMod } := rfl

theorem SuperInternal.leave_levels (override : Bool) (curMod : Option Nat) (mid st : ModState)
    (hwf : st.superLevels (levelKey st.inheritLevel) < 4294967296)
    (hlevel : mid.inheritLevel = (if override then st.inheritLevel else st.inheritLevel + 1))
    (hmap : mid.superLevels =
      Function.update st.superLevels (levelKey st.inheritLevel)
        ((st.superLevels (levelKey st.inheritLevel) + 1) % 4294967296)) :
    (SuperInternal.leave override curMod mid).inheritLevel = st.inheritLevel ∧
    (SuperInternal.leave override curMod mid).superLevels = st.superLevels ∧
    (SuperInternal.leave override curMod mid).currentMod = curMod := by
  cases override with
  | true =>
    rw [SuperInternal.leave_override]
    simp only [if_true] at hlevel
    simp only [hlevel, hmap, Function.update_same, Function.update_idem]
    rw [counter_restore _ hwf, Function.update_eq_self]
    exact ⟨trivial, rfl, trivial⟩
  | false =>
    rw [SuperInternal.leave_inherit]
    have hl : mid.inheritLevel - 1 = st.inheritLevel := by
      rw [hlevel]
      simp
    simp only [hl, hmap, Function.update_same, Function.update_idem]
    rw [counter_restore _ hwf, Function.update_eq_self]
    exact ⟨trivial, rfl, trivial⟩

theorem SuperInternal_no_ancestor_aux
    (invoke : Callable → Nat → ModState → Option ModState) (super : ObjectClass)
    (callback : ModSuper) (data : Nat) (st : ModState) (h : super.inherited = none) :
    SuperInternal invoke super callback data st = some st := by
  unfold SuperInternal
  rw [h]

/-- C10: on a record whose `inherited` is null SuperInternal returns at once:
whatever the slots would do, the state (inheritLevel, every superLevels count,
the current-mod marker, the history of calls) is the one it was called in. -/
theorem SuperInternal_without_ancestor
    (invoke : Callable → Nat → ModState → Option ModState) (super : ObjectClass)
    (callback : ModSuper) (data : Nat) (st : ModState) (h : super.inherited = none) :
    SuperInternal invoke super callback data st = some st := by
  unfold SuperInternal
  rw [h]

/-- C10 on the zeroed record, with slots that would never return. -/
theorem SuperInternal_without_ancestor_witness :
    ObjectClass.zero.inherited = none ∧
    SuperInternal (fun _ _ _ => none) ObjectClass.zero ModSuper.SUPER_DRAW 0 initialState
      = some initialState :=
  ⟨rfl, SuperInternal_without_ancestor (fun _ _ _ => none) ObjectClass.zero
    ModSuper.SUPER_DRAW 0 initialState rfl⟩

/-- C9 (amended): when the slot that the call invokes returns with inheritLevel
and superLevels as it found them, SuperInternal returns with inheritLevel and
the whole superLevels map as before the call, on every exit path (no ancestor,
slot absent, slot invoked); and when the count at inheritLevel starts below
2^32 - 1, the count is exactly one higher after the increment and when the
decrement is applied, so it wraps neither upwards nor below zero. -/
theorem SuperInternal_restores_levels
    (invoke : Callable → Nat → ModState → Option ModState) (super : ObjectClass)
    (callback : ModSuper) (data : Nat) (st : ModState)
    (hwf : st.superLevels (levelKey st.inheritLevel) < 4294967296)
    (hslot : ∀ (anc : ObjectClass) (f : Callable), super.inherited = some anc →
      (SuperInternal.enter super anc st).2.1.slot callback = some f →
        ∃ s2,
          invoke f (if callback = ModSuper.SUPER_CREATE then data else 0)
            { (SuperInternal.enter super anc st).2.2 with
              history := (SuperInternal.enter super anc st).2.2.history ++
                [Event.target (SuperInternal.enter super anc st).2.1 callback] } = some s2 ∧
          s2.inheritLevel = (SuperInternal.enter super anc st).2.2.inheritLevel ∧
          s2.superLevels = (SuperInternal.enter super anc st).2.2.superLevels) :
    (∃ st2, SuperInternal invoke super callback data st = some st2 ∧
      st2.inheritLevel = st.inheritLevel ∧ st2.superLevels = st.superLevels) ∧
    (st.superLevels (levelKey st.inheritLevel) < 4294967295 →
      ∀ anc, super.inherited = some anc →
        ∃ mid,
          SuperInternal.dispatch invoke (SuperInternal.enter super anc st).2.1 callback data
            (SuperInternal.enter super anc st).2.2 = some mid ∧
          SuperInternal invoke super callback data st =
            some (SuperInternal.leave (SuperInternal.enter super anc st).1 st.currentMod mid) ∧
          (SuperInternal.enter super anc st).2.2.superLevels (levelKey st.inheritLevel) =
            st.superLevels (levelKey st.inheritLevel) + 1 ∧
          (SuperInternal.leave (SuperInternal.enter super anc st).1 st.currentMod mid).inheritLevel
            = st.inheritLevel ∧
          mid.superLevels (levelKey st.inheritLevel) =
            st.superLevels (levelKey st.inheritLevel) + 1 ∧
          (SuperInternal.leave (SuperInternal.enter super anc st).1 st.currentMod mid).superLevels
            (levelKey st.inheritLevel) = st.superLevels (levelKey st.inheritLevel)) := by
  have key : ∀ anc, super.inherited = some anc →
      ∃ mid,
        SuperInternal.dispatch invoke (SuperInternal.enter super anc st).2.1 callback data
          (SuperInternal.enter super anc st).2.2 = some mid ∧
        SuperInternal invoke super callback data st =
          some (SuperInternal.leave (SuperInternal.enter super anc st).1 st.currentMod mid) ∧
        mid.inheritLevel =
          (if (SuperInternal.enter super anc st).1 then st.inheritLevel
            else st.inheritLevel + 1) ∧
        mid.superLevels =
          Function.update st.superLevels (levelKey st.inheritLevel)
            ((st.superLevels (levelKey st.inheritLevel) + 1) % 4294967296) ∧
        (SuperInternal.enter super anc st).2.2.superLevels =
          Function.update st.superLevels (levelKey st.inheritLevel)
            ((st.superLevels (levelKey st.inheritLevel) + 1) % 4294967296) := by
    intro anc hanc
    have hrun : ∀ mid,
        SuperInternal.dispatch invoke (SuperInternal.enter super anc st).2.1 callback data
          (SuperInternal.enter super anc st).2.2 = some mid →
        SuperInternal invoke super callback data st =
          some (SuperInternal.leave (SuperInternal.enter super anc st).1 st.currentMod mid) := by
      intro mid hmid
      unfold SuperInternal
      simp only [hanc, hmid]
    obtain ⟨mid, h1, h2, h3⟩ := SuperInternal.dispatch_levels invoke
      (SuperInternal.enter super anc st).2.1 callback data (SuperInternal.enter super anc st).2.2
      (fun f hf => hslot anc f hanc hf)
    by_cases hh : super.hash = anc.hash
    · have he := SuperInternal.enter_override super anc st hh
      refine ⟨mid, h1, hrun mid h1, ?_, ?_, ?_⟩
      · rw [h2, he]
        rfl
      · rw [h3, he]
      · rw [he]
    · have he := SuperInternal.enter_inherit super anc st hh
      refine ⟨mid, h1, hrun mid h1, ?_, ?_, ?_⟩
      · rw [h2, he]
        rfl
      · rw [h3, he]
      · rw [he]
  constructor
  · cases hanc : super.inherited with
    | none =>
      exact ⟨st, SuperInternal_no_ancestor_aux invoke super callback data st hanc, rfl, rfl⟩
    | some anc =>
      obtain ⟨mid, _, hres, hlv, hmap, _⟩ := key anc hanc
      obtain ⟨l1, l2, _⟩ := SuperInternal.leave_levels (SuperInternal.enter super anc st).1
        st.currentMod mid st hwf hlv hmap
      exact ⟨_, hres, l1, l2⟩
  · intro hmax anc hanc
    obtain ⟨mid, hd, hres, hlv, hmap, hent⟩ := key anc hanc
    obtain ⟨l1, l2, _⟩ := SuperInternal.leave_levels (SuperInternal.enter super anc st).1
      st.currentMod mid st hwf hlv hmap
    refine ⟨mid, hd, hres, ?_, l1, ?_, ?_⟩
    · rw [hent, Function.update_same, counter_no_wrap _ hmax]
    · rw [hmap, Function.update_same, counter_no_wrap _ hmax]
    · rw [l2]

theorem bossState_ancestor (anc : ObjectClass)
    (h : (bossState.objectClassList 1).inherited = some anc) :
    anc = bossState.objectClassList 0 := by
  have h2 : some (bossState.objectClassList 0) = some anc := h
  exact (Option.some.inj h2).symm

/-- C9 (amended) on the class Boss extending Enemy: one Super(draw) call from
the initial levels returns with them restored. -/
theorem SuperInternal_restores_levels_witness :
    bossState.superLevels (levelKey bossState.inheritLevel) < 4294967295 ∧
    (bossState.objectClassList 1).inherited = some (bossState.objectClassList 0) ∧
    ∃ st2, SuperInternal (invoke 1) (bossState.objectClassList 1) ModSuper.SUPER_DRAW 0 bossState
        = some st2 ∧
      st2.inheritLevel = bossState.inheritLevel ∧ st2.superLevels = bossState.superLevels :=
  ⟨by decide, rfl,
    (SuperInternal_restores_levels (invoke 1) (bossState.objectClassList 1) ModSuper.SUPER_DRAW 0
      bossState (by decide)
      (fun anc f hanc hf => by
        rw [bossState_ancestor anc hanc] at hf
        have hnone : (SuperInternal.enter (bossState.objectClassList 1)
            (bossState.objectClassList 0) bossState).2.1.slot ModSuper.SUPER_DRAW = none := rfl
        rw [hnone] at hf
        exact absurd hf (by simp))).1⟩

/-- C9 as stated fails at the count 0xFFFFFFFF: in Super(draw) on Boss, whose
ancestor Enemy has no draw slot (so no slot is invoked), the increment takes
the count at inheritLevel to 0 and the decrement is applied to 0, which wraps
below zero back to 0xFFFFFFFF. -/
theorem SuperInternal_counter_wraps_counterexample :
    bossStateFull.superLevels (levelKey bossStateFull.inheritLevel) = 4294967295 ∧
    (bossStateFull.objectClassList 1).inherited = some (bossStateFull.objectClassList 0) ∧
    (bossStateFull.objectClassList 0).slot ModSuper.SUPER_DRAW = none ∧
    (SuperInternal.enter (bossStateFull.objectClassList 1) (bossStateFull.objectClassList 0)
      bossStateFull).2.2.superLevels (levelKey bossStateFull.inheritLevel) = 0 ∧
    ∃ mid,
      SuperInternal.dispatch (invoke 1)
        (SuperInternal.enter (bossStateFull.objectClassList 1) (bossStateFull.objectClassList 0)
          bossStateFull).2.1 ModSuper.SUPER_DRAW 0
        (SuperInternal.enter (bossStateFull.objectClassList 1) (bossStateFull.objectClassList 0)
          bossStateFull).2.2 = some mid ∧
      mid.superLevels (levelKey bossStateFull.inheritLevel) = 0 ∧
      SuperInternal (invoke 1) (bossStateFull.objectClassList 1) ModSuper.SUPER_DRAW 0
        bossStateFull = some (SuperInternal.leave false bossStateFull.currentMod mid) ∧
      (SuperInternal.leave false bossStateFull.currentMod mid).superLevels
        (levelKey bossStateFull.inheritLevel) = 4294967295 :=
  ⟨rfl, rfl, rfl, by decide, _, rfl, by decide, rfl, by decide⟩

/-! ## Registration -/

theorem findHash_succ (list : Nat → ObjectClass) (hash : Hash) (count : Nat) :
    findHash list hash (count + 1) =
      (findHash list hash count).or (if (list count).hash = hash then some count else none) := by
  unfold findHash
  rw [List.range_succ, List.find?_append]
  congr 1
  by_cases h : (list count).hash = hash <;> simp [List.find?, h]

theorem findHash_none (list : Nat → ObjectClass) (hash : Hash) (count : Nat) :
    findHash list hash count = none ↔ ∀ j, j < count → (list j).hash ≠ hash := by
  unfold findHash
  simp [List.find?_eq_none]

theorem findHash_some (list : Nat → ObjectClass) (hash : Hash) (count i : Nat) :
    findHash list hash count = some i ↔
      i < count ∧ (list i).hash = hash ∧ ∀ j, j < i → (list j).hash ≠ hash := by
  induction count generalizing i with
  | zero => simp [findHash]
  | succ c ih =>
    rw [findHash_succ]
    cases hc : findHash list hash c with
    | some k =>
      have hk := (ih k).mp hc
      have ihi := ih i
      rw [hc] at ihi
      simp only [Option.or_some]
      constructor
      · intro h
        obtain ⟨h1, h2, h3⟩ := ihi.mp h
        exact ⟨Nat.lt_succ_of_lt h1, h2, h3⟩
      · rintro ⟨h1, h2, h3⟩
        rcases Nat.lt_trichotomy i k with hlt | heq | hgt
        · exact absurd h2 (hk.2.2 i hlt)
        · rw [heq]
        · exact absurd hk.2.1 (h3 k hgt)
    | none =>
      have hnone := (findHash_none list hash c).mp hc
      simp only [Option.none_or]
      by_cases hm : (list c).hash = hash
      · rw [if_pos hm]
        constructor
        · intro h
          cases h
          exact ⟨Nat.lt_succ_self _, hm, hnone⟩
        · rintro ⟨h1, h2, h3⟩
          rcases Nat.lt_succ_iff_lt_or_eq.mp h1 with hlt | heq
          · exact absurd h2 (hnone i hlt)
          · rw [heq]
      · rw [if_neg hm]
        constructor
        · intro h
          cases h
        · rintro ⟨h1, h2, h3⟩
          rcases Nat.lt_succ_iff_lt_or_eq.mp h1 with hlt | heq
          · exact absurd h2 (hnone i hlt)
          · rw [heq] at h2
            exact absurd h2 hm

@[simp]
theorem ObjectClass.info_mk (info : ClassInfo) (inherited : Option ObjectClass) :
    (ObjectClass.mk info inherited).info = info := rfl

@[simp]
theorem ObjectClass.inherited_mk (info : ClassInfo) (inherited : Option ObjectClass) :
    (ObjectClass.mk info inherited).inherited = inherited := rfl

@[simp]
theorem ObjectClass.hash_mk (info : ClassInfo) (inherited : Option ObjectClass) :
    (ObjectClass.mk info inherited).hash = info.hash := rfl

theorem ModRegisterObject_STD.eq_found (md5 : CStr → Hash) (st : ModState) (a : RegisterArgs)
    (i : Nat) (hf : findHash st.objectClassList (md5 a.name) st.objectClassCount = some i) :
    ModRegisterObject_STD md5 st a =
      { st with
        objectClassList := Function.update st.objectClassList i
          (.mk { hash := md5 a.name,
                 staticVars :=
                   if md5 a.name = (st.objectClassList i).hash
                   then (st.objectClassList i).info.staticVars else a.staticVars,
                 entityClassSize :=
                   if (st.objectClassList i).info.entityClassSize > a.entityClassSize
                   then (st.objectClassList i).info.entityClassSize else a.entityClassSize,
                 staticClassSize :=
                   if md5 a.name = (st.objectClassList i).hash
                   then (st.objectClassList i).info.staticClassSize else a.staticClassSize,
                 update := ModRegisterObject_STD.slotFor st.currentMod i true
                   .SUPER_UPDATE none a.update,
                 lateUpdate := ModRegisterObject_STD.slotFor st.currentMod i true
                   .SUPER_LATEUPDATE none a.lateUpdate,
                 staticUpdate := ModRegisterObject_STD.slotFor st.currentMod i true
                   .SUPER_STATICUPDATE none a.staticUpdate,
                 draw := ModRegisterObject_STD.slotFor st.currentMod i true
                   .SUPER_DRAW none a.draw,
                 create := ModRegisterObject_STD.slotFor st.currentMod i true
                   .SUPER_CREATE none a.create,
                 stageLoad := ModRegisterObject_STD.slotFor st.currentMod i true
                   .SUPER_STAGELOAD none a.stageLoad,
                 staticLoad := a.staticLoad.map (Callable.wrapped st.currentMod),
                 editorDraw := ModRegisterObject_STD.slotFor st.currentMod i true
                   .SUPER_EDITORDRAW none a.editorDraw,
                 editorLoad := ModRegisterObject_STD.slotFor st.currentMod i true
                   .SUPER_EDITORLOAD none a.editorLoad,
                 serialize := ModRegisterObject_STD.slotFor st.currentMod i true
                   .SUPER_SERIALIZE none a.serialize }
            (some (st.objectClassList i))),
        allocatedInherits := st.allocatedInherits ++ [st.objectClassList i] } := by
  cases h : a.staticLoad <;>
    simp [ModRegisterObject_STD, RegisterObject_STD, hf, h]

theorem ModRegisterObject_STD.eq_fresh (md5 : CStr → Hash) (st : ModState) (a : RegisterArgs)
    (anc : Option ObjectClass)
    (hf : findHash st.objectClassList (md5 a.name) st.objectClassCount = none)
    (hanc : anc = a.inherited.bind (fun inh =>
      (findHash st.objectClassList (md5 inh) (st.objectClassCount + 1)).map st.objectClassList)) :
    ModRegisterObject_STD md5 st a =
      { st with
        objectClassList := Function.update st.objectClassList st.objectClassCount
          (.mk { hash := md5 a.name,
                 staticVars :=
                   (anc.map (fun c => if md5 a.name = c.hash then c.info.staticVars
                     else a.staticVars)).getD a.staticVars,
                 entityClassSize :=
                   (anc.map (fun c => if c.info.entityClassSize > a.entityClassSize
                     then c.info.entityClassSize else a.entityClassSize)).getD a.entityClassSize,
                 staticClassSize :=
                   (anc.map (fun c => if md5 a.name = c.hash then c.info.staticClassSize
                     else a.staticClassSize)).getD a.staticClassSize,
                 update := ModRegisterObject_STD.slotFor st.currentMod st.objectClassCount
                   anc.isSome .SUPER_UPDATE none a.update,
                 lateUpdate := ModRegisterObject_STD.slotFor st.currentMod st.objectClassCount
                   anc.isSome .SUPER_LATEUPDATE none a.lateUpdate,
                 staticUpdate := ModRegisterObject_STD.slotFor st.currentMod st.objectClassCount
                   anc.isSome .SUPER_STATICUPDATE none a.staticUpdate,
                 draw := ModRegisterObject_STD.slotFor st.currentMod st.objectClassCount
                   anc.isSome .SUPER_DRAW none a.draw,
                 create := ModRegisterObject_STD.slotFor st.currentMod st.objectClassCount
                   anc.isSome .SUPER_CREATE none a.create,
                 stageLoad := ModRegisterObject_STD.slotFor st.currentMod st.objectClassCount
                   anc.isSome .SUPER_STAGELOAD none a.stageLoad,
                 staticLoad := a.staticLoad.map (Callable.wrapped st.currentMod),
                 editorDraw := ModRegisterObject_STD.slotFor st.currentMod st.objectClassCount
                   anc.isSome .SUPER_EDITORDRAW none a.editorDraw,
                 editorLoad := ModRegisterObject_STD.slotFor st.currentMod st.objectClassCount
                   anc.isSome .SUPER_EDITORLOAD none a.editorLoad,
                 serialize := ModRegisterObject_STD.slotFor st.currentMod st.objectClassCount
                   anc.isSome .SUPER_SERIALIZE none a.serialize }
            anc),
        objectClassCount := st.objectClassCount + 1,
        allocatedInherits := st.allocatedInherits ++ anc.toList } := by
  cases hinh : a.inherited with
  | none =>
    rw [hinh] at hanc
    simp only [Option.bind] at hanc
    subst hanc
    cases h : a.staticLoad <;>
      simp [ModRegisterObject_STD, RegisterObject_STD, hf, h, hinh]
  | some inh =>
    rw [hinh] at hanc
    simp only [Option.bind] at hanc
    cases h2 : findHash st.objectClassList (md5 inh) (st.objectClassCount + 1) with
    | none =>
      rw [h2] at hanc
      simp only [Option.map] at hanc
      subst hanc
      cases h : a.staticLoad <;>
        simp [ModRegisterObject_STD, RegisterObject_STD, hf, h, hinh, h2]
    | some k =>
      rw [h2] at hanc
      simp only [Option.map] at hanc
      subst hanc
      cases h : a.staticLoad <;>
        simp [ModRegisterObject_STD, RegisterObject_STD, hf, h, hinh, h2]

theorem registeredIndex_found (md5 : CStr → Hash) (st : ModState) (a : RegisterArgs) (i : Nat)
    (hf : findHash st.objectClassList (md5 a.name) st.objectClassCount = some i) :
    registeredIndex md5 st a = i := by
  simp [registeredIndex, hf]

theorem registeredIndex_fresh (md5 : CStr → Hash) (st : ModState) (a : RegisterArgs)
    (hf : findHash st.objectClassList (md5 a.name) st.objectClassCount = none) :
    registeredIndex md5 st a = st.objectClassCount := by
  simp [registeredIndex, hf]

/-- C6: when a live entry has the hash of the name, ModRegisterObject_STD writes
the new record over the first such entry, gives it a copy of the replaced entry
as ancestor, keeps that copy in allocatedInherits, and leaves the live count
and every other entry as they were; when no live entry has the hash, the new
record is written at index objectClassCount, the count grows by one and every
other entry is as it was. -/
theorem ModRegisterObject_STD_replaces_or_appends (md5 : CStr → Hash) (st : ModState)
    (a : RegisterArgs) :
    (∀ i, i < st.objectClassCount → (st.objectClassList i).hash = md5 a.name →
      (∀ j, j < i → (st.objectClassList j).hash ≠ md5 a.name) →
        registeredIndex md5 st a = i ∧
        (ModRegisterObject_STD md5 st a).objectClassCount = st.objectClassCount ∧
        ((ModRegisterObject_STD md5 st a).objectClassList i).hash = md5 a.name ∧
        ((ModRegisterObject_STD md5 st a).objectClassList i).inherited =
          some (st.objectClassList i) ∧
        (ModRegisterObject_STD md5 st a).allocatedInherits =
          st.allocatedInherits ++ [st.objectClassList i] ∧
        ∀ j, j ≠ i →
          (ModRegisterObject_STD md5 st a).objectClassList j = st.objectClassList j) ∧
    ((∀ j, j < st.objectClassCount → (st.objectClassList j).hash ≠ md5 a.name) →
        registeredIndex md5 st a = st.objectClassCount ∧
        (ModRegisterObject_STD md5 st a).objectClassCount = st.objectClassCount + 1 ∧
        ((ModRegisterObject_STD md5 st a).objectClassList st.objectClassCount).hash
          = md5 a.name ∧
        ∀ j, j ≠ st.objectClassCount →
          (ModRegisterObject_STD md5 st a).objectClassList j = st.objectClassList j) := by
  constructor
  · intro i hi hh hfirst
    have hf := (findHash_some st.objectClassList (md5 a.name) st.objectClassCount i).mpr
      ⟨hi, hh, hfirst⟩
    rw [ModRegisterObject_STD.eq_found md5 st a i hf]
    refine ⟨registeredIndex_found md5 st a i hf, rfl, ?_, ?_, rfl, ?_⟩
    · simp
    · simp
    · intro j hj
      simp [Function.update_noteq hj]
  · intro hnone
    have hf := (findHash_none st.objectClassList (md5 a.name) st.objectClassCount).mpr hnone
    rw [ModRegisterObject_STD.eq_fresh md5 st a _ hf rfl]
    refine ⟨registeredIndex_fresh md5 st a hf, rfl, ?_, ?_⟩
    · simp
    · intro j hj
      simp [Function.update_noteq hj]

/-- C6 on the table of Enemy and Boss: registering Boss again replaces entry 1
in place, and registering the new name Player appends entry 2. -/
theorem ModRegisterObject_STD_replaces_or_appends_witness :
    (1 < bossState.objectClassCount ∧
      (bossState.objectClassList 1).hash = exampleMd5 "Boss".toList ∧
      (ModRegisterObject_STD exampleMd5 bossState
        (exampleArgs "Boss".toList none none)).objectClassCount = bossState.objectClassCount ∧
      ((ModRegisterObject_STD exampleMd5 bossState
        (exampleArgs "Boss".toList none none)).objectClassList 1).inherited
          = some (bossState.objectClassList 1)) ∧
    ((∀ j, j < bossState.objectClassCount →
        (bossState.objectClassList j).hash ≠ exampleMd5 "Player".toList) ∧
      (ModRegisterObject_STD exampleMd5 bossState
        (exampleArgs "Player".toList none none)).objectClassCount
          = bossState.objectClassCount + 1) :=
  ⟨⟨by decide, by decide,
      ((ModRegisterObject_STD_replaces_or_appends exampleMd5 bossState
        (exampleArgs "Boss".toList none none)).1 1 (by decide) (by decide) (by decide)).2.1,
      ((ModRegisterObject_STD_replaces_or_appends exampleMd5 bossState
        (exampleArgs "Boss".toList none none)).1 1 (by decide) (by decide) (by decide)).2.2.2.1⟩,
    ⟨by decide,
      ((ModRegisterObject_STD_replaces_or_appends exampleMd5 bossState
        (exampleArgs "Player".toList none none)).2 (by decide)).2.1⟩⟩

/-- C8: in the record written by ModRegisterObject_STD, each of the nine slots
update, lateUpdate, staticUpdate, draw, create, stageLoad, editorDraw,
editorLoad and serialize holds the registrant's function wrapped in the
current-mod marker when one was passed, the call of SuperInternal for that
slot kind on the registered table entry when none was passed and an ancestor
was attached, and stays unset otherwise; staticLoad holds the wrapped function
when one was passed and is unset otherwise. Calling a wrapped slot runs the
registrant's function between setting and clearing the marker; calling a
synthesized slot runs SuperInternal on the table entry for that kind. -/
theorem ModRegisterObject_STD_slots (md5 : CStr → Hash) (st : ModState) (a : RegisterArgs) :
    (∀ kind : ModSuper,
      ((ModRegisterObject_STD md5 st a).objectClassList (registeredIndex md5 st a)).slot kind =
        (match a.slot kind with
          | some f => some (Callable.wrapped st.currentMod f)
          | none =>
            if ((ModRegisterObject_STD md5 st a).objectClassList
                (registeredIndex md5 st a)).inherited.isSome
            then some (Callable.superCall st.currentMod (registeredIndex md5 st a) kind)
            else none)) ∧
    ((ModRegisterObject_STD md5 st a).objectClassList (registeredIndex md5 st a)).info.staticLoad
      = a.staticLoad.map (Callable.wrapped st.currentMod) ∧
    (∀ (run : Callable → Nat → ModState → Option ModState) (curMod : Option Nat) (f : UserFn)
        (arg : Nat) (s : ModState),
      Callable.call run (Callable.wrapped curMod f) arg s =
        (runUser run arg f { s with currentMod := curMod }).map
          (fun s1 => { s1 with currentMod := none })) ∧
    (∀ (run : Callable → Nat → ModState → Option ModState) (curMod : Option Nat) (info : Nat)
        (kind : ModSuper) (arg : Nat) (s : ModState),
      Callable.call run (Callable.superCall curMod info kind) arg s =
        (SuperInternal run (s.objectClassList info) kind
          (if kind = ModSuper.SUPER_CREATE then arg else 0) { s with currentMod := curMod }).map
          (fun s1 => { s1 with currentMod := none })) := by
  refine ⟨?_, ?_, ?_, ?_⟩
  · intro kind
    cases hf : findHash st.objectClassList (md5 a.name) st.objectClassCount with
    | some i =>
      rw [registeredIndex_found md5 st a i hf, ModRegisterObject_STD.eq_found md5 st a i hf]
      cases kind <;> cases hk : a.slot _ <;>
        simp_all [ObjectClass.slot, RegisterArgs.slot, ModRegisterObject_STD.slotFor]
    | none =>
      rw [registeredIndex_fresh md5 st a hf, ModRegisterObject_STD.eq_fresh md5 st a _ hf rfl]
      cases kind <;> cases hk : a.slot _ <;>
        simp_all [ObjectClass.slot, RegisterArgs.slot, ModRegisterObject_STD.slotFor]
  · cases hf : findHash st.objectClassList (md5 a.name) st.objectClassCount with
    | some i =>
      rw [registeredIndex_found md5 st a i hf, ModRegisterObject_STD.eq_found md5 st a i hf]
      simp
    | none =>
      rw [registeredIndex_fresh md5 st a hf, ModRegisterObject_STD.eq_fresh md5 st a _ hf rfl]
      simp
  · intro run curMod f arg s
    simp only [Callable.call]
    cases runUser run arg f { s with currentMod := curMod } <;> rfl
  · intro run curMod info kind arg s
    simp only [Callable.call]
    cases SuperInternal run (s.objectClassList info) kind
      (if kind = ModSuper.SUPER_CREATE then arg else 0) { s with currentMod := curMod } <;> rfl

/-! ## The override chain -/

theorem SuperInternal.walk_succ_end (n : Nat) (c : ObjectClass) :
    SuperInternal.walk (n + 1) c =
      (match (SuperInternal.walk n c).inherited with
        | none => SuperInternal.walk n c
        | some anc => anc) := by
  induction n generalizing c with
  | zero =>
    cases h : c.inherited <;> simp [SuperInternal.walk, h]
  | succ n ih =>
    cases h : c.inherited with
    | none => simp [SuperInternal.walk, h]
    | some anc =>
      have h1 : SuperInternal.walk (n + 1 + 1) c = SuperInternal.walk (n + 1) anc := by
        simp [SuperInternal.walk, h]
      have h2 : SuperInternal.walk (n + 1) c = SuperInternal.walk n anc := by
        simp [SuperInternal.walk, h]
      rw [h1, h2]
      exact ih anc

theorem range_targets (f : Nat → Event) (d : Nat) :
    f 0 :: (List.range (d + 1)).map (fun t => f (t + 1)) = (List.range (d + 2)).map f := by
  rw [List.range_succ_eq_map (d + 1), List.map_cons, List.map_map]
  rfl

theorem SuperInternal.descend (info : Nat) (callback : ModSuper) (live anc0 : ObjectClass)
    (hanc : live.inherited = some anc0) (hh : live.hash = anc0.hash) :
    ∀ (d j fuel data : Nat) (s : ModState),
      DefaultChain info callback d (SuperInternal.walk j live) →
      s.objectClassList info = live →
      s.superLevels (levelKey s.inheritLevel) + 1 = j →
      j + d < 4294967296 → d ≤ fuel →
      SuperInternal (invoke fuel) live callback data s =
        some { s with history := s.history ++
          (List.range (d + 1)).map (fun t => Event.target (SuperInternal.walk (j + t) live) callback) } := by
  intro d
  induction d with
  | zero =>
    intro j fuel data s hchain htab hcount hbound _
    obtain ⟨_, hslot⟩ := hchain
    have hj : (s.superLevels (levelKey s.inheritLevel) + 1) % 4294967296 = j := by omega
    unfold SuperInternal
    simp only [hanc]
    rw [SuperInternal.enter_override live anc0 s hh, hj]
    simp only [SuperInternal.dispatch, hslot, SuperInternal.leave_override,
      Function.update_same, Function.update_idem]
    have hback : (j + 4294967296 - 1) % 4294967296 = s.superLevels (levelKey s.inheritLevel) := by
      omega
    rw [hback, Function.update_eq_self]
    rfl
  | succ d ih =>
    intro j fuel data s hchain htab hcount hbound hfuel
    obtain ⟨⟨m, hslot⟩, anc, hnext, hrest⟩ := hchain
    have hj : (s.superLevels (levelKey s.inheritLevel) + 1) % 4294967296 = j := by omega
    obtain ⟨fuel2, rfl⟩ : ∃ f2, fuel = f2 + 1 := ⟨fuel - 1, by omega⟩
    have hwalk : SuperInternal.walk (j + 1) live = anc := by
      rw [SuperInternal.walk_succ_end, hnext]
    have hrec := ih (j + 1) fuel2 (if callback = ModSuper.SUPER_CREATE then
        (if callback = ModSuper.SUPER_CREATE then data else 0) else 0)
      { s with
        superLevels := Function.update s.superLevels (levelKey s.inheritLevel) j,
        history := s.history ++ [Event.target (SuperInternal.walk j live) callback],
        currentMod := m }
      (by rw [hwalk]; exact hrest) htab (by simp) (by omega) (by omega)
    unfold SuperInternal
    simp only [hanc]
    rw [SuperInternal.enter_override live anc0 s hh, hj]
    simp only [SuperInternal.dispatch, hslot, invoke, Callable.call, htab]
    rw [hrec]
    simp only [SuperInternal.leave_override, Function.update_same, Function.update_idem]
    have hback : (j + 4294967296 - 1) % 4294967296 = s.superLevels (levelKey s.inheritLevel) := by
      omega
    have hlist : [Event.target (SuperInternal.walk j live) callback] ++
        List.map (fun t => Event.target (SuperInternal.walk (j + 1 + t) live) callback)
          (List.range (d + 1)) =
        List.map (fun t => Event.target (SuperInternal.walk (j + t) live) callback)
          (List.range (d + 1 + 1)) := by
      have h := range_targets (fun t => Event.target (SuperInternal.walk (j + t) live) callback) d
      simp only [Nat.add_zero] at h
      rw [← h, List.singleton_append]
      refine congrArg _ (List.map_congr_left ?_)
      intro t _
      have : j + 1 + t = j + (t + 1) := by omega
      rw [this]
    rw [hback, Function.update_eq_self, List.append_assoc, hlist]

theorem registerBy_first (md5 : CStr → Hash) (st : ModState) (m : Option Nat)
    (a : RegisterArgs)
    (hfresh : ∀ i, i < st.objectClassCount → (st.objectClassList i).hash ≠ md5 a.name)
    (hinh : a.inherited = none) :
    (registerBy md5 st (m, a)).objectClassCount = st.objectClassCount + 1 ∧
    (∀ j, j ≠ st.objectClassCount →
      (registerBy md5 st (m, a)).objectClassList j = st.objectClassList j) ∧
    ((registerBy md5 st (m, a)).objectClassList st.objectClassCount).hash = md5 a.name ∧
    ((registerBy md5 st (m, a)).objectClassList st.objectClassCount).inherited = none ∧
    (∀ kind, ((registerBy md5 st (m, a)).objectClassList st.objectClassCount).slot kind =
      (a.slot kind).map (Callable.wrapped m)) := by
  have hf : findHash ({ st with currentMod := m } : ModState).objectClassList (md5 a.name)
      ({ st with currentMod := m } : ModState).objectClassCount = none :=
    (findHash_none _ _ _).mpr hfresh
  unfold registerBy
  rw [ModRegisterObject_STD.eq_fresh md5 _ a none hf (by simp [hinh])]
  refine ⟨rfl, ?_, ?_, ?_, ?_⟩
  · intro j hj
    simp [Function.update_noteq hj]
  · simp
  · simp
  · intro kind
    cases kind <;> cases hk : a.slot _ <;>
      simp_all [ObjectClass.slot, RegisterArgs.slot, ModRegisterObject_STD.slotFor]

theorem registerBy_override (md5 : CStr → Hash) (st : ModState) (m : Option Nat)
    (a : RegisterArgs) (c0 : Nat)
    (hcount : st.objectClassCount = c0 + 1)
    (hbelow : ∀ i, i < c0 → (st.objectClassList i).hash ≠ md5 a.name)
    (hat : (st.objectClassList c0).hash = md5 a.name) :
    (registerBy md5 st (m, a)).objectClassCount = c0 + 1 ∧
    (∀ j, j ≠ c0 → (registerBy md5 st (m, a)).objectClassList j = st.objectClassList j) ∧
    ((registerBy md5 st (m, a)).objectClassList c0).hash = md5 a.name ∧
    ((registerBy md5 st (m, a)).objectClassList c0).inherited = some (st.objectClassList c0) ∧
    (∀ kind, ((registerBy md5 st (m, a)).objectClassList c0).slot kind =
      (match a.slot kind with
        | some f => some (Callable.wrapped m f)
        | none => some (Callable.superCall m c0 kind))) := by
  have hf : findHash ({ st with currentMod := m } : ModState).objectClassList (md5 a.name)
      ({ st with currentMod := m } : ModState).objectClassCount = some c0 :=
    (findHash_some _ _ _ _).mpr ⟨by simp [hcount], hat, hbelow⟩
  unfold registerBy
  rw [ModRegisterObject_STD.eq_found md5 _ a c0 hf]
  refine ⟨hcount, ?_, ?_, ?_, ?_⟩
  · intro j hj
    simp [Function.update_noteq hj]
  · simp
  · simp
  · intro kind
    cases kind <;> cases hk : a.slot _ <;>
      simp_all [ObjectClass.slot, RegisterArgs.slot, ModRegisterObject_STD.slotFor]

theorem registerAll_chain (md5 : CStr → Hash) (name : CStr) (c0 : Nat) (callback : ModSuper)
    (regs : List (Option Nat × RegisterArgs)) :
    ∀ (st : ModState) (d : Nat),
      st.objectClassCount = c0 + 1 →
      (∀ i, i < c0 → (st.objectClassList i).hash ≠ md5 name) →
      (st.objectClassList c0).hash = md5 name →
      (∀ r ∈ regs, r.2.name = name) →
      (registerAll md5 st regs).objectClassCount = c0 + 1 ∧
      (∀ i, i < c0 → ((registerAll md5 st regs).objectClassList i).hash ≠ md5 name) ∧
      ((registerAll md5 st regs).objectClassList c0).hash = md5 name ∧
      SuperInternal.walk regs.length ((registerAll md5 st regs).objectClassList c0)
        = st.objectClassList c0 ∧
      ((∀ r ∈ regs, r.2.slot callback = none) →
        DefaultChain c0 callback d (st.objectClassList c0) →
        DefaultChain c0 callback (d + regs.length)
          ((registerAll md5 st regs).objectClassList c0)) := by
  induction regs using List.reverseRecOn with
  | nil =>
    intro st d hcount hbelow hat _
    exact ⟨hcount, hbelow, hat, rfl, fun _ h => h⟩
  | append_singleton regs r ih =>
    intro st d hcount hbelow hat hnames
    have hnames1 : ∀ q ∈ regs, q.2.name = name :=
      fun q hq => hnames q (List.mem_append_left _ hq)
    have hr : r.2.name = name := hnames r (List.mem_append_right _ (List.mem_singleton_self r))
    obtain ⟨h1, h2, h3, h4, h5⟩ := ih st d hcount hbelow hat hnames1
    have hall : registerAll md5 st (regs ++ [r]) =
        registerBy md5 (registerAll md5 st regs) (r.1, r.2) := by
      simp [registerAll, List.foldl_append]
    obtain ⟨g1, g2, g3, g4, g5⟩ := registerBy_override md5 (registerAll md5 st regs) r.1 r.2 c0 h1
      (by rw [hr]; exact h2) (by rw [hr]; exact h3)
    rw [hall]
    refine ⟨g1, ?_, ?_, ?_, ?_⟩
    · intro i hi
      rw [g2 i (Nat.ne_of_lt hi)]
      exact h2 i hi
    · rw [g3, hr]
    · rw [List.length_append, List.length_singleton]
      have hw : SuperInternal.walk (regs.length + 1)
          ((registerBy md5 (registerAll md5 st regs) (r.1, r.2)).objectClassList c0) =
          SuperInternal.walk regs.length ((registerAll md5 st regs).objectClassList c0) := by
        simp [SuperInternal.walk, g4]
      rw [hw, h4]
    · intro hslots hchain
      have hslots1 : ∀ q ∈ regs, q.2.slot callback = none :=
        fun q hq => hslots q (List.mem_append_left _ hq)
      have hrs : r.2.slot callback = none :=
        hslots r (List.mem_append_right _ (List.mem_singleton_self r))
      rw [List.length_append, List.length_singleton, ← Nat.add_assoc]
      refine ⟨⟨r.1, ?_⟩, _, g4, h5 hslots1 hchain⟩
      rw [g5 callback, hrs]

theorem DefaultChain.walk (info : Nat) (callback : ModSuper) :
    ∀ (d : Nat) (c : ObjectClass), DefaultChain info callback d c →
      (∀ t, t < d → ∃ m,
        (SuperInternal.walk t c).slot callback = some (Callable.superCall m info callback)) ∧
      (SuperInternal.walk d c).slot callback = none ∧
      (SuperInternal.walk d c).inherited = none := by
  intro d
  induction d with
  | zero =>
    intro c h
    exact ⟨fun t ht => absurd ht (Nat.not_lt_zero t), h.2, h.1⟩
  | succ d ih =>
    intro c h
    obtain ⟨hm, anc, hanc, hrest⟩ := h
    obtain ⟨h1, h2, h3⟩ := ih anc hrest
    have hw : ∀ n, SuperInternal.walk (n + 1) c = SuperInternal.walk n anc := by
      intro n
      simp [SuperInternal.walk, hanc]
    refine ⟨?_, ?_, ?_⟩
    · intro t ht
      cases t with
      | zero => exact hm
      | succ t =>
        rw [hw]
        exact h1 t (Nat.lt_of_succ_lt_succ ht)
    · rw [hw]
      exact h2
    · rw [hw]
      exact h3

/-- C5: from a table with no live class named `name`, register the name by
`first` (no ancestor name, no draw), then by each of `middle` (no draw), then by
`last` with the draw function `impl`. Then the table has one live record of the
name, at the old objectClassCount; its draw slot is `impl` wrapped for the mod
of `last`, and calling it runs `impl` under that mod's marker; Super(draw) on
the live record, called with the count at the current inheritLevel at 0,
returns, having targeted the records 1, 2, .., n - 1 links below the live
record, each once and in this order, and leaves inheritLevel, superLevels and
the current-mod marker as they were; the record t links below the live one is
the record that was live before the last t registrations; those of `middle`
hold the synthesized call of SuperInternal on the live table entry, and the
deepest, that of `first`, has no draw slot and no ancestor. -/
theorem Super_override_chain (md5 : CStr → Hash) (st0 : ModState) (name : CStr)
    (first : Option Nat × RegisterArgs) (middle : List (Option Nat × RegisterArgs))
    (last : Option Nat × RegisterArgs) (impl : UserFn)
    (hfresh : ∀ i, i < st0.objectClassCount → (st0.objectClassList i).hash ≠ md5 name)
    (hfirst : first.2.name = name ∧ first.2.inherited = none ∧ first.2.draw = none)
    (hmiddle : ∀ r ∈ middle, r.2.name = name ∧ r.2.draw = none)
    (hlast : last.2.name = name ∧ last.2.draw = some impl)
    (hsize : middle.length + 2 < 4294967296) :
    (registerAll md5 st0 (first :: (middle ++ [last]))).objectClassCount
      = st0.objectClassCount + 1 ∧
    ((registerAll md5 st0 (first :: (middle ++ [last]))).objectClassList
      st0.objectClassCount).slot ModSuper.SUPER_DRAW = some (Callable.wrapped last.1 impl) ∧
    (∀ (fuel arg : Nat) (s : ModState),
      invoke (fuel + 1) (Callable.wrapped last.1 impl) arg s =
        (runUser (invoke fuel) arg impl { s with currentMod := last.1 }).map
          (fun s1 => { s1 with currentMod := none })) ∧
    (∀ (fuel arg data : Nat) (s : ModState),
      runStmt (invoke fuel) arg (Stmt.super st0.objectClassCount ModSuper.SUPER_DRAW data) s =
        SuperInternal (invoke fuel) (s.objectClassList st0.objectClassCount)
          ModSuper.SUPER_DRAW data s) ∧
    (∀ (s : ModState) (fuel data : Nat),
      s.objectClassList st0.objectClassCount =
        (registerAll md5 st0 (first :: (middle ++ [last]))).objectClassList
          st0.objectClassCount →
      s.superLevels (levelKey s.inheritLevel) = 0 →
      middle.length ≤ fuel →
      SuperInternal (invoke fuel)
          ((registerAll md5 st0 (first :: (middle ++ [last]))).objectClassList
            st0.objectClassCount) ModSuper.SUPER_DRAW data s =
        some { s with history := s.history ++
          (List.range (middle.length + 1)).map (fun t =>
            Event.target (SuperInternal.walk (t + 1)
              ((registerAll md5 st0 (first :: (middle ++ [last]))).objectClassList
                st0.objectClassCount)) ModSuper.SUPER_DRAW) }) ∧
    (∀ (done rest : List (Option Nat × RegisterArgs)),
      first :: middle = done ++ rest → done ≠ [] →
      SuperInternal.walk (rest.length + 1)
          ((registerAll md5 st0 (first :: (middle ++ [last]))).objectClassList
            st0.objectClassCount) =
        (registerAll md5 st0 done).objectClassList st0.objectClassCount) ∧
    (∀ t, t < middle.length → ∃ m,
      (SuperInternal.walk (t + 1)
        ((registerAll md5 st0 (first :: (middle ++ [last]))).objectClassList
          st0.objectClassCount)).slot ModSuper.SUPER_DRAW =
        some (Callable.superCall m st0.objectClassCount ModSuper.SUPER_DRAW)) ∧
    (SuperInternal.walk (middle.length + 1)
      ((registerAll md5 st0 (first :: (middle ++ [last]))).objectClassList
        st0.objectClassCount)).slot ModSuper.SUPER_DRAW = none ∧
    (SuperInternal.walk (middle.length + 1)
      ((registerAll md5 st0 (first :: (middle ++ [last]))).objectClassList
        st0.objectClassCount)).inherited = none := by
  obtain ⟨hn1, hinh1, hdraw1⟩ := hfirst
  obtain ⟨hn3, hdraw3⟩ := hlast
  -- the first registration
  obtain ⟨f1, f2, f3, f4, f5⟩ := registerBy_first md5 st0 first.1 first.2
    (by rw [hn1]; exact hfresh) hinh1
  have hbelow1 : ∀ i, i < st0.objectClassCount →
      ((registerBy md5 st0 (first.1, first.2)).objectClassList i).hash ≠ md5 name := by
    intro i hi
    rw [f2 i (Nat.ne_of_lt hi)]
    exact hfresh i hi
  have hat1 : ((registerBy md5 st0 (first.1, first.2)).objectClassList
      st0.objectClassCount).hash = md5 name := by rw [f3, hn1]
  have hchain1 : DefaultChain st0.objectClassCount ModSuper.SUPER_DRAW 0
      ((registerBy md5 st0 (first.1, first.2)).objectClassList st0.objectClassCount) := by
    refine ⟨f4, ?_⟩
    rw [f5 ModSuper.SUPER_DRAW]
    simp [RegisterArgs.slot, hdraw1]
  -- the registrations in the middle
  have hsplit : ∀ l : List (Option Nat × RegisterArgs),
      registerAll md5 st0 (first :: l) =
        registerAll md5 (registerBy md5 st0 (first.1, first.2)) l := by
    intro l
    simp [registerAll]
  obtain ⟨m1, m2, m3, _, m5⟩ := registerAll_chain md5 name st0.objectClassCount
    ModSuper.SUPER_DRAW middle (registerBy md5 st0 (first.1, first.2)) 0 f1 hbelow1 hat1
    (fun r hr => (hmiddle r hr).1)
  have hchainPrev := m5 (fun r hr => by
    simp only [RegisterArgs.slot]
    exact (hmiddle r hr).2) hchain1
  rw [Nat.zero_add] at hchainPrev
  -- the last registration
  have hall : registerAll md5 st0 (first :: (middle ++ [last])) =
      registerBy md5 (registerAll md5 (registerBy md5 st0 (first.1, first.2)) middle)
        (last.1, last.2) := by
    simp [registerAll, List.foldl_append]
  obtain ⟨g1, _, g3, g4, g5⟩ := registerBy_override md5
    (registerAll md5 (registerBy md5 st0 (first.1, first.2)) middle) last.1 last.2
    st0.objectClassCount m1 (by rw [hn3]; exact m2) (by rw [hn3]; exact m3)
  rw [hall]
  have hdraw : ((registerBy md5 (registerAll md5 (registerBy md5 st0 (first.1, first.2)) middle)
      (last.1, last.2)).objectClassList st0.objectClassCount).slot ModSuper.SUPER_DRAW =
      some (Callable.wrapped last.1 impl) := by
    rw [g5 ModSuper.SUPER_DRAW]
    simp [RegisterArgs.slot, hdraw3]
  have hhash : ((registerBy md5 (registerAll md5 (registerBy md5 st0 (first.1, first.2)) middle)
      (last.1, last.2)).objectClassList st0.objectClassCount).hash =
      ((registerAll md5 (registerBy md5 st0 (first.1, first.2)) middle).objectClassList
        st0.objectClassCount).hash := by
    rw [g3, hn3, m3]
  have hw : ∀ n, SuperInternal.walk (n + 1)
      ((registerBy md5 (registerAll md5 (registerBy md5 st0 (first.1, first.2)) middle)
        (last.1, last.2)).objectClassList st0.objectClassCount) =
      SuperInternal.walk n
        ((registerAll md5 (registerBy md5 st0 (first.1, first.2)) middle).objectClassList
          st0.objectClassCount) := by
    intro n
    simp [SuperInternal.walk, g4]
  obtain ⟨w1, w2, w3⟩ := DefaultChain.walk st0.objectClassCount ModSuper.SUPER_DRAW
    middle.length _ hchainPrev
  refine ⟨g1, hdraw, ?_, ?_, ?_, ?_, ?_, ?_, ?_⟩
  · intro fuel arg s
    simp only [invoke, Callable.call]
    cases runUser (invoke fuel) arg impl { s with currentMod := last.1 } <;> rfl
  · intro fuel arg data s
    rfl
  · intro s fuel data htab hzero hfuel
    have hd := SuperInternal.descend st0.objectClassCount ModSuper.SUPER_DRAW _ _ g4 hhash
      middle.length 1 fuel data s (by rw [hw 0]; exact hchainPrev) htab (by omega) (by omega)
      hfuel
    rw [hd]
    have hmap : ∀ (c : ObjectClass) (l : List Nat),
        l.map (fun t => Event.target (SuperInternal.walk (1 + t) c) ModSuper.SUPER_DRAW) =
        l.map (fun t => Event.target (SuperInternal.walk (t + 1) c) ModSuper.SUPER_DRAW) := by
      intro c l
      apply List.map_congr_left
      intro t _
      rw [Nat.add_comm]
    rw [hmap]
  · intro done rest hdr hne
    cases done with
    | nil => exact absurd rfl hne
    | cons p done2 =>
      have hp : p = first := (List.cons.inj hdr).1.symm
      have hm : middle = done2 ++ rest := (List.cons.inj hdr).2
      subst hp
      have hmid1 : ∀ r ∈ done2, r.2.name = name :=
        fun r hr => (hmiddle r (by rw [hm]; exact List.mem_append_left _ hr)).1
      have hmid2 : ∀ r ∈ rest, r.2.name = name :=
        fun r hr => (hmiddle r (by rw [hm]; exact List.mem_append_right _ hr)).1
      obtain ⟨d1, d2, d3, _, _⟩ := registerAll_chain md5 name st0.objectClassCount
        ModSuper.SUPER_DRAW done2 (registerBy md5 st0 (p.1, p.2)) 0 f1 hbelow1 hat1 hmid1
      obtain ⟨_, _, _, e4, _⟩ := registerAll_chain md5 name st0.objectClassCount
        ModSuper.SUPER_DRAW rest (registerAll md5 (registerBy md5 st0 (p.1, p.2)) done2) 0
        d1 d2 d3 hmid2
      have hjoin : registerAll md5 (registerBy md5 st0 (p.1, p.2)) middle =
          registerAll md5 (registerAll md5 (registerBy md5 st0 (p.1, p.2)) done2) rest := by
        rw [hm]
        simp [registerAll, List.foldl_append]
      rw [hw, hjoin, e4, hsplit]
  · intro t ht
    rw [hw]
    exact w1 t ht
  · rw [hw]
    exact w2
  · rw [hw]
    exact w3

/-- C5 on the Player scenario (mods 1, 2, 3, draw passed by mod 3 only): Super(draw)
on the live record targets the record of mod 2 and then the record of mod 1 and
returns with the levels and the marker as before; the whole draw call records
the action of mod 3, the two targets, and the second action of mod 3 under the
marker of mod 3 again. -/
theorem Super_override_chain_witness :
    (∀ i, i < initialState.objectClassCount →
      (initialState.objectClassList i).hash ≠ exampleMd5 "Player".toList) ∧
    playerState.superLevels (levelKey playerState.inheritLevel) = 0 ∧
    SuperInternal (invoke 1) (playerState.objectClassList 0) ModSuper.SUPER_DRAW 0 playerState =
      some { playerState with history := playerState.history ++
        [Event.target (SuperInternal.walk 1 (playerState.objectClassList 0)) ModSuper.SUPER_DRAW,
         Event.target (SuperInternal.walk 2 (playerState.objectClassList 0))
           ModSuper.SUPER_DRAW] } ∧
    SuperInternal.walk 1 (playerState.objectClassList 0) =
      (registerAll exampleMd5 initialState
        [(some 1, exampleArgs "Player".toList none none),
         (some 2, exampleArgs "Player".toList none none)]).objectClassList 0 ∧
    SuperInternal.walk 2 (playerState.objectClassList 0) =
      (registerAll exampleMd5 initialState
        [(some 1, exampleArgs "Player".toList none none)]).objectClassList 0 ∧
    (invoke 2 (Callable.wrapped (some 3) playerDraw) 0 playerState).map (fun s => s.history) =
      some [Event.user 1 (some 3) 0,
        Event.target (SuperInternal.walk 1 (playerState.objectClassList 0)) ModSuper.SUPER_DRAW,
        Event.target (SuperInternal.walk 2 (playerState.objectClassList 0)) ModSuper.SUPER_DRAW,
        Event.user 2 (some 3) 0] :=
  ⟨fun i hi => absurd hi (Nat.not_lt_zero i), rfl,
    (Super_override_chain exampleMd5 initialState "Player".toList
      (some 1, exampleArgs "Player".toList none none)
      [(some 2, exampleArgs "Player".toList none none)]
      (some 3, exampleArgs "Player".toList (some playerDraw) none) playerDraw
      (fun i hi => absurd hi (Nat.not_lt_zero i)) ⟨rfl, rfl, rfl⟩
      (by simp [exampleArgs]) ⟨rfl, rfl⟩ (by decide)).2.2.2.2.1 playerState 1 0 rfl rfl
        (by decide),
    rfl, rfl, rfl⟩

/-! ## Cross-type extension -/

/-- C11: for a record whose ancestor has a different hash, SuperInternal resolves
the immediate ancestor itself, calls its slot (when set) in a state whose
inheritLevel is one above the value at entry, and on return applies one
decrement to the inheritLevel the slot left; when the hashes are equal the
state handed to the slot has the inheritLevel of entry and the return leaves
the inheritLevel the slot left untouched. -/
theorem SuperInternal_inherit_level
    (invoke : Callable → Nat → ModState → Option ModState) (super anc : ObjectClass)
    (callback : ModSuper) (data : Nat) (st : ModState) (hanc : super.inherited = some anc) :
    (super.hash ≠ anc.hash →
      (SuperInternal.enter super anc st).1 = false ∧
      (SuperInternal.enter super anc st).2.1 = anc ∧
      (SuperInternal.enter super anc st).2.2.inheritLevel = st.inheritLevel + 1 ∧
      (∀ f, anc.slot callback = some f →
        SuperInternal.dispatch invoke anc callback data (SuperInternal.enter super anc st).2.2 =
          invoke f (if callback = ModSuper.SUPER_CREATE then data else 0)
            { (SuperInternal.enter super anc st).2.2 with
              history := (SuperInternal.enter super anc st).2.2.history ++
                [Event.target anc callback] }) ∧
      (∀ mid, SuperInternal.dispatch invoke anc callback data
          (SuperInternal.enter super anc st).2.2 = some mid →
        SuperInternal invoke super callback data st =
          some (SuperInternal.leave false st.currentMod mid) ∧
        (SuperInternal.leave false st.currentMod mid).inheritLevel = mid.inheritLevel - 1)) ∧
    (super.hash = anc.hash →
      (SuperInternal.enter super anc st).1 = true ∧
      (SuperInternal.enter super anc st).2.2.inheritLevel = st.inheritLevel ∧
      (∀ mid, SuperInternal.dispatch invoke (SuperInternal.enter super anc st).2.1 callback data
          (SuperInternal.enter super anc st).2.2 = some mid →
        SuperInternal invoke super callback data st =
          some (SuperInternal.leave true st.currentMod mid) ∧
        (SuperInternal.leave true st.currentMod mid).inheritLevel = mid.inheritLevel)) := by
  constructor
  · intro hh
    have he := SuperInternal.enter_inherit super anc st hh
    refine ⟨by rw [he], by rw [he], by rw [he], ?_, ?_⟩
    · intro f hf
      simp only [SuperInternal.dispatch, hf]
    · intro mid hmid
      constructor
      · unfold SuperInternal
        rw [he] at hmid
        simp only [hanc, he, hmid]
      · rw [SuperInternal.leave_inherit]
  · intro hh
    have he := SuperInternal.enter_override super anc st hh
    refine ⟨by rw [he], by rw [he], ?_⟩
    intro mid hmid
    constructor
    · unfold SuperInternal
      rw [he] at hmid
      simp only [hanc, he, hmid]
    · rw [SuperInternal.leave_override]

/-- C11 on Boss declaring the ancestor Enemy: the hashes differ, the resolved
record is Enemy, the level handed on is 1 and the call returns at level 0. -/
theorem SuperInternal_inherit_level_witness :
    (bossState.objectClassList 1).inherited = some (bossState.objectClassList 0) ∧
    (bossState.objectClassList 1).hash ≠ (bossState.objectClassList 0).hash ∧
    (SuperInternal.enter (bossState.objectClassList 1) (bossState.objectClassList 0)
      bossState).2.1 = bossState.objectClassList 0 ∧
    (SuperInternal.enter (bossState.objectClassList 1) (bossState.objectClassList 0)
      bossState).2.2.inheritLevel = bossState.inheritLevel + 1 ∧
    (SuperInternal (invoke 1) (bossState.objectClassList 1) ModSuper.SUPER_DRAW 0
      bossState).map (fun s => s.inheritLevel) = some 0 :=
  ⟨rfl, by decide,
    ((SuperInternal_inherit_level (invoke 1) (bossState.objectClassList 1)
      (bossState.objectClassList 0) ModSuper.SUPER_DRAW 0 bossState rfl).1 (by decide)).2.1,
    ((SuperInternal_inherit_level (invoke 1) (bossState.objectClassList 1)
      (bossState.objectClassList 0) ModSuper.SUPER_DRAW 0 bossState rfl).1 (by decide)).2.2.1,
    rfl⟩

/-! ## SortMods -/

theorem stable_sort.insert_active (a : ModInfo) (l : List ModInfo) (ha : a.active = true) :
    stable_sort.insert SortMods.comp a l = a :: l := by
  cases l with
  | nil => rfl
  | cons b rest =>
    have hc : SortMods.comp b a = false := by
      cases hb : b.active <;> simp [SortMods.comp, ha, hb]
    simp [stable_sort.insert, hc]

theorem stable_sort.insert_inactive (a : ModInfo) (front back : List ModInfo)
    (ha : a.active = false) (hfront : ∀ b ∈ front, b.active = true)
    (hback : ∀ b ∈ back, b.active = false) :
    stable_sort.insert SortMods.comp a (front ++ back) = front ++ a :: back := by
  induction front with
  | nil =>
    cases back with
    | nil => rfl
    | cons b rest =>
      have hb : b.active = false := hback b (List.mem_cons_self _ _)
      have hc : SortMods.comp b a = false := by simp [SortMods.comp, ha, hb]
      simp [stable_sort.insert, hc]
  | cons b front ih =>
    have hb : b.active = true := hfront b (List.mem_cons_self _ _)
    have hc : SortMods.comp b a = true := by simp [SortMods.comp, ha, hb]
    have ih2 := ih (fun x hx => hfront x (List.mem_cons_of_mem _ hx))
    simp [stable_sort.insert, hc, ih2]

theorem stable_sort_comp (l : List ModInfo) :
    stable_sort SortMods.comp l =
      l.filter (fun m => m.active) ++ l.filter (fun m => !m.active) := by
  induction l with
  | nil => rfl
  | cons a l ih =>
    have hstep : stable_sort SortMods.comp (a :: l) =
        stable_sort.insert SortMods.comp a (stable_sort SortMods.comp l) := rfl
    rw [hstep, ih]
    cases ha : a.active with
    | true =>
      rw [stable_sort.insert_active a _ ha]
      simp [List.filter, ha]
    | false =>
      rw [stable_sort.insert_inactive a _ _ ha
        (fun b hb => by simpa using (List.mem_filter.mp hb).2)
        (fun b hb => by simpa using (List.mem_filter.mp hb).2)]
      simp [List.filter, ha]

/-- C12: the sort step of SortMods turns the list into its active mods, in
their order, followed by its inactive mods, in their order; the result is a
permutation of the list, every active mod precedes every inactive one, and
[A active, B inactive, C active, D inactive] becomes [A, C, B, D]. -/
theorem SortMods_stable_partition (ENGINE_VERSION : Nat) (modList : List ModInfo) :
    stable_sort SortMods.comp modList =
      modList.filter (fun m => m.active) ++ modList.filter (fun m => !m.active) ∧
    (stable_sort SortMods.comp modList).Perm modList ∧
    (∀ (i j : Nat) (a b : ModInfo), (stable_sort SortMods.comp modList)[i]? = some a →
      (stable_sort SortMods.comp modList)[j]? = some b → a.active = false → b.active = true →
      j < i) ∧
    (stable_sort SortMods.comp modList).filter (fun m => m.active) =
      modList.filter (fun m => m.active) ∧
    (stable_sort SortMods.comp modList).filter (fun m => !m.active) =
      modList.filter (fun m => !m.active) ∧
    SortMods ENGINE_VERSION modList =
      stable_sort SortMods.comp
        (if ENGINE_VERSION ≠ 0 then modList.map (SortMods.checkVersion ENGINE_VERSION)
          else modList) ∧
    stable_sort SortMods.comp
        [plainMod "A".toList true, plainMod "B".toList false, plainMod "C".toList true,
          plainMod "D".toList false] =
      [plainMod "A".toList true, plainMod "C".toList true, plainMod "B".toList false,
        plainMod "D".toList false] := by
  have h := stable_sort_comp modList
  refine ⟨h, ?_, ?_, ?_, ?_, rfl, by decide⟩
  · rw [h]
    exact List.filter_append_perm _ _
  · intro i j a b hi hj ha hb
    rw [h] at hi hj
    have hi2 : (modList.filter (fun m => m.active)).length ≤ i := by
      by_contra hlt
      rw [List.getElem?_append_left (Nat.lt_of_not_le hlt)] at hi
      have hmem := List.getElem?_mem hi
      have hact : a.active = true := by simpa using (List.mem_filter.mp hmem).2
      rw [ha] at hact
      exact absurd hact (by simp)
    have hj2 : j < (modList.filter (fun m => m.active)).length := by
      by_contra hge
      rw [List.getElem?_append_right (Nat.le_of_not_lt hge)] at hj
      have hmem := List.getElem?_mem hj
      have hact : b.active = false := by simpa using (List.mem_filter.mp hmem).2
      rw [hb] at hact
      exact absurd hact (by simp)
    exact Nat.lt_of_lt_of_le hj2 hi2
  · rw [h]
    simp [List.filter_append, List.filter_filter]
  · rw [h]
    simp [List.filter_append, List.filter_filter]

/-- C12 on the four-mod list: in the sorted list B (inactive) stands at index 2
and C (active) at index 1. -/
theorem SortMods_stable_partition_witness :
    (stable_sort SortMods.comp
      [plainMod "A".toList true, plainMod "B".toList false, plainMod "C".toList true,
        plainMod "D".toList false])[2]? = some (plainMod "B".toList false) ∧
    (stable_sort SortMods.comp
      [plainMod "A".toList true, plainMod "B".toList false, plainMod "C".toList true,
        plainMod "D".toList false])[1]? = some (plainMod "C".toList true) ∧
    1 < 2 :=
  ⟨by decide, by decide,
    (SortMods_stable_partition 5
      [plainMod "A".toList true, plainMod "B".toList false, plainMod "C".toList true,
        plainMod "D".toList false]).2.2.1 2 1 (plainMod "B".toList false)
      (plainMod "C".toList true) (by decide) (by decide) rfl rfl⟩

/-! ## Data packs -/

theorem LoadDataPack.fold_entries (g : Nat → RSDKFileInfo) (l0 : Nat → RSDKFileInfo) (k : Nat) :
    (List.range k).foldl (fun l f => Function.update l f (g f)) l0 =
      fun f => if f < k then g f else l0 f := by
  induction k with
  | zero =>
    funext f
    simp
  | succ k ih =>
    rw [List.range_succ, List.foldl_append, ih]
    funext f
    simp only [List.foldl_cons, List.foldl_nil, Function.update]
    by_cases h1 : f = k
    · subst h1
      simp
    · by_cases h2 : f < k
      · have : f < k + 1 := Nat.lt_succ_of_lt h2
        simp [h1, h2, this]
      · have : ¬ f < k + 1 := by omega
        simp [h1, h2, this]

theorem readAt_eq (env : ReaderEnv) (content : List Nat) (pos n : Nat)
    (h : pos + n ≤ content.length) : readAt env content pos n = bytesAt content pos n := by
  apply List.ext_getElem?
  intro i
  unfold readAt bytesAt
  by_cases hi : i < n
  · have h1 : pos + i < content.length := by omega
    simp [List.getElem?_take, hi, List.getElem?_range, List.getElem?_drop,
      List.getElem?_eq_getElem h1]
  · have h2 : n ≤ i := Nat.le_of_not_lt hi
    simp [List.getElem?_take, hi, List.getElem?_eq_none, h2]

theorem bytesAt_four (content : List Nat) (pos : Nat) (h : pos + 4 ≤ content.length) :
    bytesAt content pos 4 =
      [content.getD pos 0, content.getD (pos + 1) 0, content.getD (pos + 2) 0,
        content.getD (pos + 3) 0] := by
  apply List.ext_getElem?
  intro i
  unfold bytesAt
  have h0 : pos < content.length := by omega
  have h1 : pos + 1 < content.length := by omega
  have h2 : pos + 2 < content.length := by omega
  have h3 : pos + 3 < content.length := by omega
  match i with
  | 0 => simp [List.getElem?_take, List.getElem?_drop, List.getD_eq_getElem?_getD,
      List.getElem?_eq_getElem h0]
  | 1 => simp [List.getElem?_take, List.getElem?_drop, List.getD_eq_getElem?_getD,
      List.getElem?_eq_getElem h1]
  | 2 => simp [List.getElem?_take, List.getElem?_drop, List.getD_eq_getElem?_getD,
      List.getElem?_eq_getElem h2]
  | 3 => simp [List.getElem?_take, List.getElem?_drop, List.getD_eq_getElem?_getD,
      List.getElem?_eq_getElem h3]
  | i + 4 => simp [List.getElem?_take]

theorem or_bytes (b0 b1 b2 b3 : Nat) (h0 : b0 < 256) (h1 : b1 < 256) (h2 : b2 < 256)
    (h3 : b3 < 256) :
    ((b0 <<< 24) ||| (b1 <<< 16) ||| (b2 <<< 8) ||| (b3 <<< 0)) % 4294967296 =
      bigEndian [b0, b1, b2, b3] := by
  have e3 : 2 ^ 8 * b2 ||| b3 = 2 ^ 8 * b2 + b3 :=
    (Nat.mul_add_lt_is_or (by omega) b2).symm
  have e2 : 2 ^ 16 * b1 ||| (2 ^ 8 * b2 + b3) = 2 ^ 16 * b1 + (2 ^ 8 * b2 + b3) :=
    (Nat.mul_add_lt_is_or (by omega) b1).symm
  have e1 : 2 ^ 24 * b0 ||| (2 ^ 16 * b1 + (2 ^ 8 * b2 + b3)) =
      2 ^ 24 * b0 + (2 ^ 16 * b1 + (2 ^ 8 * b2 + b3)) :=
    (Nat.mul_add_lt_is_or (by omega) b0).symm
  have e : (b0 <<< 24) ||| (b1 <<< 16) ||| (b2 <<< 8) ||| (b3 <<< 0) =
      2 ^ 24 * b0 + (2 ^ 16 * b1 + (2 ^ 8 * b2 + b3)) := by
    rw [Nat.shiftLeft_eq, Nat.shiftLeft_eq, Nat.shiftLeft_eq, Nat.shiftLeft_eq, Nat.or_assoc,
      Nat.or_assoc, Nat.pow_zero, Nat.mul_one, Nat.mul_comm b0, Nat.mul_comm b1,
      Nat.mul_comm b2, e3, e2, e1]
  rw [e]
  simp only [bigEndian, List.foldl_cons, List.foldl_nil]
  omega

theorem size_field (raw : Nat) (hraw : raw < 4294967296) :
    decide (raw &&& 0x80000000 ≠ 0) = raw.testBit 31 ∧
      raw &&& 0x7FFFFFFF = raw % 2147483648 ∧
      raw = raw % 2147483648 + (if raw.testBit 31 then 2147483648 else 0) := by
  have hand : raw &&& 0x80000000 = (raw.testBit 31).toNat * 2 ^ 31 := Nat.and_two_pow raw 31
  have hmask : raw &&& 0x7FFFFFFF = raw % 2 ^ 31 := Nat.and_pow_two_sub_one_eq_mod raw 31
  have hbit : raw.testBit 31 = decide (raw / 2 ^ 31 % 2 = 1) := Nat.testBit_to_div_mod
  refine ⟨?_, hmask, ?_⟩
  · rw [hand]
    cases h : raw.testBit 31 <;> simp
  · cases h : raw.testBit 31
    · rw [h] at hbit
      have := of_decide_eq_false hbit.symm
      simp only [Bool.false_eq_true, if_false]
      omega
    · rw [h] at hbit
      have := of_decide_eq_true hbit.symm
      simp only [if_true]
      omega

theorem LoadDataPack.eq_ok (env : ReaderEnv) (userFileDir : CStr) (st : ReaderState)
    (filePath : CStr) (fileOffset : Nat) (useBuffer : Bool) (content : List Nat)
    (hload : env.loadFile ((userFileDir ++ filePath).take 255) = some content)
    (hsig : env.int32Of (readAt env content 0 4) % 4294967296 = env.RSDK_SIGNATURE_RSDK) :
    LoadDataPack env userFileDir st filePath fileOffset useBuffer =
      (true,
        { dataFileList := fun f =>
            if f < (env.int16Of (readAt env content 6 2)).toNat then
              LoadDataPack.entry env content useBuffer st.dataPackCount f
            else st.dataFileList f,
          dataPacks := Function.update st.dataPacks st.dataPackCount
            { name := (userFileDir ++ filePath).take 255,
              fileCount := env.int16Of (readAt env content 6 2),
              fileBuffer := if useBuffer then some content else none },
          dataPackCount := (st.dataPackCount + 1) % 256,
          dataFileListCount :=
            (((st.dataFileListCount : Int) + env.int16Of (readAt env content 6 2)) % 65536).toNat,
          useDataPack := true }) := by
  unfold LoadDataPack
  simp only [hload, hsig, ne_eq, not_true_eq_false, if_false, Function.update_idem]
  rw [LoadDataPack.fold_entries]

theorem LoadDataPack.eq_bad (env : ReaderEnv) (userFileDir : CStr) (st : ReaderState)
    (filePath : CStr) (fileOffset : Nat) (useBuffer : Bool) (content : List Nat)
    (hload : env.loadFile ((userFileDir ++ filePath).take 255) = some content)
    (hsig : env.int32Of (readAt env content 0 4) % 4294967296 ≠ env.RSDK_SIGNATURE_RSDK) :
    LoadDataPack env userFileDir st filePath fileOffset useBuffer =
      (false,
        { st with
          dataPacks := Function.update st.dataPacks st.dataPackCount RSDKContainer.zero,
          useDataPack := false }) := by
  unfold LoadDataPack
  simp only [hload, ne_eq, hsig, not_false_eq_true, if_true]

/-- C13: for a well-formed pack with `k` entries (every byte below 256, the
signature valid, the file holding the 8-byte header and 24 bytes per entry),
LoadDataPack returns true and stores for each entry `f < k`: the four hash
words as the big-endian values of their four bytes; `encrypted` exactly when
bit 31 of the raw 32-bit size field is set; `size` = the raw field with bit 31
cleared, so that `size < 2^31` and `raw = size + 2^31` when encrypted, `raw =
size` otherwise; the offset as read; `packID` = the index of the pack being
loaded; and `useFileBuffer` = the mode requested. -/
theorem LoadDataPack_stores_entries (env : ReaderEnv) (userFileDir : CStr) (st : ReaderState)
    (filePath : CStr) (fileOffset : Nat) (useBuffer : Bool) (content : List Nat) (k f : Nat)
    (hload : env.loadFile ((userFileDir ++ filePath).take 255) = some content)
    (hbytes : ∀ x ∈ content, x < 256)
    (hsig : env.int32Of (bytesAt content 0 4) % 4294967296 = env.RSDK_SIGNATURE_RSDK)
    (hcount : env.int16Of (bytesAt content 6 2) = (k : Int))
    (hlen : 8 + 24 * k ≤ content.length)
    (hf : f < k) :
    (LoadDataPack env userFileDir st filePath fileOffset useBuffer).1 = true ∧
    ((LoadDataPack env userFileDir st filePath fileOffset useBuffer).2.dataFileList f).hash =
      (bigEndian (bytesAt content (8 + 24 * f) 4), bigEndian (bytesAt content (8 + 24 * f + 4) 4),
        bigEndian (bytesAt content (8 + 24 * f + 8) 4),
        bigEndian (bytesAt content (8 + 24 * f + 12) 4)) ∧
    ((LoadDataPack env userFileDir st filePath fileOffset useBuffer).2.dataFileList f).encrypted =
      (env.int32Of (bytesAt content (8 + 24 * f + 20) 4) % 4294967296).testBit 31 ∧
    ((LoadDataPack env userFileDir st filePath fileOffset useBuffer).2.dataFileList f).size =
      env.int32Of (bytesAt content (8 + 24 * f + 20) 4) % 4294967296 % 2147483648 ∧
    ((LoadDataPack env userFileDir st filePath fileOffset useBuffer).2.dataFileList f).size <
      2147483648 ∧
    env.int32Of (bytesAt content (8 + 24 * f + 20) 4) % 4294967296 =
      ((LoadDataPack env userFileDir st filePath fileOffset useBuffer).2.dataFileList f).size +
        (if ((LoadDataPack env userFileDir st filePath fileOffset useBuffer).2.dataFileList
            f).encrypted then 2147483648 else 0) ∧
    ((LoadDataPack env userFileDir st filePath fileOffset useBuffer).2.dataFileList f).offset =
      env.int32Of (bytesAt content (8 + 24 * f + 16) 4) % 4294967296 ∧
    ((LoadDataPack env userFileDir st filePath fileOffset useBuffer).2.dataFileList f).packID =
      st.dataPackCount ∧
    ((LoadDataPack env userFileDir st filePath fileOffset useBuffer).2.dataFileList
      f).useFileBuffer = useBuffer := by
  have hsig2 : env.int32Of (readAt env content 0 4) % 4294967296 = env.RSDK_SIGNATURE_RSDK := by
    rw [readAt_eq env content 0 4 (by omega)]
    exact hsig
  have hcount2 : env.int16Of (readAt env content 6 2) = (k : Int) := by
    rw [readAt_eq env content 6 2 (by omega)]
    exact hcount
  have hword : ∀ y, y < 4 →
      ((((readAt env content (8 + 24 * f + 4 * y) 4).getD 0 0 <<< 24) |||
        ((readAt env content (8 + 24 * f + 4 * y) 4).getD 1 0 <<< 16) |||
        ((readAt env content (8 + 24 * f + 4 * y) 4).getD 2 0 <<< 8) |||
        ((readAt env content (8 + 24 * f + 4 * y) 4).getD 3 0 <<< 0)) % 4294967296) =
      bigEndian (bytesAt content (8 + 24 * f + 4 * y) 4) := by
    intro y hy
    have hb : ∀ i, i < 4 → content.getD (8 + 24 * f + 4 * y + i) 0 < 256 := by
      intro i hi
      have hlt : 8 + 24 * f + 4 * y + i < content.length := by omega
      rw [List.getD_eq_getElem _ _ hlt]
      exact hbytes _ (List.getElem_mem hlt)
    rw [readAt_eq env content _ 4 (by omega), bytesAt_four content _ (by omega)]
    simp only [List.getD_cons_zero, List.getD_cons_succ]
    exact or_bytes _ _ _ _ (hb 0 (by omega)) (hb 1 (by omega)) (hb 2 (by omega))
      (hb 3 (by omega))
  have hraw := size_field (env.int32Of (bytesAt content (8 + 24 * f + 20) 4) % 4294967296)
    (Nat.mod_lt _ (by decide))
  rw [LoadDataPack.eq_ok env userFileDir st filePath fileOffset useBuffer content hload hsig2]
  simp only [hcount2, Int.toNat_ofNat, hf, if_true]
  have h0 := hword 0 (by omega)
  have h1 := hword 1 (by omega)
  have h2 := hword 2 (by omega)
  have h3 := hword 3 (by omega)
  simp only [Nat.mul_zero, Nat.add_zero, Nat.mul_one] at h0 h1 h2 h3
  unfold LoadDataPack.entry
  simp only [Nat.mul_zero, Nat.add_zero, Nat.mul_one, h0, h1, h2, h3,
    readAt_eq env content (8 + 24 * f + 16) 4 (by omega),
    readAt_eq env content (8 + 24 * f + 20) 4 (by omega), hraw.1, hraw.2.1]
  refine ⟨trivial, trivial, trivial, trivial, Nat.mod_lt _ (by decide), hraw.2.2, trivial, trivial,
    trivial⟩

/-- C13 on the second entry of pack A, whose size field has bit 31 set. -/
theorem LoadDataPack_stores_entries_witness :
    (LoadDataPack (exampleEnv exampleFiles) [] ReaderState.initial "Data.rsdk".toList 0
      false).1 = true ∧
    (stateA.dataFileList 1).hash = exampleMd5w "data/b.bin".toList ∧
    (stateA.dataFileList 1).encrypted = true ∧
    (stateA.dataFileList 1).size = 4 ∧
    (stateA.dataFileList 1).offset = 72 ∧
    (stateA.dataFileList 1).packID = 0 ∧
    littleEndian (bytesAt packA (8 + 24 * 1 + 20) 4) = 4 + 2147483648 := by
  have h := LoadDataPack_stores_entries (exampleEnv exampleFiles) [] ReaderState.initial
    "Data.rsdk".toList 0 false packA 2 1 (by decide) (by decide) (by decide) (by decide)
    (by decide) (by decide)
  refine ⟨h.1, ?_, ?_, ?_, ?_, h.2.2.2.2.2.2.2.1, by decide⟩
  · exact h.2.1.trans (by decide)
  · exact h.2.2.1.trans (by decide)
  · exact h.2.2.2.1.trans (by decide)
  · exact h.2.2.2.2.2.2.1.trans (by decide)

/-- C14 (the code departs from it): after LoadDataPack succeeds on a pack A
with `a` entries and then on a pack B with `b` entries, `dataFileListCount` has
grown by `a + b`, but B's entries are written at positions `0..b-1`, over A's:
position `f < b` holds B's entry `f`, positions `b ≤ f < a` still hold A's
entries, and positions from `max a b` on are never written. -/
theorem LoadDataPack_second_pack_overwrites (env : ReaderEnv) (userFileDir : CStr)
    (st : ReaderState) (pathA pathB : CStr) (useA useB : Bool) (contentA contentB : List Nat)
    (a b : Nat)
    (hloadA : env.loadFile ((userFileDir ++ pathA).take 255) = some contentA)
    (hsigA : env.int32Of (readAt env contentA 0 4) % 4294967296 = env.RSDK_SIGNATURE_RSDK)
    (hcountA : env.int16Of (readAt env contentA 6 2) = (a : Int))
    (hloadB : env.loadFile ((userFileDir ++ pathB).take 255) = some contentB)
    (hsigB : env.int32Of (readAt env contentB 0 4) % 4294967296 = env.RSDK_SIGNATURE_RSDK)
    (hcountB : env.int16Of (readAt env contentB 6 2) = (b : Int))
    (hroom : st.dataFileListCount + a + b < 65536) :
    (LoadDataPack env userFileDir st pathA 0 useA).1 = true ∧
    (LoadDataPack env userFileDir (LoadDataPack env userFileDir st pathA 0 useA).2 pathB 0
      useB).1 = true ∧
    (LoadDataPack.twice env userFileDir st pathA useA pathB useB).dataFileListCount =
      st.dataFileListCount + a + b ∧
    (∀ f, f < b →
      (LoadDataPack.twice env userFileDir st pathA useA pathB useB).dataFileList f =
        LoadDataPack.entry env contentB useB ((st.dataPackCount + 1) % 256) f) ∧
    (∀ f, b ≤ f → f < a →
      (LoadDataPack.twice env userFileDir st pathA useA pathB useB).dataFileList f =
        LoadDataPack.entry env contentA useA st.dataPackCount f) ∧
    (∀ f, a ≤ f → b ≤ f →
      (LoadDataPack.twice env userFileDir st pathA useA pathB useB).dataFileList f =
        st.dataFileList f) := by
  unfold LoadDataPack.twice
  rw [LoadDataPack.eq_ok env userFileDir st pathA 0 useA contentA hloadA hsigA,
    LoadDataPack.eq_ok env userFileDir _ pathB 0 useB contentB hloadB hsigB]
  simp only [hcountA, hcountB, Int.toNat_ofNat]
  refine ⟨trivial, trivial, ?_, ?_, ?_, ?_⟩
  · omega
  · intro f hf
    simp only [hf, if_true]
  · intro f hb ha
    have : ¬ f < b := Nat.not_lt.mpr hb
    simp only [this, ha, if_true, if_false]
  · intro f ha hb
    have h1 : ¬ f < b := Nat.not_lt.mpr hb
    have h2 : ¬ f < a := Nat.not_lt.mpr ha
    simp only [h1, h2, if_false]

/-- C14 at the failing input: pack A (two entries) and then pack B (one entry)
are loaded; position 0 of the index holds B's entry, position 2 was never
written, and OpenDataFile no longer finds the first file of pack A. -/
theorem LoadDataPack_second_pack_overwrites_witness :
    stateA.dataFileListCount = 2 ∧ stateAB.dataFileListCount = 3 ∧
    (stateA.dataFileList 0).hash = exampleMd5w "data/a.bin".toList ∧
    (stateAB.dataFileList 0).hash = exampleMd5w "data/c.bin".toList ∧
    (stateAB.dataFileList 0).packID = 1 ∧
    stateAB.dataFileList 2 = RSDKFileInfo.zero ∧
    (OpenDataFile (exampleEnv exampleFiles) exampleMd5w stateA FileInfo.initial
      "Data/A.bin".toList).1 = true ∧
    (OpenDataFile (exampleEnv exampleFiles) exampleMd5w stateAB FileInfo.initial
      "Data/A.bin".toList).1 = false := by
  have h := LoadDataPack_second_pack_overwrites (exampleEnv exampleFiles) [] ReaderState.initial
    "Data.rsdk".toList "Extra.rsdk".toList false false packA packB 2 1 (by decide) (by decide)
    (by decide) (by decide) (by decide) (by decide) (by decide)
  refine ⟨by decide, h.2.2.1, by decide, ?_, ?_, ?_, by decide, by decide⟩
  · exact (congrArg RSDKFileInfo.hash (h.2.2.2.1 0 (by decide))).trans (by decide)
  · exact (congrArg RSDKFileInfo.packID (h.2.2.2.1 0 (by decide))).trans (by decide)
  · exact h.2.2.2.2.2 2 (by decide) (by decide)

/-- C16 (amended): for every file that can be opened but whose first four bytes
are not the container signature, LoadDataPack returns false and leaves
`dataPackCount`, `dataFileListCount`, every index entry and every pack record
other than the unused one at `dataPackCount` (which is zeroed) unchanged; the
flag `useDataPack`, however, is cleared. -/
theorem LoadDataPack_bad_signature (env : ReaderEnv) (userFileDir : CStr) (st : ReaderState)
    (filePath : CStr) (fileOffset : Nat) (useBuffer : Bool) (content : List Nat)
    (hload : env.loadFile ((userFileDir ++ filePath).take 255) = some content)
    (hsig : env.int32Of (readAt env content 0 4) % 4294967296 ≠ env.RSDK_SIGNATURE_RSDK) :
    (LoadDataPack env userFileDir st filePath fileOffset useBuffer).1 = false ∧
    (LoadDataPack env userFileDir st filePath fileOffset useBuffer).2.dataPackCount =
      st.dataPackCount ∧
    (LoadDataPack env userFileDir st filePath fileOffset useBuffer).2.dataFileListCount =
      st.dataFileListCount ∧
    (LoadDataPack env userFileDir st filePath fileOffset useBuffer).2.dataFileList =
      st.dataFileList ∧
    (∀ j, j ≠ st.dataPackCount →
      (LoadDataPack env userFileDir st filePath fileOffset useBuffer).2.dataPacks j =
        st.dataPacks j) ∧
    (LoadDataPack env userFileDir st filePath fileOffset useBuffer).2.dataPacks
      st.dataPackCount = RSDKContainer.zero ∧
    (LoadDataPack env userFileDir st filePath fileOffset useBuffer).2.useDataPack = false := by
  rw [LoadDataPack.eq_bad env userFileDir st filePath fileOffset useBuffer content hload hsig]
  refine ⟨rfl, rfl, rfl, rfl, ?_, ?_, rfl⟩
  · intro j hj
    exact Function.update_noteq hj _ _
  · exact Function.update_same _ _ _

/-- C16 (amended) on a file that starts with another signature, pack A being
loaded. -/
theorem LoadDataPack_bad_signature_witness :
    (LoadDataPack (exampleEnv exampleFiles) [] stateA "Bad.rsdk".toList 0 false).1 = false ∧
    (LoadDataPack (exampleEnv exampleFiles) [] stateA "Bad.rsdk".toList 0
      false).2.dataFileListCount = 2 ∧
    (LoadDataPack (exampleEnv exampleFiles) [] stateA "Bad.rsdk".toList 0
      false).2.dataFileList = stateA.dataFileList := by
  have h := LoadDataPack_bad_signature (exampleEnv exampleFiles) [] stateA "Bad.rsdk".toList 0
    false [0x50, 0x4B, 0x03, 0x04, 0, 0, 0, 0] (by decide) (by decide)
  exact ⟨h.1, h.2.2.1.trans (by decide), h.2.2.2.1⟩

/-- C16 as stated fails: pack A is loaded and `useDataPack` is set; a call of
LoadDataPack on a file without the signature returns false and leaves
`useDataPack` cleared. -/
theorem LoadDataPack_clears_useDataPack_counterexample :
    stateA.useDataPack = true ∧
    (LoadDataPack (exampleEnv exampleFiles) [] stateA "Bad.rsdk".toList 0 false).1 = false ∧
    (LoadDataPack (exampleEnv exampleFiles) [] stateA "Bad.rsdk".toList 0
      false).2.useDataPack = false := by
  decide

/-- C17 (amended): for every pack file with a valid signature, whatever its
length, LoadDataPack returns true: `useDataPack` is set, `dataPackCount` grows
by one (modulo 2^8), `dataFileListCount` grows by the declared count (modulo
2^16), every position below the declared count is written with an entry of the
pack, formed from whatever the reads delivered, and the positions from the
declared count on are unchanged. -/
theorem LoadDataPack_valid_signature (env : ReaderEnv) (userFileDir : CStr) (st : ReaderState)
    (filePath : CStr) (fileOffset : Nat) (useBuffer : Bool) (content : List Nat)
    (hload : env.loadFile ((userFileDir ++ filePath).take 255) = some content)
    (hsig : env.int32Of (readAt env content 0 4) % 4294967296 = env.RSDK_SIGNATURE_RSDK) :
    (LoadDataPack env userFileDir st filePath fileOffset useBuffer).1 = true ∧
    (LoadDataPack env userFileDir st filePath fileOffset useBuffer).2.useDataPack = true ∧
    (LoadDataPack env userFileDir st filePath fileOffset useBuffer).2.dataPackCount =
      (st.dataPackCount + 1) % 256 ∧
    (LoadDataPack env userFileDir st filePath fileOffset useBuffer).2.dataFileListCount =
      (((st.dataFileListCount : Int) + env.int16Of (readAt env content 6 2)) % 65536).toNat ∧
    (∀ f, f < (env.int16Of (readAt env content 6 2)).toNat →
      (LoadDataPack env userFileDir st filePath fileOffset useBuffer).2.dataFileList f =
        LoadDataPack.entry env content useBuffer st.dataPackCount f ∧
      ((LoadDataPack env userFileDir st filePath fileOffset useBuffer).2.dataFileList
        f).packID = st.dataPackCount) ∧
    (∀ f, (env.int16Of (readAt env content 6 2)).toNat ≤ f →
      (LoadDataPack env userFileDir st filePath fileOffset useBuffer).2.dataFileList f =
        st.dataFileList f) := by
  rw [LoadDataPack.eq_ok env userFileDir st filePath fileOffset useBuffer content hload hsig]
  refine ⟨rfl, rfl, rfl, rfl, ?_, ?_⟩
  · intro f hf
    simp only [hf, if_true]
    exact ⟨trivial, rfl⟩
  · intro f hf
    have : ¬ f < (env.int16Of (readAt env content 6 2)).toNat := Nat.not_lt.mpr hf
    simp only [this, if_false]

/-- C17 (amended) on an 8-byte file that has the signature and declares one
entry, pack A being loaded. -/
theorem LoadDataPack_valid_signature_witness :
    ([0x52, 0x53, 0x44, 0x4B, 0x76, 0x35, 1, 0] : List Nat).length < 8 + 24 * 1 ∧
    (LoadDataPack (exampleEnv exampleFiles) [] stateA "Short.rsdk".toList 0 false).1 = true ∧
    (LoadDataPack (exampleEnv exampleFiles) [] stateA "Short.rsdk".toList 0
      false).2.dataPackCount = 2 ∧
    (LoadDataPack (exampleEnv exampleFiles) [] stateA "Short.rsdk".toList 0
      false).2.dataFileListCount = 3 := by
  have h := LoadDataPack_valid_signature (exampleEnv exampleFiles) [] stateA "Short.rsdk".toList 0
    false [0x52, 0x53, 0x44, 0x4B, 0x76, 0x35, 1, 0] (by decide) (by decide)
  exact ⟨by decide, h.1, h.2.2.1.trans (by decide), h.2.2.2.1.trans (by decide)⟩

/-- C17 as stated fails: with pack A loaded, LoadDataPack on an 8-byte file
that has the signature and declares one entry returns true, counts the entry
and the pack, and overwrites position 0 of the index with an entry read past
the end of the file. -/
theorem LoadDataPack_truncated_counterexample :
    (LoadDataPack (exampleEnv exampleFiles) [] stateA "Short.rsdk".toList 0 false).1 = true ∧
    stateA.dataFileListCount = 2 ∧
    (LoadDataPack (exampleEnv exampleFiles) [] stateA "Short.rsdk".toList 0
      false).2.dataFileListCount = 3 ∧
    stateA.dataPackCount = 1 ∧
    (LoadDataPack (exampleEnv exampleFiles) [] stateA "Short.rsdk".toList 0
      false).2.dataPackCount = 2 ∧
    (LoadDataPack (exampleEnv exampleFiles) [] stateA "Short.rsdk".toList 0
      false).2.dataFileList 0 ≠ stateA.dataFileList 0 := by
  decide

theorem findDataFile_none (list : Nat → RSDKFileInfo) (hash : HashMD5) (count : Nat) :
    findDataFile list hash count = none ↔ ∀ j, j < count → (list j).hash ≠ hash := by
  unfold findDataFile
  simp [List.find?_eq_none]

theorem findDataFile_succ (list : Nat → RSDKFileInfo) (hash : HashMD5) (count : Nat) :
    findDataFile list hash (count + 1) =
      (findDataFile list hash count).or (if (list count).hash = hash then some count else none) := by
  unfold findDataFile
  rw [List.range_succ, List.find?_append]
  congr 1
  by_cases h : (list count).hash = hash <;> simp [List.find?, h]

theorem findDataFile_some (list : Nat → RSDKFileInfo) (hash : HashMD5) (count i : Nat) :
    findDataFile list hash count = some i ↔
      i < count ∧ (list i).hash = hash ∧ ∀ j, j < i → (list j).hash ≠ hash := by
  induction count generalizing i with
  | zero => simp [findDataFile]
  | succ c ih =>
    rw [findDataFile_succ]
    cases hc : findDataFile list hash c with
    | some k =>
      have hk := (ih k).mp hc
      have ihi := ih i
      rw [hc] at ihi
      simp only [Option.or_some]
      constructor
      · intro h
        obtain ⟨h1, h2, h3⟩ := ihi.mp h
        exact ⟨Nat.lt_succ_of_lt h1, h2, h3⟩
      · rintro ⟨h1, h2, h3⟩
        rcases Nat.lt_trichotomy i k with hlt | heq | hgt
        · exact absurd h2 (hk.2.2 i hlt)
        · rw [heq]
        · exact absurd hk.2.1 (h3 k hgt)
    | none =>
      have hnone := (findDataFile_none list hash c).mp hc
      simp only [Option.none_or]
      by_cases hm : (list c).hash = hash
      · rw [if_pos hm]
        constructor
        · intro h
          cases h
          exact ⟨Nat.lt_succ_self _, hm, hnone⟩
        · rintro ⟨h1, h2, h3⟩
          rcases Nat.lt_succ_iff_lt_or_eq.mp h1 with hlt | heq
          · exact absurd h2 (hnone i hlt)
          · rw [heq]
      · rw [if_neg hm]
        constructor
        · intro h
          cases h
        · rintro ⟨h1, h2, h3⟩
          rcases Nat.lt_succ_iff_lt_or_eq.mp h1 with hlt | heq
          · exact absurd h2 (hnone i hlt)
          · rw [heq] at h2
            exact absurd h2 hm

theorem toupper_tolower (c : Char) : toupper (tolower c) = toupper c := by
  unfold tolower
  by_cases h : 65 ≤ c.toNat ∧ c.toNat ≤ 90
  · rw [if_pos h]
    have hc : c = Char.ofNat c.toNat := (Char.ofNat_toNat c).symm
    obtain ⟨h1, h2⟩ := h
    generalize c.toNat = n at hc h1 h2
    subst hc
    interval_cases n <;> rfl
  · rw [if_neg h]

theorem StringUpperCase_of_lower (a b : CStr) (h : StringLowerCase a = StringLowerCase b) :
    StringUpperCase a = StringUpperCase b := by
  have e : ∀ s : CStr, StringUpperCase (StringLowerCase s) = StringUpperCase s := by
    intro s
    unfold StringUpperCase StringLowerCase
    rw [List.map_map]
    exact List.map_congr_left (fun c _ => toupper_tolower c)
  rw [← e a, ← e b, h]

theorem OpenDataFile.eq_none (env : ReaderEnv) (md5w : CStr → HashMD5) (st : ReaderState)
    (info : FileInfo) (filename : CStr)
    (h : findDataFile st.dataFileList (md5w (StringLowerCase filename)) st.dataFileListCount
      = none) :
    OpenDataFile env md5w st info filename = (false, info) := by
  unfold OpenDataFile
  simp only [h]

theorem OpenDataFile.eq_some (env : ReaderEnv) (md5w : CStr → HashMD5) (st : ReaderState)
    (info : FileInfo) (filename : CStr) (f : Nat)
    (h : findDataFile st.dataFileList (md5w (StringLowerCase filename)) st.dataFileListCount
      = some f)
    (hopen : (st.dataFileList f).useFileBuffer = true ∨
      env.fOpen (st.dataPacks (st.dataFileList f).packID).name = true) :
    (OpenDataFile env md5w st info filename).1 = true ∧
    (OpenDataFile env md5w st info filename).2.fileSize = (st.dataFileList f).size ∧
    (OpenDataFile env md5w st info filename).2.fileOffset = (st.dataFileList f).offset ∧
    (OpenDataFile env md5w st info filename).2.encrypted = (st.dataFileList f).encrypted ∧
    (OpenDataFile env md5w st info filename).2.readPos = 0 ∧
    (OpenDataFile env md5w st info filename).2.usingFileBuffer =
      (st.dataFileList f).useFileBuffer ∧
    (OpenDataFile env md5w st info filename).2.file =
      some (if (st.dataFileList f).useFileBuffer then
          FileIO.memory (st.dataFileList f).packID (st.dataFileList f).offset
        else FileIO.disk (st.dataPacks (st.dataFileList f).packID).name
          (st.dataFileList f).offset) := by
  unfold OpenDataFile
  simp only [h]
  have hc : (!(st.dataFileList f).useFileBuffer &&
      !env.fOpen (st.dataPacks (st.dataFileList f).packID).name) = false := by
    rcases hopen with h1 | h1 <;> simp [h1]
  rw [hc]
  simp only [Bool.false_eq_true, if_false]
  cases hb : (st.dataFileList f).useFileBuffer <;> cases he : (st.dataFileList f).encrypted <;>
    simp [GenerateELoadKeys]

/-- C15: for every index and file name such that each matching entry is in
buffered mode or has an openable pack file, OpenDataFile succeeds if and only
if some entry among the first `dataFileListCount` has the hash
MD5(lowercase(name)); on success it opens the first such entry in index order,
copying its size, offset and encrypted flag and setting the read position to
0; without a match it returns false and leaves the `FileInfo` alone; and two
names that differ only in letter case give the same result. -/
theorem OpenDataFile_first_match (env : ReaderEnv) (md5w : CStr → HashMD5) (st : ReaderState)
    (info : FileInfo) (filename : CStr)
    (hopen : ∀ f, f < st.dataFileListCount →
      (st.dataFileList f).hash = md5w (StringLowerCase filename) →
      (st.dataFileList f).useFileBuffer = true ∨
        env.fOpen (st.dataPacks (st.dataFileList f).packID).name = true) :
    ((OpenDataFile env md5w st info filename).1 = true ↔
      ∃ f, f < st.dataFileListCount ∧
        (st.dataFileList f).hash = md5w (StringLowerCase filename)) ∧
    (∀ f, f < st.dataFileListCount →
      (st.dataFileList f).hash = md5w (StringLowerCase filename) →
      (∀ j, j < f → (st.dataFileList j).hash ≠ md5w (StringLowerCase filename)) →
      (OpenDataFile env md5w st info filename).1 = true ∧
      (OpenDataFile env md5w st info filename).2.fileSize = (st.dataFileList f).size ∧
      (OpenDataFile env md5w st info filename).2.fileOffset = (st.dataFileList f).offset ∧
      (OpenDataFile env md5w st info filename).2.encrypted = (st.dataFileList f).encrypted ∧
      (OpenDataFile env md5w st info filename).2.readPos = 0 ∧
      (OpenDataFile env md5w st info filename).2.usingFileBuffer =
        (st.dataFileList f).useFileBuffer ∧
      (OpenDataFile env md5w st info filename).2.file =
        some (if (st.dataFileList f).useFileBuffer then
            FileIO.memory (st.dataFileList f).packID (st.dataFileList f).offset
          else FileIO.disk (st.dataPacks (st.dataFileList f).packID).name
            (st.dataFileList f).offset)) ∧
    ((∀ f, f < st.dataFileListCount →
        (st.dataFileList f).hash ≠ md5w (StringLowerCase filename)) →
      OpenDataFile env md5w st info filename = (false, info)) ∧
    (∀ other : CStr, StringLowerCase other = StringLowerCase filename →
      OpenDataFile env md5w st info other = OpenDataFile env md5w st info filename) := by
  refine ⟨?_, ?_, ?_, ?_⟩
  · cases hfind : findDataFile st.dataFileList (md5w (StringLowerCase filename))
        st.dataFileListCount with
    | none =>
      rw [OpenDataFile.eq_none env md5w st info filename hfind]
      have hnone := (findDataFile_none _ _ _).mp hfind
      constructor
      · intro h
        cases h
      · rintro ⟨f, hf, hh⟩
        exact absurd hh (hnone f hf)
    | some f =>
      obtain ⟨h1, h2, _⟩ := (findDataFile_some _ _ _ f).mp hfind
      exact ⟨fun _ => ⟨f, h1, h2⟩,
        fun _ => (OpenDataFile.eq_some env md5w st info filename f hfind (hopen f h1 h2)).1⟩
  · intro f h1 h2 h3
    exact OpenDataFile.eq_some env md5w st info filename f
      ((findDataFile_some _ _ _ f).mpr ⟨h1, h2, h3⟩) (hopen f h1 h2)
  · intro h
    exact OpenDataFile.eq_none env md5w st info filename ((findDataFile_none _ _ _).mpr h)
  · intro other hlow
    have hup := StringUpperCase_of_lower other filename hlow
    simp only [OpenDataFile, GenerateELoadKeys, hlow, hup]

/-- C15 on pack A: the encrypted second entry is found under another letter
case of its name, and a name without an entry is not found. -/
theorem OpenDataFile_first_match_witness :
    (OpenDataFile (exampleEnv exampleFiles) exampleMd5w stateA FileInfo.initial
      "DATA/b.BIN".toList).1 = true ∧
    (OpenDataFile (exampleEnv exampleFiles) exampleMd5w stateA FileInfo.initial
      "DATA/b.BIN".toList).2.fileSize = 4 ∧
    (OpenDataFile (exampleEnv exampleFiles) exampleMd5w stateA FileInfo.initial
      "DATA/b.BIN".toList).2.fileOffset = 72 ∧
    (OpenDataFile (exampleEnv exampleFiles) exampleMd5w stateA FileInfo.initial
      "DATA/b.BIN".toList).2.encrypted = true ∧
    (OpenDataFile (exampleEnv exampleFiles) exampleMd5w stateA FileInfo.initial
      "DATA/b.BIN".toList).2.readPos = 0 ∧
    (OpenDataFile (exampleEnv exampleFiles) exampleMd5w stateA FileInfo.initial
      "Data/None.bin".toList).1 = false := by
  have h := (OpenDataFile_first_match (exampleEnv exampleFiles) exampleMd5w stateA
    FileInfo.initial "DATA/b.BIN".toList (by decide)).2.1 1 (by decide) (by decide) (by decide)
  refine ⟨h.1, h.2.1.trans (by decide), h.2.2.1.trans (by decide), h.2.2.2.1.trans (by decide),
    h.2.2.2.2.1, ?_⟩
  exact congrArg Prod.fst
    ((OpenDataFile_first_match (exampleEnv exampleFiles) exampleMd5w stateA FileInfo.initial
      "Data/None.bin".toList (by decide)).2.2.1 (by decide))

/-! ## Rescanning and excluding overlay files -/

theorem ScanModFolder.targetFileStr_eq (target : CStr) :
    (if target.map tolower = [] then replaceBackslash (target.map tolower)
      else target.map tolower) = target.map tolower := by
  by_cases h : target.map tolower = []
  · rw [if_pos h, h]
    rfl
  · rw [if_neg h]

theorem set_map_fileMap (l : List ModInfo) (m : Nat) (mod mod1 : ModInfo)
    (h : l[m]? = some mod) (hf : mod1.fileMap = mod.fileMap) :
    (l.set m mod1).map (fun x => x.fileMap) = l.map (fun x => x.fileMap) := by
  apply List.ext_getElem?
  intro i
  rw [List.getElem?_map, List.getElem?_map, List.getElem?_set]
  by_cases hi : m = i
  · subst hi
    have hlen : m < l.length := by
      rcases Nat.lt_or_ge m l.length with hlt | hge
      · exact hlt
      · rw [List.getElem?_eq_none hge] at h
        cases h
    simp [hlen, h, hf]
  · simp [hi]

theorem ExcludeFile.fileMap_eq (modList : List ModInfo) (currentMod : Option Nat)
    (id : Option CStr) (path : CStr) :
    (ExcludeFile modList currentMod id path).2.map (fun x => x.fileMap) =
      modList.map (fun x => x.fileMap) := by
  unfold ExcludeFile
  cases id with
  | none => rfl
  | some id0 =>
    simp only
    split
    · rfl
    · split
      · rfl
      · rename_i mod hmod
        split
        · exact set_map_fileMap _ _ mod _ hmod rfl
        · rfl

/-- C18 (the code departs from it): ExcludeFile leaves every `fileMap` as it
is, but the entry it stores is the lowercased path with its backslashes kept,
while FindModFile looks up the lowercased path with forward slashes. For the
mod `B` holding `data/x.png`, `ExcludeFile("B", "Data\\x.png")` stores
`data\\x.png` and `FindModFile("Data\\x.png")` still returns the file of `B`;
the same call with `Data/x.png` masks it. -/
theorem ExcludeFile_keeps_backslashes :
    (∀ (modList : List ModInfo) (currentMod : Option Nat) (id : Option CStr) (path : CStr),
      (ExcludeFile modList currentMod id path).2.map (fun x => x.fileMap) =
        modList.map (fun x => x.fileMap)) ∧
    (ExcludeFile [overlayMod] none (some "B".toList) "Data\\x.png".toList).1 = true ∧
    (ExcludeFile [overlayMod] none (some "B".toList) "Data\\x.png".toList).2.map
      (fun x => x.excludedFiles) = [["data\\x.png".toList]] ∧
    FindModFile.pathLower "Data\\x.png".toList = "data/x.png".toList ∧
    FindModFile [overlayMod] "Data\\x.png".toList = some "mods/B/Data/X.png".toList ∧
    FindModFile (ExcludeFile [overlayMod] none (some "B".toList) "Data\\x.png".toList).2
      "Data\\x.png".toList = some "mods/B/Data/X.png".toList ∧
    FindModFile (ExcludeFile [overlayMod] none (some "B".toList) "Data/x.png".toList).2
      "Data\\x.png".toList = none :=
  ⟨ExcludeFile.fileMap_eq, by decide, by decide, by decide, by decide, by decide, by decide⟩

/-- C19 (the code departs from it): after `ExcludeAllFiles("B")` has moved the
key `data/x.png` to `excludedFiles` and cleared the `fileMap`,
`ReloadFile("B", "Data/x.png")` erases the exclusion and returns without
scanning: the `fileMap` stays empty and FindModFile does not resolve the path,
although the file is in the mod folder. A second call of ReloadFile scans the
file, and ReloadAllFiles restores it in one call; after ExcludeFile, where the
`fileMap` keeps its entry, one call of ReloadFile restores the path. -/
theorem ReloadFile_after_ExcludeAllFiles :
    FindModFile [overlayMod] "Data/x.png".toList = some "mods/B/Data/X.png".toList ∧
    (ExcludeAllFiles [overlayMod] none (some "B".toList)).2 =
      [{ overlayMod with fileMap := [], excludedFiles := ["data/x.png".toList] }] ∧
    ReloadFile overlayFs (ExcludeAllFiles [overlayMod] none (some "B".toList)).2 none
      (some "B".toList) "Data/x.png".toList =
      (true, [{ overlayMod with fileMap := [], excludedFiles := [] }]) ∧
    FindModFile
      (ReloadFile overlayFs (ExcludeAllFiles [overlayMod] none (some "B".toList)).2 none
        (some "B".toList) "Data/x.png".toList).2 "Data/x.png".toList = none ∧
    overlayFs.pathExists "mods/B/Data/X.png".toList = true ∧
    FindModFile
      (ReloadFile overlayFs
        (ReloadFile overlayFs (ExcludeAllFiles [overlayMod] none (some "B".toList)).2 none
          (some "B".toList) "Data/x.png".toList).2
        none (some "B".toList) "Data/x.png".toList).2 "Data/x.png".toList =
      some "mods/B/data/x.png".toList ∧
    FindModFile
      (ReloadAllFiles overlayFs (ExcludeAllFiles [overlayMod] none (some "B".toList)).2 none
        (some "B".toList)).2 "Data/x.png".toList = some "mods/B/Data/X.png".toList ∧
    FindModFile
      (ReloadFile overlayFs
        (ExcludeFile [overlayMod] none (some "B".toList) "Data/x.png".toList).2
        none (some "B".toList) "Data/x.png".toList).2 "Data/x.png".toList =
      some "mods/B/Data/X.png".toList := by
  decide

theorem map_insert_absent (fileMap : List (CStr × CStr)) (key value : CStr)
    (h : fileMap.lookup key = none) : (map_insert fileMap key value).lookup key = some value := by
  unfold map_insert
  rw [h]
  simp only
  rw [List.lookup_append, h]
  simp

theorem map_insert_present (fileMap : List (CStr × CStr)) (key value old : CStr)
    (h : fileMap.lookup key = some old) : map_insert fileMap key value = fileMap := by
  unfold map_insert
  rw [h]

theorem map_insert_other (fileMap : List (CStr × CStr)) (key value k : CStr) (hk : k ≠ key) :
    (map_insert fileMap key value).lookup k = fileMap.lookup k := by
  unfold map_insert
  cases h : fileMap.lookup key with
  | some old => rfl
  | none =>
    simp only
    rw [List.lookup_append]
    have : (k == key) = false := by simpa using hk
    simp [List.lookup_cons, this]

theorem replaceBackslash_of_none (s : CStr) (h : '\\' ∉ s) : replaceBackslash s = s := by
  induction s with
  | nil => rfl
  | cons c cs ih =>
    have hc : c ≠ '\\' := fun e => h (e ▸ List.mem_cons_self _ _)
    have hcs : '\\' ∉ cs := fun e => h (List.mem_cons_of_mem _ e)
    have ih2 := ih hcs
    unfold replaceBackslash at ih2 ⊢
    rw [List.map_cons, ih2, if_neg hc]

theorem ReloadFile.eq_scan (fs : FileSystem) (modList : List ModInfo) (currentMod : Option Nat)
    (id path : CStr) (m : Nat) (mod : ModInfo)
    (hid : id ≠ []) (hfind : findActiveMod modList id = m) (hm : modList[m]? = some mod)
    (hnotex : path.map tolower ∉ mod.excludedFiles)
    (hexists : fs.pathExists (mod.path ++ "/".toList ++ path.map tolower) = true) :
    ReloadFile fs modList currentMod (some id) path =
      (true,
        modList.set m
          { mod with
            fileMap := map_insert mod.fileMap (path.map tolower)
              (mod.path ++ "/".toList ++ path.map tolower) }) := by
  have hlen : m ≠ modList.length := by
    intro h
    rw [h, List.getElem?_eq_none (Nat.le_refl _)] at hm
    cases hm
  unfold ReloadFile
  cases id with
  | nil => exact absurd rfl hid
  | cons c cs =>
    simp only [hfind, hlen, if_false, hm, hnotex]
    unfold ScanModFolder
    simp only [ScanModFolder.targetFileStr_eq, hexists, if_true]

/-- C20 (amended): for every mod found by a non-empty id and every path `p`
shorter than 256 characters and without backslashes, so that its lowercased
form is the key FindModFile looks up, when `p` is not excluded and the probe
of mod folder + "/" + lowercase(p) succeeds: ReloadFile returns true and only
the `fileMap` of that mod can change; if the key was absent the `fileMap` now
maps it to mod folder + "/" + lowercase(p); if the key was present the
`fileMap` is unchanged, the old value being kept; every other key maps to
what it mapped to before. -/
theorem ReloadFile_inserts_if_absent (fs : FileSystem) (modList : List ModInfo)
    (currentMod : Option Nat) (id path : CStr) (m : Nat) (mod : ModInfo)
    (hid : id ≠ []) (hfind : findActiveMod modList id = m) (hm : modList[m]? = some mod)
    (hlen : path.length < 256) (hslash : '\\' ∉ path)
    (hnotex : path.map tolower ∉ mod.excludedFiles)
    (hexists : fs.pathExists (mod.path ++ "/".toList ++ path.map tolower) = true) :
    FindModFile.pathLower path = path.map tolower ∧
    (ReloadFile fs modList currentMod (some id) path).1 = true ∧
    (ReloadFile fs modList currentMod (some id) path).2 =
      modList.set m
        { mod with
          fileMap := map_insert mod.fileMap (path.map tolower)
            (mod.path ++ "/".toList ++ path.map tolower) } ∧
    (mod.fileMap.lookup (path.map tolower) = none →
      (map_insert mod.fileMap (path.map tolower)
        (mod.path ++ "/".toList ++ path.map tolower)).lookup (path.map tolower) =
        some (mod.path ++ "/".toList ++ path.map tolower)) ∧
    (∀ old, mod.fileMap.lookup (path.map tolower) = some old →
      map_insert mod.fileMap (path.map tolower) (mod.path ++ "/".toList ++ path.map tolower) =
        mod.fileMap) ∧
    (∀ k, k ≠ path.map tolower →
      (map_insert mod.fileMap (path.map tolower)
        (mod.path ++ "/".toList ++ path.map tolower)).lookup k = mod.fileMap.lookup k) := by
  refine ⟨?_, ?_, ?_, map_insert_absent _ _ _, fun old h => map_insert_present _ _ _ old h,
    fun k hk => map_insert_other _ _ _ k hk⟩
  · rw [FindModFile.pathLower_of_short path hlen]
    rw [replaceBackslash_of_none path hslash]
    rfl
  · rw [ReloadFile.eq_scan fs modList currentMod id path m mod hid hfind hm hnotex hexists]
  · rw [ReloadFile.eq_scan fs modList currentMod id path m mod hid hfind hm hnotex hexists]

/-- C20 (amended) on a mod whose `fileMap` is empty. -/
theorem ReloadFile_inserts_if_absent_witness :
    (ReloadFile overlayFs [{ overlayMod with fileMap := [] }] none (some "B".toList)
      "Data/x.png".toList).1 = true ∧
    (ReloadFile overlayFs [{ overlayMod with fileMap := [] }] none (some "B".toList)
      "Data/x.png".toList).2 =
      [{ overlayMod with fileMap := [("data/x.png".toList, "mods/B/data/x.png".toList)] }] := by
  have h := ReloadFile_inserts_if_absent overlayFs [{ overlayMod with fileMap := [] }] none
    "B".toList "Data/x.png".toList 0 { overlayMod with fileMap := [] } (by decide) (by decide)
    (by decide) (by decide) (by decide) (by decide) (by decide)
  exact ⟨h.2.1, h.2.2.1.trans (by decide)⟩

/-- C20 as stated fails: the key `data/x.png` is present with the value
`mods/B/Data/X.png`, the path is not excluded and the probe of
`mods/B/data/x.png` succeeds; after ReloadFile the key still maps to the old
value. -/
theorem ReloadFile_no_update_counterexample :
    overlayMod.fileMap.lookup "data/x.png".toList = some "mods/B/Data/X.png".toList ∧
    "data/x.png".toList ∉ overlayMod.excludedFiles ∧
    overlayFs.pathExists ("mods/B".toList ++ "/".toList ++ "data/x.png".toList) = true ∧
    (ReloadFile overlayFs [overlayMod] none (some "B".toList) "Data/x.png".toList).1 = true ∧
    (ReloadFile overlayFs [overlayMod] none (some "B".toList) "Data/x.png".toList).2.map
      (fun x => x.fileMap.lookup "data/x.png".toList) = [some "mods/B/Data/X.png".toList] := by
  decide

/-! ## The mod search shared by the file functions -/

theorem findActiveMod_nil (id : CStr) : findActiveMod [] id = 0 := rfl

theorem findActiveMod_cons (a : ModInfo) (l : List ModInfo) (id : CStr) :
    findActiveMod (a :: l) id =
      if (a.active && decide (a.id = id)) = true then 0 else findActiveMod l id + 1 := by
  unfold findActiveMod
  rw [List.findIdx?_cons]
  by_cases h : (a.active && decide (a.id = id)) = true
  · simp only [h, if_true]
  · simp only [h, if_false]
    rw [List.findIdx?_succ]
    cases List.findIdx? (fun m => m.active && decide (m.id = id)) l 0 with
    | none => simp
    | some k => simp

theorem findActiveMod_le (l : List ModInfo) (id : CStr) : findActiveMod l id ≤ l.length := by
  induction l with
  | nil => simp [findActiveMod_nil]
  | cons a l ih =>
    rw [findActiveMod_cons]
    split
    · exact Nat.zero_le _
    · simpa using ih

theorem findActiveMod_eq_length (l : List ModInfo) (id : CStr) :
    findActiveMod l id = l.length ↔ ∀ mod ∈ l, ¬ (mod.active = true ∧ mod.id = id) := by
  induction l with
  | nil => simp [findActiveMod_nil]
  | cons a l ih =>
    rw [findActiveMod_cons]
    by_cases h : (a.active && decide (a.id = id)) = true
    · rw [if_pos h]
      simp only [List.length_cons]
      constructor
      · intro h0
        exact absurd h0 (by omega)
      · intro hall
        have := hall a (List.mem_cons_self _ _)
        simp only [Bool.and_eq_true, decide_eq_true_eq] at h
        exact absurd h this
    · rw [if_neg h]
      simp only [List.length_cons, Nat.add_right_cancel_iff, ih]
      simp only [Bool.and_eq_true, decide_eq_true_eq] at h
      constructor
      · intro hall mod hmod
        rcases List.mem_cons.mp hmod with rfl | hin
        · exact h
        · exact hall mod hin
      · intro hall mod hmod
        exact hall mod (List.mem_cons_of_mem _ hmod)

theorem findActiveMod_found (l : List ModInfo) (id : CStr) (mod : ModInfo)
    (h : l[findActiveMod l id]? = some mod) : mod.active = true ∧ mod.id = id := by
  induction l with
  | nil => simp at h
  | cons a l ih =>
    rw [findActiveMod_cons] at h
    by_cases hp : (a.active && decide (a.id = id)) = true
    · rw [if_pos hp] at h
      simp only [List.getElem?_cons_zero, Option.some.injEq] at h
      subst h
      simpa using hp
    · rw [if_neg hp] at h
      simp only [List.getElem?_cons_succ] at h
      exact ih h

theorem findActiveMod_first (l : List ModInfo) (id : CStr) (j : Nat) (mod : ModInfo)
    (hj : j < findActiveMod l id) (h : l[j]? = some mod) :
    ¬ (mod.active = true ∧ mod.id = id) := by
  induction l generalizing j with
  | nil => simp at h
  | cons a l ih =>
    rw [findActiveMod_cons] at hj
    by_cases hp : (a.active && decide (a.id = id)) = true
    · rw [if_pos hp] at hj
      exact absurd hj (Nat.not_lt_zero _)
    · rw [if_neg hp] at hj
      cases j with
      | zero =>
        simp only [List.getElem?_cons_zero, Option.some.injEq] at h
        subst h
        simpa using hp
      | succ k =>
        simp only [List.getElem?_cons_succ] at h
        exact ih k (by omega) h

theorem findActiveMod_congr (l1 l2 : List ModInfo) (id : CStr)
    (h : l1.map (fun m => (m.active, m.id)) = l2.map (fun m => (m.active, m.id))) :
    findActiveMod l1 id = findActiveMod l2 id := by
  induction l1 generalizing l2 with
  | nil =>
    cases l2 with
    | nil => rfl
    | cons b l2 => simp at h
  | cons a l1 ih =>
    cases l2 with
    | nil => simp at h
    | cons b l2 =>
      simp only [List.map_cons, List.cons.injEq, Prod.mk.injEq] at h
      rw [findActiveMod_cons, findActiveMod_cons, h.1.1, h.1.2, ih l2 h.2]

theorem map_set_same {β : Type} (f : ModInfo → β) (l : List ModInfo) (m : Nat)
    (mod mod1 : ModInfo) (h : l[m]? = some mod) (hf : f mod1 = f mod) :
    (l.set m mod1).map f = l.map f := by
  apply List.ext_getElem?
  intro i
  rw [List.getElem?_map, List.getElem?_map, List.getElem?_set]
  by_cases hi : m = i
  · subst hi
    have hlen : m < l.length := by
      rcases Nat.lt_or_ge m l.length with hlt | hge
      · exact hlt
      · rw [List.getElem?_eq_none hge] at h
        cases h
    simp [hlen, h, hf]
  · simp [hi]

theorem effectiveId_congr (l1 l2 : List ModInfo) (currentMod : Option Nat) (id : CStr)
    (h : l1.map (fun m => m.id) = l2.map (fun m => m.id)) :
    effectiveId l1 currentMod id = effectiveId l2 currentMod id := by
  unfold effectiveId
  cases id with
  | cons c cs => rfl
  | nil =>
    cases currentMod with
    | none => rfl
    | some cur =>
      have := congrArg (fun l => l[cur]?) h
      simp only [List.getElem?_map] at this
      simp only [this]

theorem effectiveId_of_ne_nil (l : List ModInfo) (currentMod : Option Nat) (id : CStr)
    (h : id ≠ []) : effectiveId l currentMod id = id := by
  cases id with
  | nil => exact absurd rfl h
  | cons c cs => rfl

theorem getElem?_lt_length {α : Type} (l : List α) (m : Nat) (a : α) (h : l[m]? = some a) :
    m < l.length := by
  rcases Nat.lt_or_ge m l.length with hlt | hge
  · exact hlt
  · rw [List.getElem?_eq_none hge] at h
    cases h

theorem guard_eq (l : List ModInfo) (m : Nat) (f : ModInfo → Bool × List ModInfo) :
    (if m = l.length then (false, l)
      else
        match l[m]? with
        | none => (false, l)
        | some mod => f mod) =
      match l[m]? with
      | none => (false, l)
      | some mod => f mod := by
  by_cases hm : m = l.length
  · rw [if_pos hm, hm, List.getElem?_eq_none (Nat.le_refl _)]
  · rw [if_neg hm]

theorem ExcludeFile_eq (modList : List ModInfo) (currentMod : Option Nat) (id0 path : CStr) :
    ExcludeFile modList currentMod (some id0) path =
      match modList[findActiveMod modList (effectiveId modList currentMod id0)]? with
      | none => (false, modList)
      | some mod =>
        if path.map tolower ∉ mod.excludedFiles then
          (true, modList.set (findActiveMod modList (effectiveId modList currentMod id0))
            { mod with excludedFiles := mod.excludedFiles ++ [path.map tolower] })
        else (false, modList) := by
  cases id0 <;> cases currentMod <;> exact guard_eq _ _ _

theorem ExcludeAllFiles_eq (modList : List ModInfo) (currentMod : Option Nat)
    (id0 : CStr) :
    ExcludeAllFiles modList currentMod (some id0) =
      match modList[findActiveMod modList (effectiveId modList currentMod id0)]? with
      | none => (false, modList)
      | some mod =>
        (true,
          modList.set (findActiveMod modList (effectiveId modList currentMod id0))
            { mod with
              excludedFiles := mod.excludedFiles ++ mapKeys mod.fileMap,
              fileMap := [] }) := by
  cases id0 <;> cases currentMod <;> exact guard_eq _ _ _

theorem ReloadFile_eq (fs : FileSystem) (modList : List ModInfo) (currentMod : Option Nat)
    (id0 path : CStr) :
    ReloadFile fs modList currentMod (some id0) path =
      match modList[findActiveMod modList (effectiveId modList currentMod id0)]? with
      | none => (false, modList)
      | some mod =>
        if path.map tolower ∈ mod.excludedFiles then
          (true,
            modList.set (findActiveMod modList (effectiveId modList currentMod id0))
              { mod with
                excludedFiles := mod.excludedFiles.filter (fun e => e ≠ path.map tolower) })
        else
          (true, modList.set (findActiveMod modList (effectiveId modList currentMod id0))
            (ScanModFolder fs mod (some path)).2) := by
  cases id0 <;> cases currentMod <;> exact guard_eq _ _ _

theorem ReloadAllFiles_eq (fs : FileSystem) (modList : List ModInfo)
    (currentMod : Option Nat) (id0 : CStr) :
    ReloadAllFiles fs modList currentMod (some id0) =
      match modList[findActiveMod modList (effectiveId modList currentMod id0)]? with
      | none => (false, modList)
      | some mod =>
        (true, modList.set (findActiveMod modList (effectiveId modList currentMod id0))
          (ScanModFolder fs { mod with excludedFiles := [] } none).2) := by
  cases id0 <;> cases currentMod <;> exact guard_eq _ _ _

/-! ## ExcludeFile, ExcludeAllFiles and the failure exits -/

theorem ExcludeFile.second_call (modList : List ModInfo) (currentMod : Option Nat)
    (id0 path : CStr) (mod : ModInfo)
    (hm : modList[findActiveMod modList (effectiveId modList currentMod id0)]? = some mod) :
    ExcludeFile
        (modList.set (findActiveMod modList (effectiveId modList currentMod id0))
          { mod with excludedFiles := mod.excludedFiles ++ [path.map tolower] })
        currentMod (some id0) path =
      (false,
        modList.set (findActiveMod modList (effectiveId modList currentMod id0))
          { mod with excludedFiles := mod.excludedFiles ++ [path.map tolower] }) := by
  have hlt := getElem?_lt_length _ _ _ hm
  have hid := effectiveId_congr
    (modList.set (findActiveMod modList (effectiveId modList currentMod id0))
      { mod with excludedFiles := mod.excludedFiles ++ [path.map tolower] })
    modList currentMod id0 (map_set_same (fun m => m.id) _ _ mod _ hm rfl)
  have hfind := findActiveMod_congr
    (modList.set (findActiveMod modList (effectiveId modList currentMod id0))
      { mod with excludedFiles := mod.excludedFiles ++ [path.map tolower] })
    modList (effectiveId modList currentMod id0)
    (map_set_same (fun m => (m.active, m.id)) _ _ mod _ hm rfl)
  rw [ExcludeFile_eq, hid, hfind, List.getElem?_set_self hlt]
  simp

/-- C21: ExcludeFile is idempotent. For every mod list, current mod, id and
path, a second ExcludeFile with the same arguments right after the first
returns false and leaves the mod list, hence every `excludedFiles`, exactly as
the first call left it; when the first call returns true it has appended the
lowercased path to the `excludedFiles` of one active mod that did not hold it,
where it then occurs once; and the first call does return true when the mod
found for the id does not hold the lowercased path. -/
theorem ExcludeFile_idempotent (modList : List ModInfo) (currentMod : Option Nat)
    (id : Option CStr) (path : CStr) :
    ExcludeFile (ExcludeFile modList currentMod id path).2 currentMod id path =
      (false, (ExcludeFile modList currentMod id path).2) ∧
    ((ExcludeFile modList currentMod id path).1 = true →
      ∃ (m : Nat) (mod : ModInfo), modList[m]? = some mod ∧ mod.active = true ∧
        path.map tolower ∉ mod.excludedFiles ∧
        (ExcludeFile modList currentMod id path).2 =
          modList.set m { mod with excludedFiles := mod.excludedFiles ++ [path.map tolower] } ∧
        (mod.excludedFiles ++ [path.map tolower]).count (path.map tolower) = 1) ∧
    (∀ (id0 : CStr) (mod : ModInfo), id = some id0 →
      modList[findActiveMod modList (effectiveId modList currentMod id0)]? = some mod →
      path.map tolower ∉ mod.excludedFiles →
      (ExcludeFile modList currentMod id path).1 = true) := by
  cases id with
  | none =>
    refine ⟨rfl, ?_, ?_⟩
    · intro h
      cases h
    · intro id0 mod h
      cases h
  | some id0 =>
    cases hm : modList[findActiveMod modList (effectiveId modList currentMod id0)]? with
    | none =>
      have h1 : ExcludeFile modList currentMod (some id0) path = (false, modList) := by
        rw [ExcludeFile_eq, hm]
      rw [h1]
      refine ⟨h1, ?_, ?_⟩
      · intro h
        cases h
      · intro id1 mod hid hmod
        cases hid
        rw [hm] at hmod
        cases hmod
    | some mod =>
      by_cases hin : path.map tolower ∈ mod.excludedFiles
      · have h1 : ExcludeFile modList currentMod (some id0) path = (false, modList) := by
          rw [ExcludeFile_eq, hm]
          simp [hin]
        rw [h1]
        refine ⟨h1, ?_, ?_⟩
        · intro h
          cases h
        · intro id1 mod1 hid hmod hnot
          cases hid
          rw [hm] at hmod
          cases hmod
          exact absurd hin hnot
      · have h1 : ExcludeFile modList currentMod (some id0) path =
            (true,
              modList.set (findActiveMod modList (effectiveId modList currentMod id0))
                { mod with excludedFiles := mod.excludedFiles ++ [path.map tolower] }) := by
          rw [ExcludeFile_eq, hm]
          simp [hin]
        rw [h1]
        refine ⟨ExcludeFile.second_call modList currentMod id0 path mod hm, ?_, ?_⟩
        · intro _
          refine ⟨_, mod, hm, (findActiveMod_found _ _ _ hm).1, hin, rfl, ?_⟩
          rw [List.count_append, List.count_eq_zero.mpr hin]
          simp
        · intro _ _ _ _ _
          rfl

/-- C21 on the mod `B`: the first ExcludeFile returns true, the second false,
and the list of exclusions holds the lowercased path once. -/
theorem ExcludeFile_idempotent_witness :
    (ExcludeFile [overlayMod] none (some "B".toList) "Data/X.png".toList).1 = true ∧
    (ExcludeFile (ExcludeFile [overlayMod] none (some "B".toList) "Data/X.png".toList).2 none
      (some "B".toList) "Data/X.png".toList).1 = false ∧
    (ExcludeFile (ExcludeFile [overlayMod] none (some "B".toList) "Data/X.png".toList).2 none
      (some "B".toList) "Data/X.png".toList).2 =
      [{ overlayMod with excludedFiles := ["data/x.png".toList] }] := by
  have h := ExcludeFile_idempotent [overlayMod] none (some "B".toList) "Data/X.png".toList
  refine ⟨h.2.2 "B".toList overlayMod rfl (by decide) (by decide), ?_, ?_⟩
  · exact congrArg Prod.fst h.1
  · exact (congrArg Prod.snd h.1).trans (by decide)

theorem lookup_isSome_iff (fileMap : List (CStr × CStr)) (key : CStr) :
    (fileMap.lookup key).isSome = true ↔ key ∈ fileMap.map (fun file => file.1) := by
  induction fileMap with
  | nil => simp
  | cons a rest ih =>
    obtain ⟨k, v⟩ := a
    rw [List.lookup_cons]
    by_cases hk : key = k
    · subst hk
      simp
    · have hb : (key == k) = false := by simpa using hk
      simp only [hb, List.map_cons, List.mem_cons, hk, false_or]
      exact ih

/-! ### The keys of a map in iteration order -/

theorem stringLess_eq_of_not (a b : CStr) (h1 : stringLess a b = false)
    (h2 : stringLess b a = false) : a = b := by
  induction a generalizing b with
  | nil =>
    cases b with
    | nil => rfl
    | cons y ys => simp [stringLess] at h1
  | cons x xs ih =>
    cases b with
    | nil => simp [stringLess] at h2
    | cons y ys =>
      unfold stringLess at h1 h2
      by_cases hxy : x.toNat < y.toNat
      · simp [hxy] at h1
      · by_cases hyx : y.toNat < x.toNat
        · simp [hyx] at h2
        · simp only [hxy, hyx, if_false] at h1 h2
          have hn : x.toNat = y.toNat := by omega
          have hx : x = y := by
            rw [← Char.ofNat_toNat x, ← Char.ofNat_toNat y, hn]
          rw [hx, ih ys h1 h2]

theorem mapKeys.mem_insert (key p : CStr) (l : List CStr) :
    p ∈ mapKeys.insert key l ↔ p = key ∨ p ∈ l := by
  induction l with
  | nil => simp [mapKeys.insert]
  | cons k rest ih =>
    unfold mapKeys.insert
    by_cases h1 : stringLess key k = true
    · simp [h1]
    · by_cases h2 : stringLess k key = true
      · simp only [h1, h2, if_true, if_false, List.mem_cons, ih, Bool.false_eq_true]
        constructor
        · rintro (h | h | h)
          · exact Or.inr (Or.inl h)
          · exact Or.inl h
          · exact Or.inr (Or.inr h)
        · rintro (h | h | h)
          · exact Or.inr (Or.inl h)
          · exact Or.inl h
          · exact Or.inr (Or.inr h)
      · have e : key = k := stringLess_eq_of_not key k (by simpa using h1) (by simpa using h2)
        simp only [h1, h2, if_false, List.mem_cons, Bool.false_eq_true]
        constructor
        · intro h
          exact Or.inr h
        · rintro (h | h)
          · exact Or.inl (h.trans e)
          · exact h

theorem mem_mapKeys (fileMap : List (CStr × CStr)) (p : CStr) :
    p ∈ mapKeys fileMap ↔ p ∈ fileMap.map (fun file => file.1) := by
  unfold mapKeys
  induction fileMap with
  | nil => simp
  | cons a rest ih =>
    rw [List.map_cons, List.foldr_cons, mapKeys.mem_insert, ih, List.mem_cons]

theorem mapKeys_example :
    mapKeys [("data/x.png".toList, []), ("data/a.png".toList, []), ("data/x.png".toList, []),
      ("Data".toList, [])] = ["Data".toList, "data/a.png".toList, "data/x.png".toList] := by
  decide

/-- C22: for the active mod found for the id, ExcludeAllFiles returns true and
changes that mod alone: its `fileMap` is empty afterwards, and its
`excludedFiles` holds exactly the paths excluded before together with the keys
the `fileMap` had (the old list followed by the keys in the order of the map),
every other field and every other mod being as before. -/
theorem ExcludeAllFiles_moves_keys (modList : List ModInfo) (currentMod : Option Nat)
    (id0 : CStr) (m : Nat) (mod : ModInfo)
    (hfind : findActiveMod modList (effectiveId modList currentMod id0) = m)
    (hm : modList[m]? = some mod) :
    mod.active = true ∧ mod.id = effectiveId modList currentMod id0 ∧
    (ExcludeAllFiles modList currentMod (some id0)).1 = true ∧
    (ExcludeAllFiles modList currentMod (some id0)).2 =
      modList.set m
        { mod with
          excludedFiles := mod.excludedFiles ++ mapKeys mod.fileMap,
          fileMap := [] } ∧
    (∀ (mod1 : ModInfo), (ExcludeAllFiles modList currentMod (some id0)).2[m]? = some mod1 →
      mod1.fileMap = [] ∧
      (∀ p, p ∈ mod1.excludedFiles ↔
        p ∈ mod.excludedFiles ∨ (mod.fileMap.lookup p).isSome = true)) ∧
    (∃ mod1, (ExcludeAllFiles modList currentMod (some id0)).2[m]? = some mod1) ∧
    (∀ j, j ≠ m → (ExcludeAllFiles modList currentMod (some id0)).2[j]? = modList[j]?) ∧
    (ExcludeAllFiles modList currentMod (some id0)).2.length = modList.length := by
  subst hfind
  have hlt := getElem?_lt_length _ _ _ hm
  have hact := findActiveMod_found _ _ _ hm
  rw [ExcludeAllFiles_eq, hm]
  refine ⟨hact.1, hact.2, rfl, rfl, ?_, ?_, ?_, ?_⟩
  · intro mod1 h1
    simp only [List.getElem?_set_self hlt, Option.some.injEq] at h1
    subst h1
    refine ⟨rfl, ?_⟩
    intro p
    simp only [List.mem_append, lookup_isSome_iff, mem_mapKeys]
  · exact ⟨_, List.getElem?_set_self hlt⟩
  · intro j hj
    simp only [List.getElem?_set, Ne.symm hj, if_false]
  · simp only [List.length_set]

/-- C22 on the mod `B`, whose `fileMap` holds `data/x.png`. -/
theorem ExcludeAllFiles_moves_keys_witness :
    ExcludeAllFiles [overlayMod] none (some "B".toList) =
      (true, [{ overlayMod with fileMap := [], excludedFiles := ["data/x.png".toList] }]) := by
  have h := ExcludeAllFiles_moves_keys [overlayMod] none "B".toList 0 overlayMod (by decide)
    (by decide)
  exact Prod.ext h.2.2.1 (h.2.2.2.1.trans (by decide))

/-- C29 (amended): when the id is null, or no active mod has the id searched
for, which is the given id or, for an empty given id while a current mod is
set, the id of the current mod, each of ExcludeFile, ExcludeAllFiles,
ReloadFile and ReloadAllFiles returns false and leaves the mod list
unchanged; a non-empty given id is the id searched for. -/
theorem file_functions_without_mod (fs : FileSystem) (modList : List ModInfo)
    (currentMod : Option Nat) (id : Option CStr) (path : CStr)
    (h : id = none ∨ ∃ id0, id = some id0 ∧
      ∀ mod ∈ modList, ¬ (mod.active = true ∧ mod.id = effectiveId modList currentMod id0)) :
    ExcludeFile modList currentMod id path = (false, modList) ∧
    ExcludeAllFiles modList currentMod id = (false, modList) ∧
    ReloadFile fs modList currentMod id path = (false, modList) ∧
    ReloadAllFiles fs modList currentMod id = (false, modList) ∧
    (∀ id0, id = some id0 → id0 ≠ [] → effectiveId modList currentMod id0 = id0) := by
  rcases h with h | ⟨id0, hid, hnone⟩
  · subst h
    refine ⟨rfl, rfl, rfl, rfl, ?_⟩
    intro id0 hid
    cases hid
  · subst hid
    have hm := (findActiveMod_eq_length modList (effectiveId modList currentMod id0)).mpr hnone
    have hnone2 : modList[findActiveMod modList (effectiveId modList currentMod id0)]? = none := by
      rw [hm]
      exact List.getElem?_eq_none (Nat.le_refl _)
    refine ⟨?_, ?_, ?_, ?_, ?_⟩
    · rw [ExcludeFile_eq, hnone2]
    · rw [ExcludeAllFiles_eq, hnone2]
    · rw [ReloadFile_eq, hnone2]
    · rw [ReloadAllFiles_eq, hnone2]
    · intro id1 hid hne
      cases hid
      exact effectiveId_of_ne_nil _ _ _ hne

/-- C29 (amended) on the mod list holding `B` alone, for the id `C`. -/
theorem file_functions_without_mod_witness :
    ExcludeFile [overlayMod] (some 0) (some "C".toList) "Data/x.png".toList =
      (false, [overlayMod]) ∧
    ExcludeAllFiles [overlayMod] (some 0) (some "C".toList) = (false, [overlayMod]) ∧
    ReloadFile overlayFs [overlayMod] (some 0) (some "C".toList) "Data/x.png".toList =
      (false, [overlayMod]) ∧
    ReloadAllFiles overlayFs [overlayMod] (some 0) (some "C".toList) = (false, [overlayMod]) := by
  have h := file_functions_without_mod overlayFs [overlayMod] (some 0) (some "C".toList)
    "Data/x.png".toList (Or.inr ⟨"C".toList, rfl, by decide⟩)
  exact ⟨h.1, h.2.1, h.2.2.1, h.2.2.2.1⟩

/-- C29 as stated fails for the empty id: no mod has the id `""`, yet with `B`
the current mod the four functions search for `B`, return true, and
ExcludeFile and ExcludeAllFiles change its `excludedFiles`. -/
theorem empty_id_names_current_mod_counterexample :
    (∀ mod ∈ [overlayMod], ¬ (mod.active = true ∧ mod.id = [])) ∧
    ExcludeFile [overlayMod] (some 0) (some []) "Data/x.png".toList =
      (true, [{ overlayMod with excludedFiles := ["data/x.png".toList] }]) ∧
    ExcludeAllFiles [overlayMod] (some 0) (some []) =
      (true, [{ overlayMod with fileMap := [], excludedFiles := ["data/x.png".toList] }]) ∧
    (ReloadFile overlayFs [overlayMod] (some 0) (some []) "Data/x.png".toList).1 = true ∧
    (ReloadAllFiles overlayFs [overlayMod] (some 0) (some [])).1 = true := by
  decide

/-! ## SortMods: the version check -/

theorem SortMods.checkVersion_eq (ENGINE_VERSION : Nat) (mod : ModInfo) :
    SortMods.checkVersion ENGINE_VERSION mod =
      { mod with
        active := mod.active &&
          decide (SortMods.targetVersion mod = -1 ∨
            SortMods.targetVersion mod = (ENGINE_VERSION : Int)) } := by
  obtain ⟨id, active, fm, ex, path, fv, tv, fn, r, d, fsx⟩ := mod
  unfold SortMods.checkVersion SortMods.targetVersion
  simp only
  generalize (if fv ≠ 0 then fv else tv) = t
  cases active with
  | false => simp
  | true =>
    by_cases h1 : t = -1
    · simp [h1]
    · by_cases h2 : t = (ENGINE_VERSION : Int)
      · simp [h2]
      · simp [h1, h2]

theorem SortMods.checkVersion_active (ENGINE_VERSION : Nat) (mod : ModInfo)
    (h : (SortMods.checkVersion ENGINE_VERSION mod).active = true) :
    SortMods.checkVersion ENGINE_VERSION mod = mod := by
  rw [SortMods.checkVersion_eq] at h ⊢
  simp only [Bool.and_eq_true] at h
  obtain ⟨ha, hd⟩ := h
  rw [hd, Bool.and_true]

theorem SortMods.pairwise (ENGINE_VERSION : Nat) (modList : List ModInfo) :
    (SortMods ENGINE_VERSION modList).Pairwise (fun a b => b.active = true → a.active = true) := by
  unfold SortMods
  rw [stable_sort_comp, List.pairwise_append]
  refine ⟨?_, ?_, ?_⟩
  · exact List.Pairwise.imp_of_mem (fun {a b} ha _ _ _ => by simpa using (List.mem_filter.mp ha).2)
      (List.pairwise_of_forall (fun _ _ => trivial))
  · exact List.Pairwise.imp_of_mem (R := fun _ _ => True)
      (fun {a b} _ hb _ hact => by
        have := (List.mem_filter.mp hb).2
        simp [hact] at this)
      (List.pairwise_of_forall (fun _ _ => trivial))
  · intro a ha b _ _
    simpa using (List.mem_filter.mp ha).2

/-- C25: with a non-zero engine version `v`, SortMods gives a rearrangement of
the mods in which each mod's `active` is `active before && (target = -1 ||
target = v)`, `target` being `forceVersion` when non-zero and `targetVersion`
otherwise, and nothing else of a mod is changed; with `v = 0` it gives a
rearrangement of the unchanged mods. In both cases the mods active afterwards
are, in their old order, the mods that were active before and pass the version
test, unchanged: no inactive mod is activated. -/
theorem SortMods_activation (ENGINE_VERSION : Nat) (modList : List ModInfo) :
    (ENGINE_VERSION ≠ 0 →
      (SortMods ENGINE_VERSION modList).Perm
        (modList.map (fun mod =>
          { mod with
            active := mod.active &&
              decide (SortMods.targetVersion mod = -1 ∨
                SortMods.targetVersion mod = (ENGINE_VERSION : Int)) }))) ∧
    (ENGINE_VERSION = 0 → (SortMods ENGINE_VERSION modList).Perm modList) ∧
    (SortMods ENGINE_VERSION modList).filter (fun mod => mod.active) =
      modList.filter (fun mod => mod.active &&
        decide (ENGINE_VERSION = 0 ∨ SortMods.targetVersion mod = -1 ∨
          SortMods.targetVersion mod = (ENGINE_VERSION : Int))) ∧
    (∀ mod1 ∈ SortMods ENGINE_VERSION modList, mod1.active = true →
      mod1 ∈ modList) := by
  have hactive : (SortMods ENGINE_VERSION modList).filter (fun mod => mod.active) =
      modList.filter (fun mod => mod.active &&
        decide (ENGINE_VERSION = 0 ∨ SortMods.targetVersion mod = -1 ∨
          SortMods.targetVersion mod = (ENGINE_VERSION : Int))) := by
    unfold SortMods
    rw [stable_sort_comp, List.filter_append, List.filter_filter, List.filter_filter]
    by_cases hv : ENGINE_VERSION = 0
    · simp [hv]
    · simp only [ne_eq, hv, not_false_eq_true, if_true, false_or]
      have hnil : List.filter (fun a => a.active && !a.active)
          (List.map (SortMods.checkVersion ENGINE_VERSION) modList) = [] := by
        rw [List.filter_eq_nil_iff]
        intro a _
        cases a.active <;> simp
      have hp2 : (fun a : ModInfo => a.active && a.active) = fun a => a.active := by
        funext a
        cases a.active <;> rfl
      rw [hnil, List.append_nil, hp2, List.filter_map]
      have hp : ((fun a : ModInfo => a.active) ∘ SortMods.checkVersion ENGINE_VERSION) =
          fun mod => mod.active &&
            decide (SortMods.targetVersion mod = -1 ∨
              SortMods.targetVersion mod = (ENGINE_VERSION : Int)) := by
        funext mod
        simp only [Function.comp, SortMods.checkVersion_eq]
      rw [hp]
      conv_rhs => rw [← List.map_id (List.filter _ modList)]
      apply List.map_congr_left
      intro mod hmod
      have hact := (List.mem_filter.mp hmod).2
      have : (SortMods.checkVersion ENGINE_VERSION mod).active = true := by
        rw [SortMods.checkVersion_eq]
        exact hact
      exact SortMods.checkVersion_active ENGINE_VERSION mod this
  refine ⟨?_, ?_, hactive, ?_⟩
  · intro hv
    unfold SortMods
    rw [stable_sort_comp, if_pos hv]
    have hmap : modList.map (SortMods.checkVersion ENGINE_VERSION) =
        modList.map (fun mod =>
          { mod with
            active := mod.active &&
              decide (SortMods.targetVersion mod = -1 ∨
                SortMods.targetVersion mod = (ENGINE_VERSION : Int)) }) :=
      List.map_congr_left (fun mod _ => SortMods.checkVersion_eq ENGINE_VERSION mod)
    rw [← hmap]
    exact List.filter_append_perm _ _
  · intro hv
    unfold SortMods
    rw [stable_sort_comp]
    simp only [hv, ne_eq, not_true_eq_false, if_false]
    exact List.filter_append_perm _ _
  · intro mod1 hmem hact
    have h1 : mod1 ∈ (SortMods ENGINE_VERSION modList).filter (fun mod => mod.active) :=
      List.mem_filter.mpr ⟨hmem, hact⟩
    rw [hactive] at h1
    exact (List.mem_filter.mp h1).1

/-- C25 on engine version 5: of four active mods, the one that targets version
4 and the one forced to version 3 are deactivated and moved behind the other
two; the inactive mod stays inactive. -/
theorem SortMods_activation_witness :
    SortMods 5
      [versionMod "A".toList true 0 4, versionMod "B".toList true 0 5,
        versionMod "C".toList true 3 5, versionMod "D".toList true 0 (-1),
        versionMod "E".toList false 0 5] =
      [versionMod "B".toList true 0 5, versionMod "D".toList true 0 (-1),
        versionMod "A".toList false 0 4, versionMod "C".toList false 3 5,
        versionMod "E".toList false 0 5] ∧
    (SortMods 5
      [versionMod "A".toList true 0 4, versionMod "B".toList true 0 5,
        versionMod "C".toList true 3 5, versionMod "D".toList true 0 (-1),
        versionMod "E".toList false 0 5]).filter (fun mod => mod.active) =
      [versionMod "B".toList true 0 5, versionMod "D".toList true 0 (-1)] :=
  ⟨by decide,
    (SortMods_activation 5
      [versionMod "A".toList true 0 4, versionMod "B".toList true 0 5,
        versionMod "C".toList true 3 5, versionMod "D".toList true 0 (-1),
        versionMod "E".toList false 0 5]).2.2.1.trans (by decide)⟩

/-! ## LoadModSettings -/

theorem LoadModSettings.start_none (l : List ModInfo) (n : Nat) :
    LoadModSettings.start l n = none ↔
      ∀ j mod, j < n → l[j]? = some mod → mod.active = false := by
  induction n with
  | zero => simp [LoadModSettings.start]
  | succ n ih =>
    unfold LoadModSettings.start
    cases hn : l[n]? with
    | none =>
      simp only [ih]
      constructor
      · intro h j mod hj hmod
        rcases Nat.lt_succ_iff_lt_or_eq.mp hj with hlt | heq
        · exact h j mod hlt hmod
        · subst heq
          rw [hn] at hmod
          cases hmod
      · intro h j mod hj hmod
        exact h j mod (Nat.lt_succ_of_lt hj) hmod
    | some a =>
      dsimp only
      by_cases ha : a.active = true
      · rw [if_pos ha]
        constructor
        · intro h
          cases h
        · intro h
          have := h n a (Nat.lt_succ_self n) hn
          rw [ha] at this
          cases this
      · rw [if_neg ha, ih]
        have ha : a.active = false := by simpa using ha
        constructor
        · intro h j mod hj hmod
          rcases Nat.lt_succ_iff_lt_or_eq.mp hj with hlt | heq
          · exact h j mod hlt hmod
          · subst heq
            rw [hn] at hmod
            cases hmod
            exact ha
        · intro h j mod hj hmod
          exact h j mod (Nat.lt_succ_of_lt hj) hmod

theorem LoadModSettings.start_some (l : List ModInfo) (n s : Nat) :
    LoadModSettings.start l n = some s ↔
      s < n ∧ (∃ mod, l[s]? = some mod ∧ mod.active = true) ∧
        ∀ j mod, s < j → j < n → l[j]? = some mod → mod.active = false := by
  induction n with
  | zero => simp [LoadModSettings.start]
  | succ n ih =>
    unfold LoadModSettings.start
    cases hn : l[n]? with
    | none =>
      simp only [ih]
      constructor
      · rintro ⟨h1, h2, h3⟩
        refine ⟨Nat.lt_succ_of_lt h1, h2, ?_⟩
        intro j mod hsj hj hmod
        rcases Nat.lt_succ_iff_lt_or_eq.mp hj with hlt | heq
        · exact h3 j mod hsj hlt hmod
        · subst heq
          rw [hn] at hmod
          cases hmod
      · rintro ⟨h1, ⟨mod, hmod, hact⟩, h3⟩
        have hne : s ≠ n := by
          intro he
          subst he
          rw [hn] at hmod
          cases hmod
        exact ⟨by omega, ⟨mod, hmod, hact⟩,
          fun j m hsj hj hm => h3 j m hsj (Nat.lt_succ_of_lt hj) hm⟩
    | some a =>
      dsimp only
      by_cases ha : a.active = true
      · rw [if_pos ha]
        simp only [Option.some.injEq]
        constructor
        · intro h
          subst h
          exact ⟨Nat.lt_succ_self _, ⟨a, hn, ha⟩, fun j m hsj hj _ => absurd hj (by omega)⟩
        · rintro ⟨h1, _, h3⟩
          by_contra hne
          have hlt : s < n := by omega
          have := h3 n a hlt (Nat.lt_succ_self _) hn
          rw [ha] at this
          cases this
      · rw [if_neg ha, ih]
        have ha : a.active = false := by simpa using ha
        constructor
        · rintro ⟨h1, h2, h3⟩
          refine ⟨Nat.lt_succ_of_lt h1, h2, ?_⟩
          intro j mod hsj hj hmod
          rcases Nat.lt_succ_iff_lt_or_eq.mp hj with hlt | heq
          · exact h3 j mod hsj hlt hmod
          · subst heq
            rw [hn] at hmod
            cases hmod
            exact ha
        · rintro ⟨h1, ⟨mod, hmod, hact⟩, h3⟩
          have hne : s ≠ n := by
            intro he
            subst he
            rw [hn] at hmod
            cases hmod
            rw [ha] at hact
            cases hact
          exact ⟨by omega, ⟨mod, hmod, hact⟩,
            fun j m hsj hj hm => h3 j m hsj (Nat.lt_succ_of_lt hj) hm⟩

/-- The loop of LoadModSettings over the mods `L` visited from the last one to
the first, as a right fold. -/
theorem LoadModSettings.loop_eq (userFileDir : CStr) (init : CStr × ModSettings)
    (L : List ModInfo) :
    L.reverse.foldl (LoadModSettings.visit userFileDir) init =
      L.foldr (fun mod acc => LoadModSettings.visit userFileDir acc mod) init :=
  List.foldl_reverse L _ init

theorem LoadModSettings.loop_flags (userFileDir : CStr) (init : CStr × ModSettings)
    (L : List ModInfo) :
    (L.foldr (fun mod acc => LoadModSettings.visit userFileDir acc mod) init).2.redirectSaveRAM =
      (init.2.redirectSaveRAM || L.any (fun m => m.redirectSaveRAM)) ∧
    (L.foldr (fun mod acc => LoadModSettings.visit userFileDir acc mod) init).2.disableGameLogic =
      (init.2.disableGameLogic || L.any (fun m => m.disableGameLogic)) := by
  induction L with
  | nil => simp
  | cons a L ih =>
    have h1 : ∀ acc : CStr × ModSettings, (LoadModSettings.visit userFileDir acc a).2.redirectSaveRAM
        = (acc.2.redirectSaveRAM || a.redirectSaveRAM) := fun _ => rfl
    have h2 : ∀ acc : CStr × ModSettings,
        (LoadModSettings.visit userFileDir acc a).2.disableGameLogic
        = (acc.2.disableGameLogic || a.disableGameLogic) := fun _ => rfl
    rw [List.foldr_cons, h1, h2, ih.1, ih.2, List.any_cons, List.any_cons]
    constructor
    · cases init.2.redirectSaveRAM <;> cases a.redirectSaveRAM <;> simp
    · cases init.2.disableGameLogic <;> cases a.disableGameLogic <;> simp

theorem LoadModSettings.loop_dir (userFileDir : CStr) (init : CStr × ModSettings)
    (L : List ModInfo) (i : Nat) (mod : ModInfo) (hi : L[i]? = some mod)
    (hr : mod.redirectSaveRAM = true)
    (hfirst : ∀ k m, k < i → L[k]? = some m → m.redirectSaveRAM = false) :
    (L.foldr (fun mod acc => LoadModSettings.visit userFileDir acc mod) init).1 =
      userFileDir ++ "mods/".toList ++ mod.folderName ++ "/".toList := by
  induction L generalizing i with
  | nil => simp at hi
  | cons a L ih =>
    cases i with
    | zero =>
      simp only [List.getElem?_cons_zero, Option.some.injEq] at hi
      subst hi
      rw [List.foldr_cons]
      unfold LoadModSettings.visit
      simp only [hr, if_true]
      by_cases hu : userFileDir = []
      · simp [hu]
      · simp [hu]
    | succ k =>
      have ha : a.redirectSaveRAM = false := hfirst 0 a (Nat.succ_pos _) (by simp)
      simp only [List.getElem?_cons_succ] at hi
      have ih2 := ih k hi (fun j m hj hm => hfirst (j + 1) m (Nat.succ_lt_succ hj) (by simpa using hm))
      rw [List.foldr_cons]
      unfold LoadModSettings.visit
      simp only [ha, Bool.false_eq_true, if_false]
      exact ih2

theorem LoadModSettings.loop_dir_none (userFileDir : CStr) (init : CStr × ModSettings)
    (L : List ModInfo) (h : ∀ m ∈ L, m.redirectSaveRAM = false) :
    (L.foldr (fun mod acc => LoadModSettings.visit userFileDir acc mod) init).1 = init.1 := by
  induction L with
  | nil => rfl
  | cons a L ih =>
    have ha := h a (List.mem_cons_self _ _)
    rw [List.foldr_cons]
    unfold LoadModSettings.visit
    simp only [ha, Bool.false_eq_true, if_false]
    exact ih (fun m hm => h m (List.mem_cons_of_mem _ hm))

theorem LoadModSettings_eq_none (userFileDir : CStr) (forceScripts : Bool)
    (modList : List ModInfo)
    (h : LoadModSettings.start modList modList.length = none) :
    LoadModSettings userFileDir forceScripts modList =
      ([], { redirectSaveRAM := false, disableGameLogic := false, versionOverride := 0,
             forceScripts := forceScripts }) := by
  unfold LoadModSettings
  simp only [h]
  split <;> rfl

theorem LoadModSettings_eq_some (userFileDir : CStr) (forceScripts : Bool)
    (modList : List ModInfo) (start : Nat)
    (h : LoadModSettings.start modList modList.length = some start) :
    LoadModSettings userFileDir forceScripts modList =
      (modList.take (start + 1)).foldr
        (fun mod acc => LoadModSettings.visit userFileDir acc mod)
        ([], { redirectSaveRAM := false, disableGameLogic := false, versionOverride := 0,
               forceScripts := forceScripts }) := by
  have hne : modList.isEmpty = false := by
    cases modList with
    | nil => simp [LoadModSettings.start] at h
    | cons a l => rfl
  unfold LoadModSettings
  simp only [h, hne, Bool.false_eq_true, if_false]
  exact LoadModSettings.loop_eq _ _ _

theorem any_take_iff (l : List ModInfo) (n : Nat) (p : ModInfo → Bool) :
    (l.take n).any p = true ↔ ∃ (i : Nat) (mod : ModInfo), i < n ∧ l[i]? = some mod ∧ p mod = true := by
  simp only [List.any_eq_true, List.mem_iff_getElem?, List.getElem?_take]
  constructor
  · rintro ⟨mod, ⟨i, hi⟩, hp⟩
    by_cases hlt : i < n
    · rw [if_pos hlt] at hi
      exact ⟨i, mod, hlt, hi, hp⟩
    · rw [if_neg hlt] at hi
      cases hi
  · rintro ⟨i, mod, hlt, hi, hp⟩
    exact ⟨mod, ⟨i, by rw [if_pos hlt]; exact hi⟩, hp⟩

theorem LoadModSettings.scanned_iff (l : List ModInfo) (p : ModInfo → Bool) :
    (match LoadModSettings.start l l.length with
      | none => false
      | some s => (l.take (s + 1)).any p) = true ↔
      ∃ (i j : Nat) (mod amod : ModInfo), i ≤ j ∧ l[i]? = some mod ∧ p mod = true ∧
        l[j]? = some amod ∧ amod.active = true := by
  cases hs : LoadModSettings.start l l.length with
  | none =>
    have hnone := (LoadModSettings.start_none l l.length).mp hs
    simp only [Bool.false_eq_true, false_iff]
    rintro ⟨i, j, mod, amod, _, _, _, hj, hact⟩
    have := hnone j amod (getElem?_lt_length _ _ _ hj) hj
    rw [hact] at this
    cases this
  | some s =>
    obtain ⟨hlt, ⟨smod, hsmod, hsact⟩, habove⟩ := (LoadModSettings.start_some l l.length s).mp hs
    simp only [any_take_iff]
    constructor
    · rintro ⟨i, mod, hi, hmod, hp⟩
      exact ⟨i, s, mod, smod, by omega, hmod, hp, hsmod, hsact⟩
    · rintro ⟨i, j, mod, amod, hij, hmod, hp, hj, hact⟩
      have hjs : j ≤ s := by
        by_contra hgt
        have := habove j amod (by omega) (getElem?_lt_length _ _ _ hj) hj
        rw [hact] at this
        cases this
      exact ⟨i, mod, by omega, hmod, hp⟩

theorem LoadModSettings.flags_eq (userFileDir : CStr) (forceScripts : Bool)
    (modList : List ModInfo) :
    (LoadModSettings userFileDir forceScripts modList).2.redirectSaveRAM =
      (match LoadModSettings.start modList modList.length with
        | none => false
        | some s => (modList.take (s + 1)).any (fun m => m.redirectSaveRAM)) ∧
    (LoadModSettings userFileDir forceScripts modList).2.disableGameLogic =
      (match LoadModSettings.start modList modList.length with
        | none => false
        | some s => (modList.take (s + 1)).any (fun m => m.disableGameLogic)) := by
  cases hs : LoadModSettings.start modList modList.length with
  | none =>
    rw [LoadModSettings_eq_none userFileDir forceScripts modList hs]
    exact ⟨rfl, rfl⟩
  | some s =>
    rw [LoadModSettings_eq_some userFileDir forceScripts modList s hs]
    have h := LoadModSettings.loop_flags userFileDir
      ([], { redirectSaveRAM := false, disableGameLogic := false, versionOverride := 0,
             forceScripts := forceScripts }) (modList.take (s + 1))
    simp only [Bool.false_or] at h
    exact h

theorem sorted_scanned_iff (l : List ModInfo) (p : ModInfo → Bool)
    (hsorted : l.Pairwise (fun a b => b.active = true → a.active = true)) :
    (∃ (i j : Nat) (mod amod : ModInfo), i ≤ j ∧ l[i]? = some mod ∧ p mod = true ∧
        l[j]? = some amod ∧ amod.active = true) ↔
      ∃ mod ∈ l, mod.active = true ∧ p mod = true := by
  constructor
  · rintro ⟨i, j, mod, amod, hij, hmod, hp, hj, hact⟩
    refine ⟨mod, List.getElem?_mem hmod, ?_, hp⟩
    rcases Nat.lt_or_eq_of_le hij with hlt | heq
    · have hi1 := getElem?_lt_length _ _ _ hmod
      have hj1 := getElem?_lt_length _ _ _ hj
      have h := (List.pairwise_iff_getElem.mp hsorted) i j hi1 hj1 hlt
      rw [List.getElem?_eq_getElem hi1, Option.some.injEq] at hmod
      rw [List.getElem?_eq_getElem hj1, Option.some.injEq] at hj
      rw [hmod, hj] at h
      exact h hact
    · subst heq
      rw [hmod] at hj
      cases hj
      exact hact
  · rintro ⟨mod, hmem, hact, hp⟩
    obtain ⟨i, hi⟩ := List.mem_iff_getElem?.mp hmem
    exact ⟨i, i, mod, mod, Nat.le_refl _, hi, hp, hi, hact⟩

theorem LoadModSettings.flags_general (userFileDir : CStr) (forceScripts : Bool)
    (modList : List ModInfo) :
    ((LoadModSettings userFileDir forceScripts modList).2.redirectSaveRAM = true ↔
      ∃ (i j : Nat) (mod amod : ModInfo), i ≤ j ∧ modList[i]? = some mod ∧
        mod.redirectSaveRAM = true ∧ modList[j]? = some amod ∧ amod.active = true) ∧
    ((LoadModSettings userFileDir forceScripts modList).2.disableGameLogic = true ↔
      ∃ (i j : Nat) (mod amod : ModInfo), i ≤ j ∧ modList[i]? = some mod ∧
        mod.disableGameLogic = true ∧ modList[j]? = some amod ∧ amod.active = true) := by
  have hf := LoadModSettings.flags_eq userFileDir forceScripts modList
  have h1 := LoadModSettings.scanned_iff modList (fun m => m.redirectSaveRAM)
  have h2 := LoadModSettings.scanned_iff modList (fun m => m.disableGameLogic)
  rw [← hf.1] at h1
  rw [← hf.2] at h2
  exact ⟨h1, h2⟩

theorem LoadModSettings.flags_sorted (userFileDir : CStr) (forceScripts : Bool)
    (modList : List ModInfo)
    (hsorted : modList.Pairwise (fun a b => b.active = true → a.active = true)) :
    ((LoadModSettings userFileDir forceScripts modList).2.redirectSaveRAM = true ↔
      ∃ mod ∈ modList, mod.active = true ∧ mod.redirectSaveRAM = true) ∧
    ((LoadModSettings userFileDir forceScripts modList).2.disableGameLogic = true ↔
      ∃ mod ∈ modList, mod.active = true ∧ mod.disableGameLogic = true) :=
  ⟨(LoadModSettings.flags_general userFileDir forceScripts modList).1.trans
      (sorted_scanned_iff modList (fun m => m.redirectSaveRAM) hsorted),
    (LoadModSettings.flags_general userFileDir forceScripts modList).2.trans
      (sorted_scanned_iff modList (fun m => m.disableGameLogic) hsorted)⟩

/-- C23 (amended): after LoadModSettings each of `modSettings.redirectSaveRAM`
and `modSettings.disableGameLogic` is true exactly when some mod at an index
not above that of the last active mod sets the flag. For a mod list in which no
inactive mod stands before an active one this is: exactly when at least one
active mod sets the flag; the list that SortMods returns is such a list. With
no active mod both flags are false and the redirect directory is empty. -/
theorem LoadModSettings_flags (userFileDir : CStr) (forceScripts : Bool)
    (modList : List ModInfo) :
    (((LoadModSettings userFileDir forceScripts modList).2.redirectSaveRAM = true ↔
        ∃ (i j : Nat) (mod amod : ModInfo), i ≤ j ∧ modList[i]? = some mod ∧
          mod.redirectSaveRAM = true ∧ modList[j]? = some amod ∧ amod.active = true) ∧
      ((LoadModSettings userFileDir forceScripts modList).2.disableGameLogic = true ↔
        ∃ (i j : Nat) (mod amod : ModInfo), i ≤ j ∧ modList[i]? = some mod ∧
          mod.disableGameLogic = true ∧ modList[j]? = some amod ∧ amod.active = true)) ∧
    (modList.Pairwise (fun a b => b.active = true → a.active = true) →
      ((LoadModSettings userFileDir forceScripts modList).2.redirectSaveRAM = true ↔
        ∃ mod ∈ modList, mod.active = true ∧ mod.redirectSaveRAM = true) ∧
      ((LoadModSettings userFileDir forceScripts modList).2.disableGameLogic = true ↔
        ∃ mod ∈ modList, mod.active = true ∧ mod.disableGameLogic = true)) ∧
    (∀ ENGINE_VERSION : Nat,
      ((LoadModSettings userFileDir forceScripts
          (SortMods ENGINE_VERSION modList)).2.redirectSaveRAM = true ↔
        ∃ mod ∈ SortMods ENGINE_VERSION modList,
          mod.active = true ∧ mod.redirectSaveRAM = true) ∧
      ((LoadModSettings userFileDir forceScripts
          (SortMods ENGINE_VERSION modList)).2.disableGameLogic = true ↔
        ∃ mod ∈ SortMods ENGINE_VERSION modList,
          mod.active = true ∧ mod.disableGameLogic = true)) ∧
    ((∀ mod ∈ modList, mod.active = false) →
      (LoadModSettings userFileDir forceScripts modList).2.redirectSaveRAM = false ∧
      (LoadModSettings userFileDir forceScripts modList).2.disableGameLogic = false ∧
      (LoadModSettings userFileDir forceScripts modList).1 = []) := by
  refine ⟨LoadModSettings.flags_general userFileDir forceScripts modList,
    LoadModSettings.flags_sorted userFileDir forceScripts modList, ?_, ?_⟩
  · intro v
    exact LoadModSettings.flags_sorted userFileDir forceScripts _ (SortMods.pairwise v modList)
  · intro hnone
    have hs : LoadModSettings.start modList modList.length = none :=
      (LoadModSettings.start_none modList modList.length).mpr
        (fun j mod _ hmod => hnone mod (List.getElem?_mem hmod))
    rw [LoadModSettings_eq_none userFileDir forceScripts modList hs]
    exact ⟨rfl, rfl, rfl⟩

/-- C23 (amended) on a sorted list: the active mod `A` sets no flag, the active
mod `B` asks for the redirection, the inactive mod `C` sets both flags. -/
theorem LoadModSettings_flags_witness :
    (LoadModSettings "/dev_hdd0/".toList false
      [settingsMod "A".toList true false false, settingsMod "B".toList true true false,
        settingsMod "C".toList false true true]).2.redirectSaveRAM = true ∧
    (LoadModSettings "/dev_hdd0/".toList false
      [settingsMod "A".toList true false false, settingsMod "B".toList true true false,
        settingsMod "C".toList false true true]).2.disableGameLogic = false := by
  have h := (LoadModSettings_flags "/dev_hdd0/".toList false
    [settingsMod "A".toList true false false, settingsMod "B".toList true true false,
      settingsMod "C".toList false true true]).2.1 (by decide)
  refine ⟨h.1.mpr ⟨settingsMod "B".toList true true false, by decide, rfl, rfl⟩, ?_⟩
  cases hd : (LoadModSettings "/dev_hdd0/".toList false
      [settingsMod "A".toList true false false, settingsMod "B".toList true true false,
        settingsMod "C".toList false true true]).2.disableGameLogic with
  | false => rfl
  | true =>
    obtain ⟨mod, hmem, hact, hflag⟩ := h.2.mp hd
    revert mod
    decide

/-- C23 as stated fails on a list that is not sorted: the inactive mod `X`
stands before the active mod `Y` and sets both flags, `Y` sets none, and both
aggregated flags are true. -/
theorem LoadModSettings_inactive_contributes_counterexample :
    (∀ mod ∈ [settingsMod "X".toList false true true, settingsMod "Y".toList true false false],
      mod.active = true → mod.redirectSaveRAM = false ∧ mod.disableGameLogic = false) ∧
    (LoadModSettings [] false
      [settingsMod "X".toList false true true,
        settingsMod "Y".toList true false false]).2.redirectSaveRAM = true ∧
    (LoadModSettings [] false
      [settingsMod "X".toList false true true,
        settingsMod "Y".toList true false false]).2.disableGameLogic = true := by
  decide

/-- C24 (amended): when a mod at an index not above that of some active mod
requests save-data redirection, the redirect directory after LoadModSettings
is the user directory followed by `mods/<folderName>/` with the folder name
of the lowest-index mod that requests redirection: the scan runs from the last
active mod down to index 0, and each requesting mod overwrites the directory. -/
theorem LoadModSettings_redirect_directory (userFileDir : CStr) (forceScripts : Bool)
    (modList : List ModInfo) (i j : Nat) (mod amod : ModInfo)
    (hmod : modList[i]? = some mod) (hreq : mod.redirectSaveRAM = true)
    (hfirst : ∀ (k : Nat) (m : ModInfo), k < i → modList[k]? = some m →
      m.redirectSaveRAM = false)
    (hij : i ≤ j) (hj : modList[j]? = some amod) (hact : amod.active = true) :
    (LoadModSettings userFileDir forceScripts modList).1 =
      userFileDir ++ "mods/".toList ++ mod.folderName ++ "/".toList := by
  cases hs : LoadModSettings.start modList modList.length with
  | none =>
    have := (LoadModSettings.start_none modList modList.length).mp hs j amod
      (getElem?_lt_length _ _ _ hj) hj
    rw [hact] at this
    cases this
  | some s =>
    obtain ⟨_, _, habove⟩ := (LoadModSettings.start_some modList modList.length s).mp hs
    have hjs : j ≤ s := by
      by_contra hgt
      have := habove j amod (by omega) (getElem?_lt_length _ _ _ hj) hj
      rw [hact] at this
      cases this
    rw [LoadModSettings_eq_some userFileDir forceScripts modList s hs]
    refine LoadModSettings.loop_dir userFileDir _ (modList.take (s + 1)) i mod ?_ hreq ?_
    · rw [List.getElem?_take, if_pos (by omega)]
      exact hmod
    · intro k m hk hm
      rw [List.getElem?_take, if_pos (by omega)] at hm
      exact hfirst k m hk hm

/-- C24 (amended) on two active mods that both request redirection: the
directory is that of the mod at index 0. -/
theorem LoadModSettings_redirect_directory_witness :
    (LoadModSettings "/dev_hdd0/".toList false
      [settingsMod "A".toList true true false, settingsMod "B".toList true true false]).1 =
      "/dev_hdd0/mods/A/".toList :=
  (LoadModSettings_redirect_directory "/dev_hdd0/".toList false
    [settingsMod "A".toList true true false, settingsMod "B".toList true true false]
    0 1 (settingsMod "A".toList true true false) (settingsMod "B".toList true true false)
    rfl rfl (fun k m hk => absurd hk (Nat.not_lt_zero k)) (by decide) rfl rfl).trans (by decide)

/-- C24 as stated fails: the active mods `A` (index 0) and `B` (index 1) both
request redirection; the highest-index one is `B`, yet the directory ends in
`mods/A/`. -/
theorem LoadModSettings_lowest_index_wins_counterexample :
    (LoadModSettings "/dev_hdd0/".toList false
      [settingsMod "A".toList true true false, settingsMod "B".toList true true false]).1 =
      "/dev_hdd0/mods/A/".toList ∧
    (LoadModSettings "/dev_hdd0/".toList false
      [settingsMod "A".toList true true false, settingsMod "B".toList true true false]).1 ≠
      "/dev_hdd0/mods/B/".toList := by
  decide

/-! ## Key derivation and the cipher cursor -/

theorem GenerateELoadKeys.keyOf_eq (hash : HashMD5) :
    GenerateELoadKeys.keyOf hash =
      [(hash.word 0 >>> 24) &&& 0xFF, (hash.word 0 >>> 16) &&& 0xFF, (hash.word 0 >>> 8) &&& 0xFF,
        (hash.word 0 >>> 0) &&& 0xFF,
        (hash.word 1 >>> 24) &&& 0xFF, (hash.word 1 >>> 16) &&& 0xFF, (hash.word 1 >>> 8) &&& 0xFF,
        (hash.word 1 >>> 0) &&& 0xFF,
        (hash.word 2 >>> 24) &&& 0xFF, (hash.word 2 >>> 16) &&& 0xFF, (hash.word 2 >>> 8) &&& 0xFF,
        (hash.word 2 >>> 0) &&& 0xFF,
        (hash.word 3 >>> 24) &&& 0xFF, (hash.word 3 >>> 16) &&& 0xFF, (hash.word 3 >>> 8) &&& 0xFF,
        (hash.word 3 >>> 0) &&& 0xFF] := rfl

theorem GenerateELoadKeys.keyOf_byte (hash : HashMD5) (i j : Nat) (hi : i < 4) (hj : j < 4) :
    (GenerateELoadKeys.keyOf hash).getD (4 * i + (3 - j)) 0 =
      hash.word i / 2 ^ (8 * j) % 256 := by
  have hb : ∀ x n : Nat, (x >>> n) &&& 0xFF = x / 2 ^ n % 256 := by
    intro x n
    rw [Nat.shiftRight_eq_div_pow]
    exact Nat.and_pow_two_sub_one_eq_mod _ 8
  rw [GenerateELoadKeys.keyOf_eq]
  simp only [hb]
  interval_cases i <;> interval_cases j <;> rfl

theorem SkipBytes.step_inv (info : FileInfo) (p : Nat)
    (h : info.eKeyNo < 128 ∧ info.eKeyNo % 2 = p ∧ info.eKeyPosA ≤ 15 ∧ info.eKeyPosB ≤ 13 ∧
      (p = 0 → info.eKeyPosB ≤ 12)) :
    (SkipBytes.step info).eKeyNo < 128 ∧ (SkipBytes.step info).eKeyNo % 2 = p ∧
      (SkipBytes.step info).eKeyPosA ≤ 15 ∧ (SkipBytes.step info).eKeyPosB ≤ 13 ∧
      (p = 0 → (SkipBytes.step info).eKeyPosB ≤ 12) := by
  obtain ⟨h1, h2, h3, h4, h5⟩ := h
  have hk : (info.eKeyNo + 2) &&& 0x7F = (info.eKeyNo + 2) % 128 :=
    Nat.and_pow_two_sub_one_eq_mod _ 7
  unfold SkipBytes.step
  simp only [hk]
  split_ifs <;> simp only <;> refine ⟨?_, ?_, ?_, ?_, ?_⟩ <;> omega

theorem SkipBytes.loop_inv (info : FileInfo) (p n : Nat)
    (h : info.eKeyNo < 128 ∧ info.eKeyNo % 2 = p ∧ info.eKeyPosA ≤ 15 ∧ info.eKeyPosB ≤ 13 ∧
      (p = 0 → info.eKeyPosB ≤ 12)) :
    (SkipBytes.loop info n).eKeyNo < 128 ∧ (SkipBytes.loop info n).eKeyNo % 2 = p ∧
      (SkipBytes.loop info n).eKeyPosA ≤ 15 ∧ (SkipBytes.loop info n).eKeyPosB ≤ 13 ∧
      (p = 0 → (SkipBytes.loop info n).eKeyPosB ≤ 12) := by
  induction n generalizing info with
  | zero => exact h
  | succ n ih => exact ih (SkipBytes.step info) (SkipBytes.step_inv info p h)

theorem runCursorOps_inv (info : FileInfo) (p : Nat) (ops : List CursorOp)
    (h : info.eKeyNo < 128 ∧ info.eKeyNo % 2 = p ∧ info.eKeyPosA ≤ 15 ∧ info.eKeyPosB ≤ 13 ∧
      (p = 0 → info.eKeyPosB ≤ 12)) :
    (runCursorOps info ops).eKeyNo < 128 ∧ (runCursorOps info ops).eKeyNo % 2 = p ∧
      (runCursorOps info ops).eKeyPosA ≤ 15 ∧ (runCursorOps info ops).eKeyPosB ≤ 13 ∧
      (p = 0 → (runCursorOps info ops).eKeyPosB ≤ 12) := by
  induction ops generalizing info with
  | nil => exact h
  | cons op rest ih =>
    cases op with
    | decrypt buffer =>
      unfold runCursorOps
      refine ih _ ?_
      rw [DecryptBytes.cursor]
      exact SkipBytes.loop_inv info p _ h
    | skip size =>
      unfold runCursorOps
      exact ih _ (SkipBytes.loop_inv info p _ h)

/-- C26: for every identifier, integer and `i`, `j` in 0..3, GenerateELoadKeys
sets `encryptionKeyA[4*i + (3-j)]` to byte `j` (bits 8j..8j+7) of word `i` of
the MD5 digest of the uppercased identifier and `encryptionKeyB[4*i + (3-j)]`
to byte `j` of word `i` of the digest of the decimal text of the integer; both
keys have 16 bytes and the cursor fields are not touched. -/
theorem GenerateELoadKeys_bytes (md5w : CStr → HashMD5) (info : FileInfo) (key1 : CStr)
    (key2 : Int) (i j : Nat) (hi : i < 4) (hj : j < 4) :
    (GenerateELoadKeys md5w info key1 key2).encryptionKeyA.getD (4 * i + (3 - j)) 0 =
      (md5w (StringUpperCase key1)).word i / 2 ^ (8 * j) % 256 ∧
    (GenerateELoadKeys md5w info key1 key2).encryptionKeyB.getD (4 * i + (3 - j)) 0 =
      (md5w (Int.repr key2).toList).word i / 2 ^ (8 * j) % 256 ∧
    (GenerateELoadKeys md5w info key1 key2).encryptionKeyA.length = 16 ∧
    (GenerateELoadKeys md5w info key1 key2).encryptionKeyB.length = 16 ∧
    (GenerateELoadKeys md5w info key1 key2).eKeyNo = info.eKeyNo ∧
    (GenerateELoadKeys md5w info key1 key2).eKeyPosA = info.eKeyPosA ∧
    (GenerateELoadKeys md5w info key1 key2).eKeyPosB = info.eKeyPosB ∧
    (GenerateELoadKeys md5w info key1 key2).eNybbleSwap = info.eNybbleSwap :=
  ⟨GenerateELoadKeys.keyOf_byte _ i j hi hj, GenerateELoadKeys.keyOf_byte _ i j hi hj,
    rfl, rfl, rfl, rfl, rfl, rfl⟩

/-- C26 on the identifier `Data/b.bin` and the integer 1000: the byte at index
4*1 + (3-2) of key A is byte 2 of word 1 of the stand-in digest of
`DATA/B.BIN`, and the same index of key B comes from the digest of the text
`1000`. -/
theorem GenerateELoadKeys_bytes_witness :
    (GenerateELoadKeys exampleMd5w FileInfo.initial "Data/b.bin".toList 1000).encryptionKeyA.getD
      5 0 = (exampleMd5w "DATA/B.BIN".toList).word 1 / 65536 % 256 ∧
    (GenerateELoadKeys exampleMd5w FileInfo.initial "Data/b.bin".toList 1000).encryptionKeyB.getD
      5 0 = (exampleMd5w "1000".toList).word 1 / 65536 % 256 := by
  have h := GenerateELoadKeys_bytes exampleMd5w FileInfo.initial "Data/b.bin".toList 1000 1 2
    (by decide) (by decide)
  exact ⟨h.1.trans (by decide), h.2.1.trans (by decide)⟩

theorem OpenDataFile.cipher (env : ReaderEnv) (md5w : CStr → HashMD5) (st : ReaderState)
    (info : FileInfo) (filename : CStr) (f : Nat)
    (h : findDataFile st.dataFileList (md5w (StringLowerCase filename)) st.dataFileListCount
      = some f)
    (hopen : (st.dataFileList f).useFileBuffer = true ∨
      env.fOpen (st.dataPacks (st.dataFileList f).packID).name = true) :
    ((st.dataFileList f).encrypted = true →
      (OpenDataFile env md5w st info filename).2.encryptionKeyA =
        (GenerateELoadKeys md5w info filename ((st.dataFileList f).size : Int)).encryptionKeyA ∧
      (OpenDataFile env md5w st info filename).2.encryptionKeyB =
        (GenerateELoadKeys md5w info filename ((st.dataFileList f).size : Int)).encryptionKeyB ∧
      (OpenDataFile env md5w st info filename).2.eKeyNo = (st.dataFileList f).size / 4 % 128 ∧
      (OpenDataFile env md5w st info filename).2.eKeyPosA = 0 ∧
      (OpenDataFile env md5w st info filename).2.eKeyPosB = 8 ∧
      (OpenDataFile env md5w st info filename).2.eNybbleSwap = false) ∧
    ((st.dataFileList f).encrypted = false →
      (OpenDataFile env md5w st info filename).2.encryptionKeyA = List.replicate 16 0 ∧
      (OpenDataFile env md5w st info filename).2.encryptionKeyB = List.replicate 16 0 ∧
      (OpenDataFile env md5w st info filename).2.eKeyNo = info.eKeyNo ∧
      (OpenDataFile env md5w st info filename).2.eKeyPosA = info.eKeyPosA ∧
      (OpenDataFile env md5w st info filename).2.eKeyPosB = info.eKeyPosB ∧
      (OpenDataFile env md5w st info filename).2.eNybbleSwap = info.eNybbleSwap) := by
  have hk : ∀ x : Nat, x &&& 0x7F = x % 128 := fun x => Nat.and_pow_two_sub_one_eq_mod x 7
  unfold OpenDataFile
  simp only [h]
  have hc : (!(st.dataFileList f).useFileBuffer &&
      !env.fOpen (st.dataPacks (st.dataFileList f).packID).name) = false := by
    rcases hopen with h1 | h1 <;> simp [h1]
  rw [hc]
  simp only [Bool.false_eq_true, if_false]
  cases hb : (st.dataFileList f).useFileBuffer <;> cases he : (st.dataFileList f).encrypted <;>
    simp [GenerateELoadKeys, hk]

/-- C27: for the index entry that OpenDataFile opens under a requested name
(the first match, buffered or with an openable pack): if the entry is
encrypted, the keys of the stream are those GenerateELoadKeys derives from the
name as requested and the entry's stripped size, and the cursor is keyIndex =
(size / 4) mod 128, posA = 0, posB = 8, nybbleSwap = false; if it is not
encrypted, both 16-byte keys are all zero and the four cursor fields are left
as they were in the `FileInfo` passed in. -/
theorem OpenDataFile_cipher_setup (env : ReaderEnv) (md5w : CStr → HashMD5) (st : ReaderState)
    (info : FileInfo) (filename : CStr) (f : Nat)
    (hf : f < st.dataFileListCount)
    (hhash : (st.dataFileList f).hash = md5w (StringLowerCase filename))
    (hfirst : ∀ j, j < f → (st.dataFileList j).hash ≠ md5w (StringLowerCase filename))
    (hopen : (st.dataFileList f).useFileBuffer = true ∨
      env.fOpen (st.dataPacks (st.dataFileList f).packID).name = true) :
    (OpenDataFile env md5w st info filename).1 = true ∧
    ((st.dataFileList f).encrypted = true →
      (OpenDataFile env md5w st info filename).2.encryptionKeyA =
        (GenerateELoadKeys md5w info filename ((st.dataFileList f).size : Int)).encryptionKeyA ∧
      (OpenDataFile env md5w st info filename).2.encryptionKeyB =
        (GenerateELoadKeys md5w info filename ((st.dataFileList f).size : Int)).encryptionKeyB ∧
      (OpenDataFile env md5w st info filename).2.eKeyNo = (st.dataFileList f).size / 4 % 128 ∧
      (OpenDataFile env md5w st info filename).2.eKeyPosA = 0 ∧
      (OpenDataFile env md5w st info filename).2.eKeyPosB = 8 ∧
      (OpenDataFile env md5w st info filename).2.eNybbleSwap = false) ∧
    ((st.dataFileList f).encrypted = false →
      (OpenDataFile env md5w st info filename).2.encryptionKeyA = List.replicate 16 0 ∧
      (OpenDataFile env md5w st info filename).2.encryptionKeyB = List.replicate 16 0 ∧
      (OpenDataFile env md5w st info filename).2.eKeyNo = info.eKeyNo ∧
      (OpenDataFile env md5w st info filename).2.eKeyPosA = info.eKeyPosA ∧
      (OpenDataFile env md5w st info filename).2.eKeyPosB = info.eKeyPosB ∧
      (OpenDataFile env md5w st info filename).2.eNybbleSwap = info.eNybbleSwap) := by
  have hfind := (findDataFile_some st.dataFileList _ st.dataFileListCount f).mpr
    ⟨hf, hhash, hfirst⟩
  exact ⟨(OpenDataFile.eq_some env md5w st info filename f hfind hopen).1,
    OpenDataFile.cipher env md5w st info filename f hfind hopen⟩

/-- C27 on pack A: the encrypted entry of size 4 opened as `Data/B.bin` gets the
cursor (1, 0, 8, false) and a key A derived from `DATA/B.BIN`; the plain entry
`Data/A.bin` gets all-zero keys. -/
theorem OpenDataFile_cipher_setup_witness :
    (OpenDataFile (exampleEnv exampleFiles) exampleMd5w stateA FileInfo.initial
      "Data/B.bin".toList).2.eKeyNo = 1 ∧
    (OpenDataFile (exampleEnv exampleFiles) exampleMd5w stateA FileInfo.initial
      "Data/B.bin".toList).2.eKeyPosB = 8 ∧
    (OpenDataFile (exampleEnv exampleFiles) exampleMd5w stateA FileInfo.initial
      "Data/B.bin".toList).2.encryptionKeyA =
      GenerateELoadKeys.keyOf (exampleMd5w "DATA/B.BIN".toList) ∧
    (OpenDataFile (exampleEnv exampleFiles) exampleMd5w stateA FileInfo.initial
      "Data/A.bin".toList).2.encryptionKeyA = List.replicate 16 0 := by
  have hB := (OpenDataFile_cipher_setup (exampleEnv exampleFiles) exampleMd5w stateA
    FileInfo.initial "Data/B.bin".toList 1 (by decide) (by decide) (by decide)
    (by decide)).2.1 (by decide)
  have hA := (OpenDataFile_cipher_setup (exampleEnv exampleFiles) exampleMd5w stateA
    FileInfo.initial "Data/A.bin".toList 0 (by decide) (by decide) (by decide)
    (by decide)).2.2 (by decide)
  exact ⟨hB.2.2.1.trans (by decide), hB.2.2.2.2.1, hB.1.trans (by decide), hA.1⟩

/-- C30 (amended): for the cursor that OpenDataFile sets for an encrypted entry
of size `n`, after any sequence of DecryptBytes and SkipBytes calls: keyIndex
is below 128 and has the parity of `n / 4`, which it never changes; posA is in
[0,15]; posB is in [0,13], and in [0,12] when `n / 4` is even. -/
theorem cursor_invariant (env : ReaderEnv) (md5w : CStr → HashMD5) (st : ReaderState)
    (info : FileInfo) (filename : CStr) (f : Nat)
    (hf : f < st.dataFileListCount)
    (hhash : (st.dataFileList f).hash = md5w (StringLowerCase filename))
    (hfirst : ∀ j, j < f → (st.dataFileList j).hash ≠ md5w (StringLowerCase filename))
    (hopen : (st.dataFileList f).useFileBuffer = true ∨
      env.fOpen (st.dataPacks (st.dataFileList f).packID).name = true)
    (henc : (st.dataFileList f).encrypted = true) (ops : List CursorOp) :
    (runCursorOps (OpenDataFile env md5w st info filename).2 ops).eKeyNo < 128 ∧
    (runCursorOps (OpenDataFile env md5w st info filename).2 ops).eKeyNo % 2 =
      (st.dataFileList f).size / 4 % 2 ∧
    (runCursorOps (OpenDataFile env md5w st info filename).2 ops).eKeyPosA ≤ 15 ∧
    (runCursorOps (OpenDataFile env md5w st info filename).2 ops).eKeyPosB ≤ 13 ∧
    ((st.dataFileList f).size / 4 % 2 = 0 →
      (runCursorOps (OpenDataFile env md5w st info filename).2 ops).eKeyPosB ≤ 12) := by
  have hfind := (findDataFile_some st.dataFileList _ st.dataFileListCount f).mpr
    ⟨hf, hhash, hfirst⟩
  obtain ⟨_, _, h3, h4, h5, _⟩ :=
    (OpenDataFile.cipher env md5w st info filename f hfind hopen).1 henc
  apply runCursorOps_inv
  rw [h3, h4, h5]
  refine ⟨?_, ?_, ?_, ?_, ?_⟩ <;> omega

/-- C30 (amended) on the size-4 entry `Data/B.bin` of pack A after one
DecryptBytes call on three bytes and a SkipBytes call of 200. -/
theorem cursor_invariant_witness :
    (runCursorOps
      (OpenDataFile (exampleEnv exampleFiles) exampleMd5w stateA FileInfo.initial
        "Data/B.bin".toList).2
      [CursorOp.decrypt [1, 2, 3], CursorOp.skip 200]).eKeyNo % 2 = 1 ∧
    (runCursorOps
      (OpenDataFile (exampleEnv exampleFiles) exampleMd5w stateA FileInfo.initial
        "Data/B.bin".toList).2
      [CursorOp.decrypt [1, 2, 3], CursorOp.skip 200]).eKeyPosB ≤ 13 := by
  have h := cursor_invariant (exampleEnv exampleFiles) exampleMd5w stateA FileInfo.initial
    "Data/B.bin".toList 1 (by decide) (by decide) (by decide) (by decide) (by decide)
    [CursorOp.decrypt [1, 2, 3], CursorOp.skip 200]
  exact ⟨h.2.1.trans (by decide), h.2.2.2.1⟩

set_option maxRecDepth 100000 in
/-- C30 as stated fails: for the encrypted entry of size 4 the cursor that
OpenDataFile sets has keyIndex 1, which is odd, and after SkipBytes of 134 the
cursor has posB = 13. -/
theorem cursor_odd_key_counterexample :
    (stateA.dataFileList 1).size = 4 ∧
    (OpenDataFile (exampleEnv exampleFiles) exampleMd5w stateA FileInfo.initial
      "Data/B.bin".toList).2.eKeyNo = 1 ∧
    (runCursorOps
      (OpenDataFile (exampleEnv exampleFiles) exampleMd5w stateA FileInfo.initial
        "Data/B.bin".toList).2 [CursorOp.skip 134]).eKeyPosB = 13 ∧
    (runCursorOps
      (OpenDataFile (exampleEnv exampleFiles) exampleMd5w stateA FileInfo.initial
        "Data/B.bin".toList).2 [CursorOp.skip 134]).eKeyNo % 2 = 1 := by
  decide

/-! ## The current-mod marker -/

theorem Callable.call_wrapped_currentMod (inv : Callable → Nat → ModState → Option ModState)
    (curMod : Option Nat) (fn : UserFn) (arg : Nat) (st mid : ModState)
    (h : Callable.call inv (Callable.wrapped curMod fn) arg st = some mid) :
    mid.currentMod = none := by
  simp only [Callable.call] at h
  cases hr : runUser inv arg fn { st with currentMod := curMod } with
  | none =>
    rw [hr] at h
    cases h
  | some s1 =>
    rw [hr] at h
    simp only [Option.some.injEq] at h
    rw [← h]

theorem Callable.call_superCall_currentMod (inv : Callable → Nat → ModState → Option ModState)
    (curMod : Option Nat) (info : Nat) (callback : ModSuper) (arg : Nat) (st mid : ModState)
    (h : Callable.call inv (Callable.superCall curMod info callback) arg st = some mid) :
    mid.currentMod = none := by
  simp only [Callable.call] at h
  cases hr : SuperInternal inv (st.objectClassList info) callback
      (if callback = ModSuper.SUPER_CREATE then arg else 0) { st with currentMod := curMod } with
  | none =>
    rw [hr] at h
    cases h
  | some s1 =>
    rw [hr] at h
    simp only [Option.some.injEq] at h
    rw [← h]

/-- C28: for every record with an ancestor, every slot kind and every value of
the current-mod marker at entry: whenever SuperInternal returns, the marker
has its entry value. It returns when the resolved record has no slot of the
kind, and when the slot it invokes returns, whatever marker that slot leaves;
a closure made by ModRegisterObject_STD, which runs under the marker of its
registering mod, returns with the marker cleared. -/
theorem SuperInternal_restores_currentMod
    (invoke : Callable → Nat → ModState → Option ModState) (super anc : ObjectClass)
    (callback : ModSuper) (data : Nat) (st : ModState) (hanc : super.inherited = some anc) :
    (∀ st2, SuperInternal invoke super callback data st = some st2 →
      st2.currentMod = st.currentMod) ∧
    ((SuperInternal.enter super anc st).2.1.slot callback = none →
      ∃ st2, SuperInternal invoke super callback data st = some st2 ∧
        st2.currentMod = st.currentMod) ∧
    (∀ (f : Callable) (mid : ModState),
      (SuperInternal.enter super anc st).2.1.slot callback = some f →
      invoke f (if callback = ModSuper.SUPER_CREATE then data else 0)
        { (SuperInternal.enter super anc st).2.2 with
          history := (SuperInternal.enter super anc st).2.2.history ++
            [Event.target (SuperInternal.enter super anc st).2.1 callback] } = some mid →
      ∃ st2, SuperInternal invoke super callback data st = some st2 ∧
        st2.currentMod = st.currentMod) ∧
    (∀ (fuel : Nat) (curMod : Option Nat) (fn : UserFn) (arg : Nat) (s mid : ModState),
      RSDK.invoke fuel (Callable.wrapped curMod fn) arg s = some mid → mid.currentMod = none) ∧
    (∀ (fuel : Nat) (curMod : Option Nat) (info : Nat) (cb : ModSuper) (arg : Nat)
      (s mid : ModState),
      RSDK.invoke fuel (Callable.superCall curMod info cb) arg s = some mid →
        mid.currentMod = none) := by
  have hret : ∀ st2, SuperInternal invoke super callback data st = some st2 →
      st2.currentMod = st.currentMod := by
    intro st2 h
    unfold SuperInternal at h
    simp only [hanc] at h
    cases hd : SuperInternal.dispatch invoke (SuperInternal.enter super anc st).2.1 callback data
        (SuperInternal.enter super anc st).2.2 with
    | none =>
      rw [hd] at h
      cases h
    | some mid =>
      rw [hd] at h
      simp only [Option.some.injEq] at h
      rw [← h]
      rfl
  refine ⟨hret, ?_, ?_, ?_, ?_⟩
  · intro hslot
    have hd : SuperInternal.dispatch invoke (SuperInternal.enter super anc st).2.1 callback data
        (SuperInternal.enter super anc st).2.2 =
        some { (SuperInternal.enter super anc st).2.2 with
          history := (SuperInternal.enter super anc st).2.2.history ++
            [Event.target (SuperInternal.enter super anc st).2.1 callback] } := by
      unfold SuperInternal.dispatch
      simp only [hslot]
    have hs : SuperInternal invoke super callback data st =
        some (SuperInternal.leave (SuperInternal.enter super anc st).1 st.currentMod
          { (SuperInternal.enter super anc st).2.2 with
            history := (SuperInternal.enter super anc st).2.2.history ++
              [Event.target (SuperInternal.enter super anc st).2.1 callback] }) := by
      unfold SuperInternal
      simp only [hanc, hd]
    exact ⟨_, hs, hret _ hs⟩
  · intro f mid hslot hinv
    have hd : SuperInternal.dispatch invoke (SuperInternal.enter super anc st).2.1 callback data
        (SuperInternal.enter super anc st).2.2 = some mid := by
      unfold SuperInternal.dispatch
      simp only [hslot]
      exact hinv
    have hs : SuperInternal invoke super callback data st =
        some (SuperInternal.leave (SuperInternal.enter super anc st).1 st.currentMod mid) := by
      unfold SuperInternal
      simp only [hanc, hd]
    exact ⟨_, hs, hret _ hs⟩
  · intro fuel curMod fn arg s mid h
    cases fuel with
    | zero => cases h
    | succ k => exact Callable.call_wrapped_currentMod (RSDK.invoke k) curMod fn arg s mid h
  · intro fuel curMod info cb arg s mid h
    cases fuel with
    | zero => cases h
    | succ k => exact Callable.call_superCall_currentMod (RSDK.invoke k) curMod info cb arg s mid h

/-- C28 on Boss extending Enemy: mod 2 is the current mod at entry, the draw
closure of Enemy runs under mod 1 (as its action records) and leaves the
marker cleared, and SuperInternal returns with mod 2 as the current mod. -/
theorem SuperInternal_restores_currentMod_witness :
    hookedState.currentMod = some 2 ∧
    (hookedState.objectClassList 1).inherited = some (hookedState.objectClassList 0) ∧
    (hookedState.objectClassList 0).slot ModSuper.SUPER_DRAW =
      some (Callable.wrapped (some 1) [Stmt.emit 7]) ∧
    ((invoke 1 (Callable.wrapped (some 1) [Stmt.emit 7]) 0 hookedState).map
      (fun s => s.currentMod)) = some none ∧
    (∃ st2, SuperInternal (invoke 1) (hookedState.objectClassList 1) ModSuper.SUPER_DRAW 0
        hookedState = some st2 ∧ st2.currentMod = some 2) := by
  refine ⟨rfl, rfl, rfl, rfl, ?_⟩
  have h := (SuperInternal_restores_currentMod (invoke 1) (hookedState.objectClassList 1)
    (hookedState.objectClassList 0) ModSuper.SUPER_DRAW 0 hookedState rfl).2.2.1
    (Callable.wrapped (some 1) [Stmt.emit 7])
  cases hinv : invoke 1 (Callable.wrapped (some 1) [Stmt.emit 7]) 0
      { (SuperInternal.enter (hookedState.objectClassList 1) (hookedState.objectClassList 0)
          hookedState).2.2 with
        history := (SuperInternal.enter (hookedState.objectClassList 1)
          (hookedState.objectClassList 0) hookedState).2.2.history ++
          [Event.target (SuperInternal.enter (hookedState.objectClassList 1)
            (hookedState.objectClassList 0) hookedState).2.1 ModSuper.SUPER_DRAW] } with
  | none => exact absurd hinv (by simp [invoke, Callable.call, runUser, runStmt])
  | some mid => exact h mid rfl hinv

/-! ## Bounds of the cursor and the reference cipher -/

theorem SkipBytes.step_keys (info : FileInfo) :
    (SkipBytes.step info).encryptionKeyA = info.encryptionKeyA ∧
    (SkipBytes.step info).encryptionKeyB = info.encryptionKeyB := by
  unfold SkipBytes.step
  simp only
  split_ifs <;> exact ⟨rfl, rfl⟩

theorem SkipBytes.loop_keys (info : FileInfo) (n : Nat) :
    (SkipBytes.loop info n).encryptionKeyA = info.encryptionKeyA ∧
    (SkipBytes.loop info n).encryptionKeyB = info.encryptionKeyB := by
  induction n generalizing info with
  | zero => exact ⟨rfl, rfl⟩
  | succ n ih =>
    have h := ih (SkipBytes.step info)
    have hs := SkipBytes.step_keys info
    exact ⟨h.1.trans hs.1, h.2.trans hs.2⟩

theorem runCursorOps_keys (info : FileInfo) (ops : List CursorOp) :
    (runCursorOps info ops).encryptionKeyA = info.encryptionKeyA ∧
    (runCursorOps info ops).encryptionKeyB = info.encryptionKeyB := by
  induction ops generalizing info with
  | nil => exact ⟨rfl, rfl⟩
  | cons op rest ih =>
    cases op with
    | decrypt buffer =>
      unfold runCursorOps
      have h := ih (DecryptBytes info buffer).1
      rw [DecryptBytes.cursor] at h ⊢
      have hs := SkipBytes.loop_keys info buffer.length
      exact ⟨h.1.trans hs.1, h.2.trans hs.2⟩
    | skip size =>
      unfold runCursorOps
      have h := ih (SkipBytes info size)
      have hs := SkipBytes.loop_keys info size.toNat
      exact ⟨h.1.trans hs.1, h.2.trans hs.2⟩

/-- C31: from every cursor with a key index in 0..127 (even or odd), posA = 0
and posB = 8, after any sequence of DecryptBytes and SkipBytes calls: posA <
16, posB < 16 and keyIndex < 128, the parity of keyIndex is that of the start,
and the keys are the keys of the start, so that with 16-byte keys
`encryptionKeyA[posA]` and `encryptionKeyB[posB]` lie inside the keys. -/
theorem cursor_in_bounds (info : FileInfo) (ops : List CursorOp)
    (hkey : info.eKeyNo < 128) (hA : info.eKeyPosA = 0) (hB : info.eKeyPosB = 8) :
    (runCursorOps info ops).eKeyPosA < 16 ∧ (runCursorOps info ops).eKeyPosB < 16 ∧
    (runCursorOps info ops).eKeyNo < 128 ∧
    (runCursorOps info ops).eKeyNo % 2 = info.eKeyNo % 2 ∧
    (runCursorOps info ops).encryptionKeyA = info.encryptionKeyA ∧
    (runCursorOps info ops).encryptionKeyB = info.encryptionKeyB ∧
    (info.encryptionKeyA.length = 16 →
      (runCursorOps info ops).eKeyPosA < (runCursorOps info ops).encryptionKeyA.length) ∧
    (info.encryptionKeyB.length = 16 →
      (runCursorOps info ops).eKeyPosB < (runCursorOps info ops).encryptionKeyB.length) := by
  have h := runCursorOps_inv info (info.eKeyNo % 2) ops
    ⟨hkey, rfl, by omega, by omega, fun _ => by omega⟩
  have hk := runCursorOps_keys info ops
  refine ⟨by omega, by omega, h.1, h.2.1, hk.1, hk.2, ?_, ?_⟩
  · intro hl
    rw [hk.1, hl]
    omega
  · intro hl
    rw [hk.2, hl]
    omega

/-- C31 on the GameConfig stream, whose key index 122 is even, after a
DecryptBytes call on five bytes and a SkipBytes call of 1000. -/
theorem cursor_in_bounds_witness :
    (runCursorOps gameConfigStream
      [CursorOp.decrypt [1, 2, 3, 4, 5], CursorOp.skip 1000]).eKeyPosA < 16 ∧
    (runCursorOps gameConfigStream
      [CursorOp.decrypt [1, 2, 3, 4, 5], CursorOp.skip 1000]).eKeyPosB < 16 ∧
    (runCursorOps gameConfigStream
      [CursorOp.decrypt [1, 2, 3, 4, 5], CursorOp.skip 1000]).eKeyNo % 2 = 0 := by
  have h := cursor_in_bounds gameConfigStream
    [CursorOp.decrypt [1, 2, 3, 4, 5], CursorOp.skip 1000] (by decide) rfl rfl
  exact ⟨h.1, h.2.1, h.2.2.2.1⟩

set_option maxRecDepth 100000 in
theorem nybbleSwap_eq_swapNibbles : ∀ u < 256, nybbleSwap u = Reference.swapNibbles u := by
  decide

theorem getD_lt_of_forall (l : List Nat) (i : Nat) (h : ∀ k ∈ l, k < 256) : l.getD i 0 < 256 := by
  rw [List.getD_eq_getElem?_getD]
  cases hi : l[i]? with
  | none => simp
  | some v =>
    simp only [Option.getD_some]
    exact h v (List.getElem?_mem hi)

theorem DecryptBytes.step_cipherState (info : FileInfo) (x : Nat) :
    (DecryptBytes.step info x).1.cipherState = Reference.advance info.cipherState := by
  have hand : (info.eKeyNo + 2) &&& 0x7F = (info.eKeyNo + 2) % 128 :=
    Nat.and_pow_two_sub_one_eq_mod _ 7
  unfold DecryptBytes.step Reference.advance FileInfo.cipherState
  simp only [hand]
  split_ifs <;> rfl

theorem DecryptBytes.step_reference (info : FileInfo) (x : Nat) (hx : x < 256)
    (hno : info.eKeyNo < 256) (hA : ∀ k ∈ info.encryptionKeyA, k < 256)
    (hB : ∀ k ∈ info.encryptionKeyB, k < 256) :
    (DecryptBytes.step info x).2 = Reference.decryptByte info.cipherState x := by
  have hb := getD_lt_of_forall info.encryptionKeyB info.eKeyPosB hB
  have ha := getD_lt_of_forall info.encryptionKeyA info.eKeyPosA hA
  have h1 : x ^^^ (info.eKeyNo ^^^ info.encryptionKeyB.getD info.eKeyPosB 0) < 256 :=
    byte_xor_lt hx (byte_xor_lt hno hb)
  unfold DecryptBytes.step Reference.decryptByte FileInfo.cipherState
  simp only [Nat.mod_eq_of_lt h1]
  cases hs : info.eNybbleSwap with
  | false =>
    simp only [Bool.false_eq_true, if_false]
    exact Nat.mod_eq_of_lt (byte_xor_lt h1 ha)
  | true =>
    simp only [if_true]
    have h2 := nybbleSwap_eq_swapNibbles _ h1
    unfold nybbleSwap at h2
    rw [h2]
    have h3 : Reference.swapNibbles
        (x ^^^ (info.eKeyNo ^^^ info.encryptionKeyB.getD info.eKeyPosB 0)) < 256 := by
      rw [← nybbleSwap_eq_swapNibbles _ h1]
      exact nybbleSwap_lt _
    exact Nat.mod_eq_of_lt (byte_xor_lt h3 ha)

theorem DecryptBytes.step_eKeyNo_lt (info : FileInfo) (x : Nat) (hno : info.eKeyNo < 256) :
    (DecryptBytes.step info x).1.eKeyNo < 256 := by
  have hand : (info.eKeyNo + 2) &&& 0x7F = (info.eKeyNo + 2) % 128 :=
    Nat.and_pow_two_sub_one_eq_mod _ 7
  unfold DecryptBytes.step
  simp only [hand]
  split_ifs <;> simp only <;> omega

theorem DecryptBytes.step_keeps_keys (info : FileInfo) (x : Nat) :
    (DecryptBytes.step info x).1.encryptionKeyA = info.encryptionKeyA ∧
    (DecryptBytes.step info x).1.encryptionKeyB = info.encryptionKeyB := by
  unfold DecryptBytes.step
  simp only
  split_ifs <;> exact ⟨rfl, rfl⟩

/-- C32: on bytes (buffer, keys and key index below 256), the decrypted output
and the final cursor of DecryptBytes are those of `decryptInPlace` of section
4.2: each byte replaced by the nibble swap (when set) of `byte XOR (keyIndex
XOR keyB[posB])`, XORed with `keyA[posA]`, and the cursor advanced once per
byte by the advance rule. -/
theorem DecryptBytes_refines_reference (info : FileInfo) (buffer : List Nat)
    (hbuf : ∀ x ∈ buffer, x < 256) (hno : info.eKeyNo < 256)
    (hA : ∀ k ∈ info.encryptionKeyA, k < 256) (hB : ∀ k ∈ info.encryptionKeyB, k < 256) :
    (DecryptBytes info buffer).1.cipherState =
        (Reference.decryptInPlace info.cipherState buffer).1 ∧
      (DecryptBytes info buffer).2 = (Reference.decryptInPlace info.cipherState buffer).2 := by
  induction buffer generalizing info with
  | nil => exact ⟨rfl, rfl⟩
  | cons x rest ih =>
    have hx : x < 256 := hbuf x (List.mem_cons_self _ _)
    have hk := DecryptBytes.step_keeps_keys info x
    have h := ih (DecryptBytes.step info x).1
      (fun y hy => hbuf y (List.mem_cons_of_mem _ hy))
      (DecryptBytes.step_eKeyNo_lt info x hno) (by rw [hk.1]; exact hA) (by rw [hk.2]; exact hB)
    rw [DecryptBytes.step_cipherState] at h
    unfold DecryptBytes Reference.decryptInPlace
    simp only
    exact ⟨h.1, by rw [h.2, DecryptBytes.step_reference info x hx hno hA hB]⟩

/-- C32 on the GameConfig stream and a buffer of 40 bytes, long enough to pass
a nibble toggle and the re-keying. -/
theorem DecryptBytes_refines_reference_witness :
    (DecryptBytes gameConfigStream (List.range 40)).1.cipherState =
        (Reference.decryptInPlace gameConfigStream.cipherState (List.range 40)).1 ∧
      (DecryptBytes gameConfigStream (List.range 40)).2 =
        (Reference.decryptInPlace gameConfigStream.cipherState (List.range 40)).2 :=
  DecryptBytes_refines_reference gameConfigStream (List.range 40)
    (by decide) (by decide) (by decide) (by decide)

/-! ## The two variants of GenerateELoadKeys -/

/-- C40: for every digest the portable GenerateELoadKeys writes the key bytes
of the `RETRO_USE_ORIGINAL_CODE` variant run on a host that stores the digest
words least significant byte first: each word's bytes reversed, that is each
word most significant byte first. -/
theorem GenerateELoadKeys_variants_agree (hash : HashMD5) :
    GenerateELoadKeys.keyOf hash = GenerateELoadKeys.keyOfBytes hash.bytesLittleEndian ∧
    GenerateELoadKeys.keyOf hash = hash.bytesBigEndian := by
  have h8 : ∀ x : Nat, x &&& 0xFF = x % 256 := fun x => Nat.and_pow_two_sub_one_eq_mod x 8
  constructor
  · rw [GenerateELoadKeys.keyOf_eq]
    simp [GenerateELoadKeys.keyOfBytes, HashMD5.bytesLittleEndian, List.range, List.range.loop,
      le32, h8, Nat.shiftRight_eq_div_pow]
  · rw [GenerateELoadKeys.keyOf_eq]
    simp [HashMD5.bytesBigEndian, List.range, List.range.loop,
      le32, be32, h8, Nat.shiftRight_eq_div_pow]

/-! ## How far the override branch walks -/

theorem ObjectClass.ancestorAt_zero (c : ObjectClass) : c.ancestorAt 0 = some c := rfl

theorem ObjectClass.ancestorAt_succ (n : Nat) (c anc : ObjectClass)
    (h : c.inherited = some anc) : c.ancestorAt (n + 1) = anc.ancestorAt n := by
  rw [ObjectClass.ancestorAt]
  simp only [h]

theorem ObjectClass.ancestorAt_succ_none (n : Nat) (c : ObjectClass)
    (h : c.inherited = none) : c.ancestorAt (n + 1) = none := by
  rw [ObjectClass.ancestorAt]
  simp only [h]

theorem ObjectClass.hasDepth_zero (c : ObjectClass) :
    c.hasDepth 0 = true ↔ c.inherited = none := by
  unfold ObjectClass.hasDepth
  simp [ObjectClass.ancestorAt_zero]

theorem ObjectClass.hasDepth_succ (d : Nat) (c anc : ObjectClass) (h : c.inherited = some anc) :
    c.hasDepth (d + 1) = anc.hasDepth d := by
  unfold ObjectClass.hasDepth
  rw [ObjectClass.ancestorAt_succ d c anc h]

theorem ObjectClass.hasDepth_succ_none (d : Nat) (c : ObjectClass) (h : c.inherited = none) :
    c.hasDepth (d + 1) = false := by
  unfold ObjectClass.hasDepth
  rw [ObjectClass.ancestorAt_succ_none d c h]

theorem SuperInternal.walk_zero (c : ObjectClass) : SuperInternal.walk 0 c = c := by
  cases c
  rfl

theorem SuperInternal.walk_succ (n : Nat) (c anc : ObjectClass) (h : c.inherited = some anc) :
    SuperInternal.walk (n + 1) c = SuperInternal.walk n anc := by
  rw [SuperInternal.walk]
  simp only [h]

theorem SuperInternal.walk_none (n : Nat) (c : ObjectClass) (h : c.inherited = none) :
    SuperInternal.walk n c = c := by
  cases n with
  | zero => exact SuperInternal.walk_zero c
  | succ n =>
    rw [SuperInternal.walk]
    simp only [h]

/-- The loop of the override branch stops at the record `min k d` links down a
chain of `d` links. -/
theorem SuperInternal.walk_eq_ancestorAt (k d : Nat) (c : ObjectClass)
    (hd : c.hasDepth d = true) :
    c.ancestorAt (min k d) = some (SuperInternal.walk k c) := by
  induction k generalizing d c with
  | zero =>
    rw [Nat.zero_min, SuperInternal.walk_zero]
    rfl
  | succ k ih =>
    cases hi : c.inherited with
    | none =>
      rw [SuperInternal.walk_none _ _ hi]
      cases d with
      | zero => rfl
      | succ d =>
        rw [ObjectClass.hasDepth_succ_none d c hi] at hd
        cases hd
    | some anc =>
      rw [SuperInternal.walk_succ k c anc hi]
      cases d with
      | zero =>
        rw [(ObjectClass.hasDepth_zero c).mp hd] at hi
        cases hi
      | succ d =>
        rw [ObjectClass.hasDepth_succ d c anc hi] at hd
        rw [Nat.succ_min_succ, ObjectClass.ancestorAt_succ _ c anc hi]
        exact ih d anc hd

/-- C33: for a record whose ancestor has the same hash and whose chain has d
ancestor links, with k the value of superLevels[inheritLevel] right after the
increment: SuperInternal takes the override branch, keeps inheritLevel, leaves
the counter at k (also when k exceeds d), and calls the slot of the record
reached by following the ancestor link exactly min(k, d) times; with the
counter at 0 before, that record is the immediate ancestor, with it at 1 the
ancestor of the ancestor (when d is at least 2). -/
theorem SuperInternal_walks_min
    (invoke : Callable → Nat → ModState → Option ModState) (super anc : ObjectClass)
    (callback : ModSuper) (data : Nat) (st : ModState) (d : Nat)
    (hanc : super.inherited = some anc) (hhash : super.hash = anc.hash)
    (hd : super.hasDepth d = true) :
    (SuperInternal.enter super anc st).1 = true ∧
    (SuperInternal.enter super anc st).2.2.inheritLevel = st.inheritLevel ∧
    (SuperInternal.enter super anc st).2.2.superLevels (levelKey st.inheritLevel) =
      (st.superLevels (levelKey st.inheritLevel) + 1) % 4294967296 ∧
    super.ancestorAt (min ((st.superLevels (levelKey st.inheritLevel) + 1) % 4294967296) d) =
      some (SuperInternal.enter super anc st).2.1 ∧
    SuperInternal invoke super callback data st =
      (SuperInternal.dispatch invoke (SuperInternal.enter super anc st).2.1 callback data
        (SuperInternal.enter super anc st).2.2).map (SuperInternal.leave true st.currentMod) ∧
    (∀ f, (SuperInternal.enter super anc st).2.1.slot callback = some f →
      SuperInternal.dispatch invoke (SuperInternal.enter super anc st).2.1 callback data
          (SuperInternal.enter super anc st).2.2 =
        invoke f (if callback = ModSuper.SUPER_CREATE then data else 0)
          { (SuperInternal.enter super anc st).2.2 with
            history := (SuperInternal.enter super anc st).2.2.history ++
              [Event.target (SuperInternal.enter super anc st).2.1 callback] }) ∧
    (st.superLevels (levelKey st.inheritLevel) = 0 →
      (SuperInternal.enter super anc st).2.1 = anc) ∧
    (st.superLevels (levelKey st.inheritLevel) = 1 → ∀ anc2, anc.inherited = some anc2 →
      (SuperInternal.enter super anc st).2.1 = anc2) := by
  have he : SuperInternal.enter super anc st =
      (true, SuperInternal.walk ((st.superLevels (levelKey st.inheritLevel) + 1) % 4294967296)
        super,
       { st with superLevels := (Function.update st.superLevels (levelKey st.inheritLevel)
          ((st.superLevels (levelKey st.inheritLevel) + 1) % 4294967296)) }) := by
    unfold SuperInternal.enter
    simp only [hhash, if_true, Function.update_same]
  refine ⟨?_, ?_, ?_, ?_, ?_, ?_, ?_, ?_⟩
  · rw [he]
  · rw [he]
  · rw [he]
    simp only [Function.update_same]
  · rw [he]
    exact SuperInternal.walk_eq_ancestorAt _ d super hd
  · unfold SuperInternal
    simp only [hanc]
    rw [he]
    simp only
    cases SuperInternal.dispatch invoke _ callback data _ <;> rfl
  · intro f hf
    unfold SuperInternal.dispatch
    simp only [hf]
  · intro h0
    rw [he, h0]
    simp only
    exact SuperInternal.walk_succ 0 super anc hanc ▸ SuperInternal.walk_zero anc ▸ rfl
  · intro h1 anc2 h2
    rw [he, h1]
    simp only
    rw [show (1 + 1) % 4294967296 = 1 + 1 from rfl, SuperInternal.walk_succ 1 super anc hanc,
      SuperInternal.walk_succ 0 anc anc2 h2, SuperInternal.walk_zero]

/-- C33 on the Player table, whose live record has a chain of two links: with
the counter at 5 on entry it is left at 6 and the record resolved is the one
two links down, the end of the chain. -/
theorem SuperInternal_walks_min_witness :
    (playerState.objectClassList 0).hasDepth 2 = true ∧
    (SuperInternal.enter (playerState.objectClassList 0)
        (SuperInternal.walk 1 (playerState.objectClassList 0))
        { playerState with superLevels := fun _ => 5 }).2.2.superLevels (levelKey 0) = 6 ∧
    (playerState.objectClassList 0).ancestorAt 2 =
      some (SuperInternal.enter (playerState.objectClassList 0)
        (SuperInternal.walk 1 (playerState.objectClassList 0))
        { playerState with superLevels := fun _ => 5 }).2.1 :=
  ⟨rfl,
    (SuperInternal_walks_min (fun _ _ s => some s) (playerState.objectClassList 0)
      (SuperInternal.walk 1 (playerState.objectClassList 0)) ModSuper.SUPER_DRAW 0
      { playerState with superLevels := fun _ => 5 } 2 rfl rfl rfl).2.2.1,
    (SuperInternal_walks_min (fun _ _ s => some s) (playerState.objectClassList 0)
      (SuperInternal.walk 1 (playerState.objectClassList 0)) ModSuper.SUPER_DRAW 0
      { playerState with superLevels := fun _ => 5 } 2 rfl rfl rfl).2.2.2.1⟩

/-! ## Keys written by the scans -/

theorem isupper_tolower (c : Char) : isupper (tolower c) = false := by
  unfold tolower
  by_cases h : 65 ≤ c.toNat ∧ c.toNat ≤ 90
  · rw [if_pos h]
    have hc : c = Char.ofNat c.toNat := (Char.ofNat_toNat c).symm
    obtain ⟨h1, h2⟩ := h
    generalize c.toNat = n at hc h1 h2
    subst hc
    interval_cases n <;> rfl
  · rw [if_neg h]
    unfold isupper
    exact decide_eq_false h

theorem tolower_eq_backslash (c : Char) (h : tolower c = '\\') : c = '\\' := by
  unfold tolower at h
  by_cases hu : 65 ≤ c.toNat ∧ c.toNat ≤ 90
  · rw [if_pos hu] at h
    obtain ⟨h1, h2⟩ := hu
    generalize c.toNat = n at h h1 h2
    interval_cases n <;> exact absurd h (by decide)
  · rw [if_neg hu] at h
    exact h

theorem lowercasePath_map_tolower (s : CStr) : lowercasePath (s.map tolower) = true := by
  unfold lowercasePath
  rw [List.all_eq_true]
  intro c hc
  obtain ⟨a, _, rfl⟩ := List.mem_map.mp hc
  rw [isupper_tolower]
  rfl

theorem lowercasePath_replaceBackslash (s : CStr) (h : lowercasePath s = true) :
    lowercasePath (replaceBackslash s) = true := by
  unfold lowercasePath at h ⊢
  unfold replaceBackslash
  rw [List.all_eq_true] at h ⊢
  intro c hc
  obtain ⟨a, ha, rfl⟩ := List.mem_map.mp hc
  by_cases hb : a = '\\'
  · simp only [hb, if_true]
    rfl
  · simp only [hb, if_false]
    exact h a ha

theorem lowercasePath_scanKey (s : CStr) :
    lowercasePath (s.map (fun c => if c = '\\' then '/' else tolower c)) = true ∧
    '\\' ∉ s.map (fun c => if c = '\\' then '/' else tolower c) := by
  constructor
  · unfold lowercasePath
    rw [List.all_eq_true]
    intro c hc
    obtain ⟨a, _, rfl⟩ := List.mem_map.mp hc
    by_cases hb : a = '\\'
    · simp only [hb, if_true]
      rfl
    · simp only [hb, if_false, isupper_tolower]
      rfl
  · intro hc
    obtain ⟨a, _, ha⟩ := List.mem_map.mp hc
    by_cases hb : a = '\\'
    · simp only [hb, if_true] at ha
      exact absurd ha (by decide)
    · simp only [hb, if_false] at ha
      exact hb (tolower_eq_backslash a ha)

theorem map_insert_keys (fileMap : List (CStr × CStr)) (key value k : CStr)
    (h : k ∈ (map_insert fileMap key value).map (fun file => file.1)) :
    k ∈ fileMap.map (fun file => file.1) ∨ k = key := by
  unfold map_insert at h
  cases hl : fileMap.lookup key with
  | some v =>
    simp only [hl] at h
    exact Or.inl h
  | none =>
    simp only [hl, List.map_append, List.map_cons, List.map_nil, List.mem_append,
      List.mem_singleton] at h
    exact h

theorem scan_foldl_keys (modDir : CStr) (foundFiles : List CStr) (fileMap : List (CStr × CStr))
    (P : CStr → Prop) (hP : ∀ s : CStr, P (s.map (fun c => if c = '\\' then '/' else tolower c)))
    (h0 : ∀ k ∈ fileMap.map (fun file => file.1), P k) :
    ∀ k ∈ (foundFiles.foldl
        (fun fileMap originalRelativePath =>
          map_insert fileMap
            (originalRelativePath.map (fun c => if c = '\\' then '/' else tolower c))
            (modDir ++ "/".toList ++ originalRelativePath))
        fileMap).map (fun file => file.1), P k := by
  induction foundFiles generalizing fileMap with
  | nil => exact h0
  | cons f rest ih =>
    rw [List.foldl_cons]
    apply ih
    intro k hk
    rcases map_insert_keys _ _ _ k hk with h | h
    · exact h0 k h
    · rw [h]
      exact hP f

theorem ScanModFolder.full_keys (fs : FileSystem) (info : ModInfo) (k : CStr)
    (h : k ∈ (ScanModFolder fs info none).2.fileMap.map (fun file => file.1)) :
    lowercasePath k = true ∧ '\\' ∉ k := by
  unfold ScanModFolder at h
  simp only at h
  split at h
  · split at h
    · exact scan_foldl_keys _ _ [] (fun k => lowercasePath k = true ∧ '\\' ∉ k)
        lowercasePath_scanKey (fun k hk => absurd hk (List.not_mem_nil k)) k h
    · exact absurd h (List.not_mem_nil k)
  · exact absurd h (List.not_mem_nil k)

theorem ScanModFolder.target_keys (fs : FileSystem) (info : ModInfo) (target k : CStr)
    (h : k ∈ (ScanModFolder fs info (some target)).2.fileMap.map (fun file => file.1)) :
    k ∈ info.fileMap.map (fun file => file.1) ∨ k = target.map tolower := by
  unfold ScanModFolder at h
  simp only [ScanModFolder.targetFileStr_eq] at h
  split at h
  · exact map_insert_keys _ _ _ k h
  · exact Or.inl h

/-- C36 (the code departs from it): a full scan writes only keys without an
uppercase letter and without a backslash, and a single-file probe adds at most
the lowercased target, so no key has an uppercase letter; but the probe keeps
the backslashes of its target. On a file system that takes a backslash for a
separator, `ReloadFile("B", "Data\\X.png")` adds the key `data\\x.png`, while
the full scan of the same folder stores the file under `data/x.png`. -/
theorem ScanModFolder_probe_keeps_backslash :
    (∀ (fs : FileSystem) (info : ModInfo),
      ((ScanModFolder fs info none).2.fileMap.map (fun file => file.1)).all
        (fun k => lowercasePath k && !k.contains '\\') = true) ∧
    (∀ (fs : FileSystem) (info : ModInfo) (target : CStr),
      ((ScanModFolder fs info (some target)).2.fileMap.map (fun file => file.1)).all
        (fun k => lowercasePath k || info.fileMap.lookup k != none) = true) ∧
    (ScanModFolder separatorFs { overlayMod with fileMap := [] }
        (some "Data\\X.png".toList)).2.fileMap =
      [("data\\x.png".toList, "mods/B/data\\x.png".toList)] ∧
    (ReloadFile separatorFs [{ overlayMod with fileMap := [] }] none (some "B".toList)
        "Data\\X.png".toList).2.map (fun x => x.fileMap) =
      [[("data\\x.png".toList, "mods/B/data\\x.png".toList)]] ∧
    (ReloadAllFiles separatorFs [overlayMod] none (some "B".toList)).2.map (fun x => x.fileMap) =
      [[("data/x.png".toList, "mods/B/Data\\X.png".toList)]] := by
  refine ⟨?_, ?_, by decide, by decide, by decide⟩
  · intro fs info
    rw [List.all_eq_true]
    intro k hk
    have h := ScanModFolder.full_keys fs info k hk
    simp only [Bool.and_eq_true, Bool.not_eq_true', List.contains_eq_any_beq, List.any_eq_false]
    refine ⟨h.1, ?_⟩
    intro c hc hbeq
    have : '\\' = c := by simpa using hbeq
    exact h.2 (this ▸ hc)
  · intro fs info target
    rw [List.all_eq_true]
    intro k hk
    rcases ScanModFolder.target_keys fs info target k hk with h | h
    · have h2 : (info.fileMap.lookup k).isSome = true := (lookup_isSome_iff _ _).mpr h
      cases hl : info.fileMap.lookup k with
      | none =>
        rw [hl] at h2
        cases h2
      | some v => simp
    · rw [h, lowercasePath_map_tolower]
      rfl

/-! ## Duplicates in excludedFiles -/

/-- C37 (the code departs from it): ExcludeFile pushes a path only when the
list does not hold it, but ExcludeAllFiles pushes every key of the fileMap
without that test. From the mod `B` with an empty `excludedFiles`,
`ExcludeFile("B", "Data/x.png")` followed by `ExcludeAllFiles("B")` leaves
`data/x.png` twice in the list; ReloadFile then erases both. -/
theorem ExcludeAllFiles_pushes_duplicates :
    overlayMod.excludedFiles = [] ∧
    (ExcludeFile [overlayMod] none (some "B".toList) "Data/x.png".toList).2.map
      (fun x => x.excludedFiles) = [["data/x.png".toList]] ∧
    (ExcludeAllFiles
        (ExcludeFile [overlayMod] none (some "B".toList) "Data/x.png".toList).2
        none (some "B".toList)).2.map (fun x => x.excludedFiles) =
      [["data/x.png".toList, "data/x.png".toList]] ∧
    (ExcludeFile
        (ExcludeFile [overlayMod] none (some "B".toList) "Data/x.png".toList).2
        none (some "B".toList) "Data/x.png".toList).2.map (fun x => x.excludedFiles) =
      [["data/x.png".toList]] ∧
    (ReloadFile overlayFs
        (ExcludeAllFiles
          (ExcludeFile [overlayMod] none (some "B".toList) "Data/x.png".toList).2
          none (some "B".toList)).2
        none (some "B".toList) "Data/x.png".toList).2.map (fun x => x.excludedFiles) = [[]] := by
  refine ⟨rfl, by decide, by decide, by decide, by decide⟩

/-! ## Mod files and the data pack in LoadFile -/

/-- C38: for a `FileInfo` without an open file. When FindModFile returns a
path and the mode is one LoadFile opens files for, the only access LoadFile
makes is one `fOpen` of exactly that path: neither OpenDataFile nor a case
variation is tried, whatever `useDataPack` and the pack index hold; the file is
marked external and the result is whether that `fOpen` succeeded. When
FindModFile returns null, `externalFile` is unset, the mode is `FMODE_RB` and a
data pack is in use, the result and the `FileInfo` are those of OpenDataFile,
which is the only access. -/
theorem LoadFile_mod_file_first (env : ReaderEnv) (md5w : CStr → HashMD5)
    (fOpen : CStr → FileModes → Bool) (fileLength : CStr → Nat) (userFileDir : CStr)
    (modList : List ModInfo) (st : ReaderState) (info : FileInfo) (filename : CStr)
    (hfile : info.file = none) :
    (∀ (modFilePath : CStr) (fileMode : FileModes),
      FindModFile modList filename = some modFilePath → fileMode ≠ FileModes.FMODE_NONE →
      (LoadFile env md5w fOpen fileLength userFileDir modList st info filename fileMode).2.2 =
        [LoadFile.Access.fOpen modFilePath fileMode] ∧
      (LoadFile env md5w fOpen fileLength userFileDir modList st info filename fileMode).1 =
        fOpen modFilePath fileMode ∧
      (LoadFile env md5w fOpen fileLength userFileDir modList st info filename
        fileMode).2.1.externalFile = true ∧
      (LoadFile env md5w fOpen fileLength userFileDir modList st info filename fileMode).2.1.file =
        if fOpen modFilePath fileMode then some ( FileIO.disk modFilePath 0) else none) ∧
    (FindModFile modList filename = none → info.externalFile = false →
      st.useDataPack = true →
      LoadFile env md5w fOpen fileLength userFileDir modList st info filename
          FileModes.FMODE_RB =
        ((OpenDataFile env md5w st info filename).1, (OpenDataFile env md5w st info filename).2,
          [LoadFile.Access.OpenDataFile filename])) := by
  constructor
  · intro modFilePath fileMode hmod hmode
    unfold LoadFile
    simp only [hfile, hmod, Option.isSome_some, if_true, Option.getD_some, Bool.not_true,
      Bool.false_and, Bool.false_eq_true, if_false, Bool.true_or, Bool.true_and,
      Option.isNone_some]
    cases fileMode with
    | FMODE_NONE => exact absurd rfl hmode
    | FMODE_RB => cases hopen : fOpen modFilePath FileModes.FMODE_RB <;> simp [hopen, hfile]
    | FMODE_WB => cases hopen : fOpen modFilePath FileModes.FMODE_WB <;> simp [hopen, hfile]
    | FMODE_RB_PLUS =>
      cases hopen : fOpen modFilePath FileModes.FMODE_RB_PLUS <;> simp [hopen, hfile]
  · intro hmod hext huse
    unfold LoadFile
    simp only [hfile, hmod, Option.isSome_none, Bool.false_eq_true, if_false, hext, Bool.not_false,
      huse, Bool.and_self, decide_True, Bool.true_and, if_true]

/-- C38 with pack A in use, which holds `Data/A.bin` and `Data/B.bin`, and the
mod `B`, which holds `Data/A.bin`: loading `Data/A.bin` makes the single access
`fOpen("mods/B/Data/A.bin")` although OpenDataFile would find the name, and
loading `Data/B.bin` is the call of OpenDataFile. -/
theorem LoadFile_mod_file_first_witness :
    (OpenDataFile (exampleEnv exampleFiles) exampleMd5w stateA FileInfo.initial
      "Data/A.bin".toList).1 = true ∧
    (LoadFile (exampleEnv exampleFiles) exampleMd5w
      (fun p _ => decide (p = "mods/B/Data/A.bin".toList)) (fun _ => 10) [] [shadowMod] stateA
      FileInfo.initial "Data/A.bin".toList FileModes.FMODE_RB).2.2 =
        [LoadFile.Access.fOpen "mods/B/Data/A.bin".toList FileModes.FMODE_RB] ∧
    LoadFile (exampleEnv exampleFiles) exampleMd5w
      (fun p _ => decide (p = "mods/B/Data/A.bin".toList)) (fun _ => 10) [] [shadowMod] stateA
      FileInfo.initial "Data/B.bin".toList FileModes.FMODE_RB =
        ((OpenDataFile (exampleEnv exampleFiles) exampleMd5w stateA FileInfo.initial
            "Data/B.bin".toList).1,
          (OpenDataFile (exampleEnv exampleFiles) exampleMd5w stateA FileInfo.initial
            "Data/B.bin".toList).2,
          [LoadFile.Access.OpenDataFile "Data/B.bin".toList]) :=
  ⟨by decide,
    ((LoadFile_mod_file_first (exampleEnv exampleFiles) exampleMd5w
      (fun p _ => decide (p = "mods/B/Data/A.bin".toList)) (fun _ => 10) [] [shadowMod] stateA
      FileInfo.initial "Data/A.bin".toList rfl).1 "mods/B/Data/A.bin".toList FileModes.FMODE_RB
      (by decide) (by decide)).1,
    (LoadFile_mod_file_first (exampleEnv exampleFiles) exampleMd5w
      (fun p _ => decide (p = "mods/B/Data/A.bin".toList)) (fun _ => 10) [] [shadowMod] stateA
      FileInfo.initial "Data/B.bin".toList rfl).2 (by decide) rfl (by decide)⟩

/-- The case variations LoadFile goes through when no mod and no pack has the
name: for `Data/Scene1a.bin` the lowercase, uppercase and title-case names,
the name with the letter before the dot flipped, and the Scene heuristic. -/
theorem LoadFile.variations_example :
    LoadFile.variations "Data/Scene1a.bin".toList =
      ["Data/scene1a.bin".toList, "Data/SCENE1A.BIN".toList, "Data/Scene1a.bin".toList,
        "Data/Scene1A.bin".toList, "Data/Scene1A.bin".toList] ∧
    (LoadFile (exampleEnv exampleFiles) exampleMd5w
      (fun p _ => decide (p = "Data/Scene1A.bin".toList)) (fun _ => 10) []
      [] ReaderState.initial FileInfo.initial "Data/Scene1a.bin".toList FileModes.FMODE_RB).1 =
        true := by
  constructor <;> decide

/-! ## One registration, in closed form -/

theorem ModRegisterObject_STD.step_spec (md5 : CStr → Hash) (st : ModState) (a : RegisterArgs) :
    ∃ (idx : Nat) (anc : Option ObjectClass) (r : ObjectClass),
      (ModRegisterObject_STD md5 st a).objectClassList =
        Function.update st.objectClassList idx r ∧
      (ModRegisterObject_STD md5 st a).allocatedInherits = st.allocatedInherits ++ anc.toList ∧
      idx = registeredIndex md5 st a ∧
      r.inherited = anc ∧ r.hash = md5 a.name ∧
      r.info.entityClassSize =
        (match anc with
          | some c => max a.entityClassSize c.info.entityClassSize
          | none => a.entityClassSize) ∧
      (∀ kind, r.slot kind =
        ModRegisterObject_STD.slotFor st.currentMod idx anc.isSome kind none (a.slot kind)) ∧
      ((idx < st.objectClassCount ∧ anc = some (st.objectClassList idx) ∧
          (st.objectClassList idx).hash = md5 a.name ∧
          (ModRegisterObject_STD md5 st a).objectClassCount = st.objectClassCount) ∨
        (idx = st.objectClassCount ∧
          (ModRegisterObject_STD md5 st a).objectClassCount = st.objectClassCount + 1 ∧
          (anc = none ∨ ∃ i, i ≤ st.objectClassCount ∧ anc = some (st.objectClassList i)))) := by
  cases hf : findHash st.objectClassList (md5 a.name) st.objectClassCount with
  | some i =>
    have hi := (findHash_some _ _ _ _).mp hf
    rw [ModRegisterObject_STD.eq_found md5 st a i hf]
    refine ⟨i, some (st.objectClassList i), _, rfl, rfl, (registeredIndex_found md5 st a i hf).symm,
      rfl, rfl, ?_, ?_, Or.inl ⟨hi.1, rfl, hi.2.1, rfl⟩⟩
    · show (if (st.objectClassList i).info.entityClassSize > a.entityClassSize
        then (st.objectClassList i).info.entityClassSize else a.entityClassSize) =
          max a.entityClassSize (st.objectClassList i).info.entityClassSize
      split_ifs with h
      · exact (Nat.max_eq_right (Nat.le_of_lt h)).symm
      · exact (Nat.max_eq_left (Nat.le_of_not_lt h)).symm
    · intro kind
      cases kind <;> rfl
  | none =>
    rw [ModRegisterObject_STD.eq_fresh md5 st a _ hf rfl]
    refine ⟨st.objectClassCount, _, _, rfl, rfl, (registeredIndex_fresh md5 st a hf).symm,
      rfl, rfl, ?_, ?_, Or.inr ⟨rfl, rfl, ?_⟩⟩
    · generalize (a.inherited.bind (fun inh =>
        (findHash st.objectClassList (md5 inh) (st.objectClassCount + 1)).map
          st.objectClassList)) = anc
      cases anc with
      | none => rfl
      | some c =>
        show (if c.info.entityClassSize > a.entityClassSize
          then c.info.entityClassSize else a.entityClassSize) =
            max a.entityClassSize c.info.entityClassSize
        split_ifs with h
        · exact (Nat.max_eq_right (Nat.le_of_lt h)).symm
        · exact (Nat.max_eq_left (Nat.le_of_not_lt h)).symm
    · intro kind
      cases kind <;> rfl
    · cases hinh : a.inherited with
      | none => exact Or.inl rfl
      | some inh =>
        cases h2 : findHash st.objectClassList (md5 inh) (st.objectClassCount + 1) with
        | none =>
          left
          simp [Option.bind, h2]
        | some i =>
          right
          have hi := (findHash_some _ _ _ _).mp h2
          exact ⟨i, Nat.le_of_lt_succ hi.1, by simp [Option.bind, h2]⟩

theorem registerBy.spec (md5 : CStr → Hash) (st : ModState)
    (r : Option Nat × RegisterArgs) :
    ∃ (idx : Nat) (anc : Option ObjectClass) (c : ObjectClass),
      (registerBy md5 st r).objectClassList = Function.update st.objectClassList idx c ∧
      (registerBy md5 st r).allocatedInherits = st.allocatedInherits ++ anc.toList ∧
      idx = registeredIndex md5 st r.2 ∧
      c.inherited = anc ∧ c.hash = md5 r.2.name ∧
      c.info.entityClassSize =
        (match anc with
          | some c0 => max r.2.entityClassSize c0.info.entityClassSize
          | none => r.2.entityClassSize) ∧
      (∀ kind, c.slot kind =
        ModRegisterObject_STD.slotFor r.1 idx anc.isSome kind none (r.2.slot kind)) ∧
      ((idx < st.objectClassCount ∧ anc = some (st.objectClassList idx) ∧
          (st.objectClassList idx).hash = md5 r.2.name ∧
          (registerBy md5 st r).objectClassCount = st.objectClassCount) ∨
        (idx = st.objectClassCount ∧
          (registerBy md5 st r).objectClassCount = st.objectClassCount + 1 ∧
          (anc = none ∨ ∃ i, i ≤ st.objectClassCount ∧ anc = some (st.objectClassList i)))) :=
  ModRegisterObject_STD.step_spec md5 { st with currentMod := r.1 } r.2

theorem registerAll_induction (md5 : CStr → Hash) (I : Nat → ModState → Prop)
    (regs : List (Option Nat × RegisterArgs))
    (hstep : ∀ n st r, r ∈ regs → I n st → I (n + 1) (registerBy md5 st r)) :
    ∀ n base, I n base → I (n + regs.length) (registerAll md5 base regs) := by
  induction regs with
  | nil =>
    intro n base h
    exact h
  | cons r rest ih =>
    intro n base h
    have h1 := hstep n base r (List.mem_cons_self _ _) h
    have h2 := ih (fun n st r1 hr => hstep n st r1 (List.mem_cons_of_mem _ hr)) (n + 1)
      (registerBy md5 base r) h1
    have e : n + (r :: rest).length = n + 1 + rest.length := by
      rw [List.length_cons]
      omega
    rw [e]
    exact h2

theorem RegisterObject_STD.inherited_none (md5 : CStr → Hash) (st : ModState) (staticVars : Nat)
    (name : CStr) (entityClassSize staticClassSize : Nat)
    (update lateUpdate staticUpdate draw create stageLoad editorDraw editorLoad serialize
      staticLoad : Option Callable)
    (h : ∀ i, (st.objectClassList i).inherited = none) (i : Nat) :
    ((RegisterObject_STD md5 st staticVars name entityClassSize staticClassSize
      update lateUpdate staticUpdate draw create stageLoad editorDraw editorLoad serialize
      staticLoad).objectClassList i).inherited = none := by
  unfold RegisterObject_STD
  simp only
  by_cases hi : i = st.objectClassCount
  · rw [hi, Function.update_same]
    rfl
  · rw [Function.update_noteq hi]
    exact h i

/-! ## The entity size along a chain -/

theorem registerBy.size_chain (md5 : CStr → Hash) (st : ModState)
    (r : Option Nat × RegisterArgs)
    (h : ∀ idx k anc, (SuperInternal.walk k (st.objectClassList idx)).inherited = some anc →
      anc.info.entityClassSize ≤
        (SuperInternal.walk k (st.objectClassList idx)).info.entityClassSize) :
    ∀ idx k anc,
      (SuperInternal.walk k ((registerBy md5 st r).objectClassList idx)).inherited = some anc →
      anc.info.entityClassSize ≤
        (SuperInternal.walk k ((registerBy md5 st r).objectClassList idx)).info.entityClassSize := by
  obtain ⟨i0, anc0, c, htab, -, -, hinh, -, hsize, -, hcase⟩ := registerBy.spec md5 st r
  intro idx k anc
  rw [htab]
  by_cases hidx : idx = i0
  · rw [hidx, Function.update_same]
    cases hanc0 : anc0 with
    | none =>
      rw [hanc0] at hinh
      rw [SuperInternal.walk_none k c hinh, hinh]
      intro hc
      cases hc
    | some c0 =>
      rw [hanc0] at hinh hsize
      have hc0 : ∃ i, c0 = st.objectClassList i := by
        rcases hcase with ⟨-, h1, -⟩ | ⟨-, -, h1⟩
        · rw [hanc0] at h1
          exact ⟨i0, Option.some.inj h1⟩
        · rcases h1 with h1 | ⟨i, -, h1⟩
          · rw [hanc0] at h1
            cases h1
          · rw [hanc0] at h1
            exact ⟨i, Option.some.inj h1⟩
      obtain ⟨i, hi⟩ := hc0
      cases k with
      | zero =>
        rw [SuperInternal.walk_zero, hinh]
        intro hc
        rw [← Option.some.inj hc, hsize]
        exact Nat.le_max_right _ _
      | succ k =>
        rw [SuperInternal.walk_succ k c c0 hinh, hi]
        exact h i k anc
  · rw [Function.update_noteq hidx]
    exact h idx k anc

/-- C39: a registration by ModRegisterObject_STD that resolves an ancestor
leaves a record whose entity size is the maximum of the requested size and the
ancestor's size, and one that resolves none leaves the requested size. In every
table reached by registrations from a table whose records have no ancestor,
the entity size of a record on a chain is at least that of its ancestor. -/
theorem ModRegisterObject_STD_entity_size (md5 : CStr → Hash) (base : ModState)
    (regs : List (Option Nat × RegisterArgs))
    (hbase : ∀ i, (base.objectClassList i).inherited = none) :
    (∀ (st : ModState) (a : RegisterArgs),
      (∀ anc,
        ((ModRegisterObject_STD md5 st a).objectClassList
          (registeredIndex md5 st a)).inherited = some anc →
        ((ModRegisterObject_STD md5 st a).objectClassList
          (registeredIndex md5 st a)).info.entityClassSize =
            max a.entityClassSize anc.info.entityClassSize) ∧
      (((ModRegisterObject_STD md5 st a).objectClassList
          (registeredIndex md5 st a)).inherited = none →
        ((ModRegisterObject_STD md5 st a).objectClassList
          (registeredIndex md5 st a)).info.entityClassSize = a.entityClassSize)) ∧
    (∀ idx k anc,
      (SuperInternal.walk k ((registerAll md5 base regs).objectClassList idx)).inherited =
        some anc →
      anc.info.entityClassSize ≤
        (SuperInternal.walk k
          ((registerAll md5 base regs).objectClassList idx)).info.entityClassSize) := by
  constructor
  · intro st a
    obtain ⟨i0, anc0, c, htab, -, hidx, hinh, -, hsize, -, -⟩ :=
      ModRegisterObject_STD.step_spec md5 st a
    rw [htab, ← hidx, Function.update_same, hinh]
    constructor
    · intro anc hanc
      rw [hsize, hanc]
    · intro hanc
      rw [hsize, hanc]
  · have h := registerAll_induction md5
      (fun _ st => ∀ idx k anc,
        (SuperInternal.walk k (st.objectClassList idx)).inherited = some anc →
        anc.info.entityClassSize ≤
          (SuperInternal.walk k (st.objectClassList idx)).info.entityClassSize)
      regs (fun _ st r _ hI => registerBy.size_chain md5 st r hI) 0 base
      (by
        intro idx k anc hk
        rw [SuperInternal.walk_none k _ (hbase idx), hbase idx] at hk
        cases hk)
    exact h

/-- C39 on the table of `Enemy` (entity size 32): `Boss`, registered with size
16 and the ancestor name `Enemy`, gets the entity size 32, and a second
registration of `Boss` with size 64 gets 64 above the 32 of its ancestor. -/
theorem ModRegisterObject_STD_entity_size_witness :
    ((ModRegisterObject_STD exampleMd5 enemyState smallBossArgs).objectClassList
      (registeredIndex exampleMd5 enemyState smallBossArgs)).info.entityClassSize = 32 ∧
    (∀ idx k anc,
      (SuperInternal.walk k ((registerAll exampleMd5 enemyState
        [(some 1, smallBossArgs),
          (some 2, exampleArgs "Boss".toList none none)]).objectClassList idx)).inherited =
        some anc →
      anc.info.entityClassSize ≤
        (SuperInternal.walk k ((registerAll exampleMd5 enemyState
          [(some 1, smallBossArgs),
            (some 2, exampleArgs "Boss".toList none none)]).objectClassList
              idx)).info.entityClassSize) :=
  ⟨((ModRegisterObject_STD_entity_size exampleMd5 enemyState [] (fun i =>
      RegisterObject_STD.inherited_none exampleMd5 initialState 0 "Enemy".toList 32 8
        none none none none none none none none none none (fun _ => rfl) i)).1
      enemyState smallBossArgs).1 (enemyState.objectClassList 0) rfl,
    (ModRegisterObject_STD_entity_size exampleMd5 enemyState
      [(some 1, smallBossArgs), (some 2, exampleArgs "Boss".toList none none)] (fun i =>
      RegisterObject_STD.inherited_none exampleMd5 initialState 0 "Enemy".toList 32 8
        none none none none none none none none none none (fun _ => rfl) i)).2⟩

/-! ## Ancestor chains end -/

theorem HeapChain.mono (heap ext : List ObjectClass) (d b b2 : Nat) (c : ObjectClass)
    (hb : b ≤ b2) (h : HeapChain heap d b c) : HeapChain (heap ++ ext) d b2 c := by
  induction d generalizing b b2 c with
  | zero => exact h
  | succ d ih =>
    obtain ⟨p, anc, hp, hheap, hinh, hrest⟩ := h
    refine ⟨p, anc, Nat.lt_of_lt_of_le hp hb, ?_, hinh, ih p p anc (Nat.le_refl p) hrest⟩
    have hlt : p < heap.length := getElem?_lt_length _ _ _ hheap
    rw [List.getElem?_append_left hlt]
    exact hheap

theorem HeapChain.hasDepth (heap : List ObjectClass) (d b : Nat) (c : ObjectClass)
    (h : HeapChain heap d b c) : c.hasDepth d = true := by
  induction d generalizing b c with
  | zero => exact (ObjectClass.hasDepth_zero c).mpr h
  | succ d ih =>
    obtain ⟨p, anc, -, -, hinh, hrest⟩ := h
    rw [ObjectClass.hasDepth_succ d c anc hinh]
    exact ih p anc hrest

theorem ObjectClass.hasDepth_unique (d1 d2 : Nat) (c : ObjectClass)
    (h1 : c.hasDepth d1 = true) (h2 : c.hasDepth d2 = true) : d1 = d2 := by
  induction d1 generalizing d2 c with
  | zero =>
    have hn := (ObjectClass.hasDepth_zero c).mp h1
    cases d2 with
    | zero => rfl
    | succ d2 =>
      rw [ObjectClass.hasDepth_succ_none d2 c hn] at h2
      cases h2
  | succ d1 ih =>
    cases hi : c.inherited with
    | none =>
      rw [ObjectClass.hasDepth_succ_none d1 c hi] at h1
      cases h1
    | some anc =>
      rw [ObjectClass.hasDepth_succ d1 c anc hi] at h1
      cases d2 with
      | zero =>
        rw [(ObjectClass.hasDepth_zero c).mp h2] at hi
        cases hi
      | succ d2 =>
        rw [ObjectClass.hasDepth_succ d2 c anc hi] at h2
        rw [ih d2 anc h1 h2]

theorem registerBy.heap_chain (md5 : CStr → Hash) (st : ModState)
    (r : Option Nat × RegisterArgs) (n : Nat)
    (h : ∀ idx, ∃ d, d ≤ n ∧
      HeapChain st.allocatedInherits d st.allocatedInherits.length (st.objectClassList idx)) :
    ∀ idx, ∃ d, d ≤ n + 1 ∧
      HeapChain (registerBy md5 st r).allocatedInherits d
        (registerBy md5 st r).allocatedInherits.length
        ((registerBy md5 st r).objectClassList idx) := by
  obtain ⟨i0, anc0, c, htab, hheap, -, hinh, -, -, -, hcase⟩ := registerBy.spec md5 st r
  intro idx
  rw [htab, hheap]
  by_cases hidx : idx = i0
  · rw [hidx, Function.update_same]
    cases hanc0 : anc0 with
    | none =>
      rw [hanc0] at hinh
      exact ⟨0, Nat.zero_le _, hinh⟩
    | some c0 =>
      rw [hanc0] at hinh
      have hc0 : ∃ i, c0 = st.objectClassList i := by
        rcases hcase with ⟨-, h1, -⟩ | ⟨-, -, h1⟩
        · rw [hanc0] at h1
          exact ⟨i0, Option.some.inj h1⟩
        · rcases h1 with h1 | ⟨i, -, h1⟩
          · rw [hanc0] at h1
            cases h1
          · rw [hanc0] at h1
            exact ⟨i, Option.some.inj h1⟩
      obtain ⟨i, hi⟩ := hc0
      obtain ⟨d, hd, hchain⟩ := h i
      refine ⟨d + 1, Nat.succ_le_succ hd, st.allocatedInherits.length, c0, ?_, ?_, hinh, ?_⟩
      · simp
      · simp
      · rw [hi]
        exact HeapChain.mono _ _ d _ _ _ (Nat.le_refl _) hchain
  · rw [Function.update_noteq hidx]
    obtain ⟨d, hd, hchain⟩ := h idx
    exact ⟨d, Nat.le_succ_of_le hd,
      HeapChain.mono _ _ d _ _ _ (by simp) hchain⟩

/-- C34: in every table reached by ModRegisterObject_STD calls from a table
whose records have no ancestor, each record has a chain of some number d of
links, at most the number of registrations: following the ancestor link d
times reaches a record with a null ancestor, and the ancestors are clones kept
in allocatedInherits at strictly falling positions, so no record is met twice.
The record a further registration writes has as ancestor, when it has one, the
copy of a record of the table before the call, and its chain is one link
longer than the chain of that record. -/
theorem ancestor_chain_ends (md5 : CStr → Hash) (base : ModState)
    (regs : List (Option Nat × RegisterArgs))
    (hbase : ∀ i, (base.objectClassList i).inherited = none) :
    (∀ idx, ∃ d, d ≤ regs.length ∧
      HeapChain (registerAll md5 base regs).allocatedInherits d
        (registerAll md5 base regs).allocatedInherits.length
        ((registerAll md5 base regs).objectClassList idx) ∧
      ((registerAll md5 base regs).objectClassList idx).hasDepth d = true ∧
      ∀ d2, ((registerAll md5 base regs).objectClassList idx).hasDepth d2 = true → d2 = d) ∧
    (∀ (r : Option Nat × RegisterArgs) (c0 : ObjectClass),
      ((registerBy md5 (registerAll md5 base regs) r).objectClassList
        (registeredIndex md5 (registerAll md5 base regs) r.2)).inherited = some c0 →
      (∃ i, i ≤ (registerAll md5 base regs).objectClassCount ∧
        c0 = (registerAll md5 base regs).objectClassList i) ∧
      ∀ d, c0.hasDepth d = true →
        ((registerBy md5 (registerAll md5 base regs) r).objectClassList
          (registeredIndex md5 (registerAll md5 base regs) r.2)).hasDepth (d + 1) = true) := by
  constructor
  · intro idx
    have h := registerAll_induction md5
      (fun n st => ∀ idx, ∃ d, d ≤ n ∧
        HeapChain st.allocatedInherits d st.allocatedInherits.length (st.objectClassList idx))
      regs (fun n st r _ hI => registerBy.heap_chain md5 st r n hI) 0 base
      (fun idx => ⟨0, Nat.le_refl 0, hbase idx⟩)
    obtain ⟨d, hd, hchain⟩ := h idx
    have hdep := HeapChain.hasDepth _ d _ _ hchain
    exact ⟨d, by omega, hchain, hdep, fun d2 h2 => ObjectClass.hasDepth_unique d2 d _ h2 hdep⟩
  · intro r c0 hc0
    obtain ⟨i0, anc0, c, htab, -, hidx, hinh, -, -, -, hcase⟩ :=
      registerBy.spec md5 (registerAll md5 base regs) r
    rw [htab, ← hidx, Function.update_same] at hc0 ⊢
    rw [hinh] at hc0
    constructor
    · rcases hcase with ⟨hlt, h1, -⟩ | ⟨-, -, h1⟩
      · rw [hc0] at h1
        exact ⟨i0, Nat.le_of_lt hlt, Option.some.inj h1⟩
      · rcases h1 with h1 | ⟨i, hi, h1⟩
        · rw [hc0] at h1
          cases h1
        · rw [hc0] at h1
          exact ⟨i, hi, Option.some.inj h1⟩
    · intro d hd
      rw [ObjectClass.hasDepth_succ d c c0 (hinh.trans hc0)]
      exact hd

/-- C34 on the Player table, three registrations of one class from the empty
table: the live record has a chain that ends, and a fourth registration of
Player gets the copy of the live record as ancestor. -/
theorem ancestor_chain_ends_witness :
    (∃ d, d ≤ 3 ∧
      HeapChain playerState.allocatedInherits d playerState.allocatedInherits.length
        (playerState.objectClassList 0) ∧
      (playerState.objectClassList 0).hasDepth d = true ∧
      ∀ d2, (playerState.objectClassList 0).hasDepth d2 = true → d2 = d) ∧
    (playerState.objectClassList 0).hasDepth 2 = true ∧
    ((registerBy exampleMd5 playerState
      (some 4, exampleArgs "Player".toList none none)).objectClassList 0).hasDepth 3 = true :=
  ⟨(ancestor_chain_ends exampleMd5 initialState
      [(some 1, exampleArgs "Player".toList none none),
       (some 2, exampleArgs "Player".toList none none),
       (some 3, exampleArgs "Player".toList (some playerDraw) none)] (fun _ => rfl)).1 0,
    rfl,
    ((ancestor_chain_ends exampleMd5 initialState
      [(some 1, exampleArgs "Player".toList none none),
       (some 2, exampleArgs "Player".toList none none),
       (some 3, exampleArgs "Player".toList (some playerDraw) none)] (fun _ => rfl)).2
      (some 4, exampleArgs "Player".toList none none) (playerState.objectClassList 0) rfl).2 2 rfl⟩

/-! ## Termination of Super dispatch -/

theorem SuperInternal.walk_stable (n m : Nat) (c : ObjectClass)
    (h : (SuperInternal.walk n c).inherited = none) (hm : n ≤ m) :
    SuperInternal.walk m c = SuperInternal.walk n c := by
  induction n generalizing m c with
  | zero =>
    rw [SuperInternal.walk_zero] at h
    rw [SuperInternal.walk_zero, SuperInternal.walk_none m c h]
  | succ n ih =>
    cases hi : c.inherited with
    | none => rw [SuperInternal.walk_none _ c hi, SuperInternal.walk_none _ c hi]
    | some anc =>
      rw [SuperInternal.walk_succ n c anc hi] at h ⊢
      obtain ⟨m1, rfl⟩ : ∃ m1, m = m1 + 1 := ⟨m - 1, by omega⟩
      rw [SuperInternal.walk_succ m1 c anc hi]
      exact ih m1 anc h (by omega)

theorem SuperInternal.walk_chain (P : ObjectClass → Prop) (c : ObjectClass) (hc : P c)
    (hanc : ∀ c0, c.inherited = some c0 → ∀ n, P (SuperInternal.walk n c0)) :
    ∀ n, P (SuperInternal.walk n c) := by
  intro n
  cases n with
  | zero =>
    rw [SuperInternal.walk_zero]
    exact hc
  | succ n =>
    cases hi : c.inherited with
    | none =>
      rw [SuperInternal.walk_none _ c hi]
      exact hc
    | some c0 =>
      rw [SuperInternal.walk_succ n c c0 hi]
      exact hanc c0 hi n

theorem ObjectClass.targetsBelow_mono (b b2 : Nat) (c : ObjectClass) (hb : b ≤ b2)
    (h : c.targetsBelow b) : c.targetsBelow b2 :=
  fun kind f j hf hj => Nat.lt_of_lt_of_le (h kind f j hf hj) hb

theorem ModSuper.mem_kinds (kind : ModSuper) : kind ∈ ModSuper.kinds := by
  cases kind <;> simp [ModSuper.kinds]

theorem RegisterArgs.callsNoSuper_slot (a : RegisterArgs) (h : a.callsNoSuper = true)
    (kind : ModSuper) (fn : UserFn) (hfn : a.slot kind = some fn) :
    UserFn.callsNoSuper fn = true := by
  unfold RegisterArgs.callsNoSuper at h
  rw [Bool.and_eq_true, List.all_eq_true] at h
  have h1 := h.1 kind (ModSuper.mem_kinds kind)
  rw [hfn] at h1
  exact h1

theorem RegisterArgs.callsNoSuper_staticLoad (a : RegisterArgs) (h : a.callsNoSuper = true)
    (fn : UserFn) (hfn : a.staticLoad = some fn) : UserFn.callsNoSuper fn = true := by
  unfold RegisterArgs.callsNoSuper at h
  rw [Bool.and_eq_true] at h
  have h1 := h.2
  rw [hfn] at h1
  exact h1

theorem slotFor_cases (curMod : Option Nat) (info : Nat) (hasInherit : Bool) (kind : ModSuper)
    (fn : Option UserFn) (f : Callable)
    (h : ModRegisterObject_STD.slotFor curMod info hasInherit kind none fn = some f) :
    (∃ g, fn = some g ∧ f = Callable.wrapped curMod g) ∨
    (fn = none ∧ hasInherit = true ∧ f = Callable.superCall curMod info kind) := by
  unfold ModRegisterObject_STD.slotFor at h
  cases fn with
  | some g =>
    simp only at h
    exact Or.inl ⟨g, rfl, (Option.some.inj h).symm⟩
  | none =>
    simp only at h
    cases hasInherit with
    | true =>
      simp only [if_true] at h
      exact Or.inr ⟨rfl, rfl, (Option.some.inj h).symm⟩
    | false =>
      simp only [Bool.false_eq_true, if_false] at h
      cases h

theorem DispatchInvariant.of_original (table : Nat → ObjectClass) (count : Nat)
    (h : ∀ i, (table i).original) : DispatchInvariant table count 0 where
  sound := by
    intro i n
    rw [SuperInternal.walk_none n _ (h i).1]
    intro kind f hf
    refine ⟨((h i).2.1 kind f hf).1, ?_⟩
    intro ht
    exact absurd ((h i).2.1 kind f hf).2 ht
  targets := by
    intro i n
    rw [SuperInternal.walk_none n _ (h i).1]
    intro kind f j hf hj
    rw [((h i).2.1 kind f hf).2] at hj
    cases hj
  inherit := by
    intro i anc hanc
    rw [(h i).1] at hanc
    cases hanc
  depth := by
    intro i
    rw [SuperInternal.walk_zero]
    exact (h i).1
  tail := by
    intro i _
    refine ⟨(h i).1, ?_⟩
    intro kind f j hf hj
    rw [((h i).2.1 kind f hf).2] at hj
    cases hj

theorem registerBy.keeps_invariant (md5 : CStr → Hash) (st : ModState)
    (r : Option Nat × RegisterArgs) (D : Nat)
    (inv : DispatchInvariant st.objectClassList st.objectClassCount D)
    (hr : r.2.callsNoSuper = true) :
    DispatchInvariant (registerBy md5 st r).objectClassList
      (registerBy md5 st r).objectClassCount (D + 1) := by
  obtain ⟨i0, anc0, c, htab, -, -, hinh, hhash, -, hslot, hcase⟩ := registerBy.spec md5 st r
  -- the new record on its own
  have hsound : c.slotsSound := by
    intro kind f hf
    rw [hslot kind] at hf
    rcases slotFor_cases _ _ _ _ _ _ hf with ⟨g, hg, rfl⟩ | ⟨-, hsome, rfl⟩
    · refine ⟨RegisterArgs.callsNoSuper_slot r.2 hr kind g hg, ?_⟩
      intro ht
      exact absurd rfl ht
    · refine ⟨rfl, ?_⟩
      intro _ hn
      rw [hinh] at hn
      rw [hn] at hsome
      cases hsome
  have htargets : c.targetsBelow (i0 + 1) := by
    intro kind f j hf hj
    rw [hslot kind] at hf
    rcases slotFor_cases _ _ _ _ _ _ hf with ⟨g, -, rfl⟩ | ⟨-, -, rfl⟩
    · cases hj
    · have : i0 = j := Option.some.inj hj
      omega
  -- the ancestor is a record of the old table, at an index up to that of the new record
  have hanc : ∀ c0, c.inherited = some c0 →
      ∃ ia, ia ≤ i0 ∧ c0 = st.objectClassList ia ∧
        (c.hash ≠ c0.hash → ia < i0 ∨ st.objectClassCount ≤ ia) := by
    intro c0 hc0
    rw [hinh] at hc0
    rcases hcase with ⟨-, h1, h2, -⟩ | ⟨h0, -, h1⟩
    · rw [hc0] at h1
      have e : c0 = st.objectClassList i0 := Option.some.inj h1
      refine ⟨i0, Nat.le_refl _, e, ?_⟩
      intro hne
      rw [hhash, e, h2] at hne
      exact absurd rfl hne
    · rcases h1 with h1 | ⟨ia, hia, h1⟩
      · rw [hc0] at h1
        cases h1
      · rw [hc0] at h1
        refine ⟨ia, by omega, Option.some.inj h1, ?_⟩
        intro _
        omega
  have hcount : i0 < (registerBy md5 st r).objectClassCount ∧
      st.objectClassCount ≤ (registerBy md5 st r).objectClassCount := by
    rcases hcase with ⟨h0, -, -, h3⟩ | ⟨h0, h3, -⟩
    · rw [h3]
      exact ⟨h0, Nat.le_refl _⟩
    · rw [h3, h0]
      exact ⟨Nat.lt_succ_self _, Nat.le_succ _⟩
  rw [htab]
  refine ⟨?_, ?_, ?_, ?_, ?_⟩
  · intro i
    by_cases hi : i = i0
    · rw [hi, Function.update_same]
      apply SuperInternal.walk_chain _ c hsound
      intro c0 hc0 n
      obtain ⟨ia, -, e, -⟩ := hanc c0 hc0
      rw [e]
      exact inv.sound ia n
    · rw [Function.update_noteq hi]
      exact inv.sound i
  · intro i
    by_cases hi : i = i0
    · rw [hi, Function.update_same]
      apply SuperInternal.walk_chain _ c htargets
      intro c0 hc0 n
      obtain ⟨ia, hia, e, -⟩ := hanc c0 hc0
      rw [e]
      exact ObjectClass.targetsBelow_mono _ _ _ (by omega) (inv.targets ia n)
    · rw [Function.update_noteq hi]
      exact inv.targets i
  · intro i
    by_cases hi : i = i0
    · rw [hi, Function.update_same]
      intro c0 hc0 hne n
      obtain ⟨ia, -, e, hlt⟩ := hanc c0 hc0
      rw [e]
      rcases hlt hne with h1 | h1
      · exact ObjectClass.targetsBelow_mono _ _ _ (by omega) (inv.targets ia n)
      · have ht := inv.tail ia h1
        rw [SuperInternal.walk_none n _ ht.1]
        exact ObjectClass.targetsBelow_mono _ _ _ (Nat.zero_le _) ht.2
    · rw [Function.update_noteq hi]
      exact inv.inherit i
  · intro i
    by_cases hi : i = i0
    · rw [hi, Function.update_same]
      cases hc0 : c.inherited with
      | none =>
        rw [SuperInternal.walk_none _ c hc0]
        exact hc0
      | some c0 =>
        rw [SuperInternal.walk_succ D c c0 hc0]
        obtain ⟨ia, -, e, -⟩ := hanc c0 hc0
        rw [e]
        exact inv.depth ia
    · rw [Function.update_noteq hi]
      have h := inv.depth i
      rw [SuperInternal.walk_stable D (D + 1) _ h (Nat.le_succ D)]
      exact h
  · intro i hi
    have hne : i ≠ i0 := by omega
    rw [Function.update_noteq hne]
    exact inv.tail i (by omega)

theorem runUser_callsNoSuper (inv : Callable → Nat → ModState → Option ModState) (arg : Nat)
    (fn : UserFn) (st : ModState) (h : UserFn.callsNoSuper fn = true) :
    (runUser inv arg fn st).isSome = true := by
  induction fn generalizing st with
  | nil => rfl
  | cons s rest ih =>
    unfold UserFn.callsNoSuper at h
    rw [List.all_cons, Bool.and_eq_true] at h
    cases s with
    | emit tag =>
      unfold runUser runStmt
      simp only
      exact ih _ h.2
    | super classID callback data =>
      have h1 := h.1
      simp only at h1
      cases h1

theorem Callable.call_isSome (inv : Callable → Nat → ModState → Option ModState)
    (f : Callable) (arg : Nat) (s : ModState) (hf : f.callsNoSuper = true)
    (hsuper : ∀ m j cb, f = Callable.superCall m j cb →
      (SuperInternal inv (s.objectClassList j) cb
        (if cb = ModSuper.SUPER_CREATE then arg else 0) { s with currentMod := m }).isSome = true) :
    (Callable.call inv f arg s).isSome = true := by
  cases f with
  | plain fn =>
    simp only [Callable.call]
    exact runUser_callsNoSuper inv arg fn s hf
  | wrapped curMod fn =>
    simp only [Callable.call]
    have h := runUser_callsNoSuper inv arg fn { s with currentMod := curMod } hf
    cases hr : runUser inv arg fn { s with currentMod := curMod } with
    | none =>
      rw [hr] at h
      cases h
    | some s1 => rfl
  | superCall curMod info callback =>
    simp only [Callable.call]
    have h := hsuper curMod info callback rfl
    cases hr : SuperInternal inv (s.objectClassList info) callback
        (if callback = ModSuper.SUPER_CREATE then arg else 0) { s with currentMod := curMod } with
    | none =>
      rw [hr] at h
      cases h
    | some s1 => rfl

theorem SuperInternal.dispatch_isSome (inv : Callable → Nat → ModState → Option ModState)
    (target : ObjectClass) (callback : ModSuper) (data : Nat) (s : ModState)
    (h : ∀ f, target.slot callback = some f →
      (inv f (if callback = ModSuper.SUPER_CREATE then data else 0)
        { s with history := s.history ++ [Event.target target callback] }).isSome = true) :
    (SuperInternal.dispatch inv target callback data s).isSome = true := by
  unfold SuperInternal.dispatch
  cases hf : target.slot callback with
  | none => rfl
  | some f => exact h f hf

theorem SuperInternal.isSome_of_dispatch (inv : Callable → Nat → ModState → Option ModState)
    (super anc : ObjectClass) (callback : ModSuper) (data : Nat) (st : ModState)
    (hanc : super.inherited = some anc)
    (h : (SuperInternal.dispatch inv (SuperInternal.enter super anc st).2.1 callback data
      (SuperInternal.enter super anc st).2.2).isSome = true) :
    (SuperInternal inv super callback data st).isSome = true := by
  unfold SuperInternal
  simp only [hanc]
  cases hd : SuperInternal.dispatch inv (SuperInternal.enter super anc st).2.1 callback data
      (SuperInternal.enter super anc st).2.2 with
  | none =>
    rw [hd] at h
    cases h
  | some s1 => rfl

theorem SuperInternal.terminates (count D : Nat) :
    ∀ (fuel : Nat) (st : ModState) (idx : Nat) (kind : ModSuper) (data : Nat),
      DispatchInvariant st.objectClassList count D →
      (∀ key, st.superLevels key + idx ≤ 4294967294) →
      D + idx ≤ 4294967294 →
      idx * (D + 2) + (D + 1 - st.superLevels (levelKey st.inheritLevel)) < fuel →
      (SuperInternal (invoke fuel) (st.objectClassList idx) kind data st).isSome = true := by
  intro fuel
  induction fuel with
  | zero =>
    intro st idx kind data _ _ _ hm
    exact absurd hm (Nat.not_lt_zero _)
  | succ fuel ih =>
    intro st idx kind data inv hctr hD hm
    cases hanc : (st.objectClassList idx).inherited with
    | none =>
      unfold SuperInternal
      simp only [hanc]
      rfl
    | some anc =>
      apply SuperInternal.isSome_of_dispatch _ _ anc _ _ _ hanc
      have hc := hctr (levelKey st.inheritLevel)
      have hk : (st.superLevels (levelKey st.inheritLevel) + 1) % 4294967296 =
          st.superLevels (levelKey st.inheritLevel) + 1 := Nat.mod_eq_of_lt (by omega)
      by_cases hh : (st.objectClassList idx).hash = anc.hash
      · -- entity override
        rw [SuperInternal.enter_override _ _ _ hh, hk]
        apply SuperInternal.dispatch_isSome
        intro f hf
        have hs := inv.sound idx (st.superLevels (levelKey st.inheritLevel) + 1) kind f hf
        apply Callable.call_isSome _ _ _ _ hs.1
        intro m j cb hfj
        have htj : f.target = some j := by
          rw [hfj]
          rfl
        have hj := inv.targets idx (st.superLevels (levelKey st.inheritLevel) + 1) kind f j hf htj
        have hdeep : st.superLevels (levelKey st.inheritLevel) + 1 < D := by
          by_contra hge
          have hst := SuperInternal.walk_stable D
            (st.superLevels (levelKey st.inheritLevel) + 1) _ (inv.depth idx) (by omega)
          have hne := hs.2 (by rw [htj]; exact Option.some_ne_none j)
          rw [hst] at hne
          exact hne (inv.depth idx)
        have hmul : j * (D + 2) ≤ idx * (D + 2) := Nat.mul_le_mul_right _ (by omega)
        have key : ∀ (s2 : ModState) (arg2 : Nat), s2.objectClassList = st.objectClassList →
            s2.superLevels = Function.update st.superLevels (levelKey st.inheritLevel)
              (st.superLevels (levelKey st.inheritLevel) + 1) →
            s2.inheritLevel = st.inheritLevel →
            (SuperInternal (invoke fuel) (s2.objectClassList j) cb arg2 s2).isSome = true := by
          intro s2 arg2 h1 h2 h3
          refine ih s2 j cb arg2 (h1 ▸ inv) ?_ ?_ ?_
          · intro key
            rw [h2]
            by_cases hkey : key = levelKey st.inheritLevel
            · rw [hkey, Function.update_same]
              omega
            · rw [Function.update_noteq hkey]
              have := hctr key
              omega
          · omega
          · rw [h2, h3, Function.update_same]
            omega
        exact key
          { st with
            currentMod := m,
            superLevels := Function.update st.superLevels (levelKey st.inheritLevel)
              (st.superLevels (levelKey st.inheritLevel) + 1),
            history := st.history ++
              [Event.target (SuperInternal.walk (st.superLevels (levelKey st.inheritLevel) + 1)
                (st.objectClassList idx)) kind] }
          _ rfl rfl rfl
      · -- basic entity inherit
        rw [SuperInternal.enter_inherit _ _ _ hh, hk]
        apply SuperInternal.dispatch_isSome
        intro f hf
        have hs1 := inv.sound idx 1
        rw [SuperInternal.walk_succ 0 _ anc hanc, SuperInternal.walk_zero] at hs1
        have hs := hs1 kind f hf
        apply Callable.call_isSome _ _ _ _ hs.1
        intro m j cb hfj
        have htj : f.target = some j := by
          rw [hfj]
          rfl
        have ht0 := inv.inherit idx anc hanc hh 0
        rw [SuperInternal.walk_zero] at ht0
        have hj := ht0 kind f j hf htj
        have hmul : (j + 1) * (D + 2) ≤ idx * (D + 2) := Nat.mul_le_mul_right _ (by omega)
        have hsucc : (j + 1) * (D + 2) = j * (D + 2) + (D + 2) := Nat.succ_mul _ _
        have key : ∀ (s2 : ModState) (arg2 : Nat), s2.objectClassList = st.objectClassList →
            s2.superLevels = Function.update st.superLevels (levelKey st.inheritLevel)
              (st.superLevels (levelKey st.inheritLevel) + 1) →
            (SuperInternal (invoke fuel) (s2.objectClassList j) cb arg2 s2).isSome = true := by
          intro s2 arg2 h1 h2
          refine ih s2 j cb arg2 (h1 ▸ inv) ?_ ?_ ?_
          · intro key
            rw [h2]
            by_cases hkey : key = levelKey st.inheritLevel
            · rw [hkey, Function.update_same]
              omega
            · rw [Function.update_noteq hkey]
              have := hctr key
              omega
          · omega
          · omega
        exact key
          { st with
            currentMod := m,
            superLevels := Function.update st.superLevels (levelKey st.inheritLevel)
              (st.superLevels (levelKey st.inheritLevel) + 1),
            inheritLevel := st.inheritLevel + 1,
            history := st.history ++ [Event.target anc kind] }
          _ rfl rfl

theorem ObjectClass.zero_original : ObjectClass.zero.original := by
  refine ⟨rfl, ?_, ?_⟩
  · intro kind f hf
    cases kind <;> cases hf
  · intro f hf
    cases hf

theorem registerBy.staticLoad_cases (md5 : CStr → Hash) (st : ModState)
    (r : Option Nat × RegisterArgs) (i : Nat) (f : Callable)
    (h : ((registerBy md5 st r).objectClassList i).info.staticLoad = some f) :
    (st.objectClassList i).info.staticLoad = some f ∨
      ∃ fn, r.2.staticLoad = some fn ∧ f = Callable.wrapped r.1 fn := by
  have hcases : ∀ (idx : Nat) (c : ObjectClass),
      c.info.staticLoad = r.2.staticLoad.map (Callable.wrapped r.1) →
      (Function.update st.objectClassList idx c i).info.staticLoad = some f →
      (st.objectClassList i).info.staticLoad = some f ∨
        ∃ fn, r.2.staticLoad = some fn ∧ f = Callable.wrapped r.1 fn := by
    intro idx c hc hf
    by_cases hi : i = idx
    · rw [hi, Function.update_same, hc] at hf
      cases hfn : r.2.staticLoad with
      | none =>
        rw [hfn] at hf
        cases hf
      | some fn =>
        rw [hfn] at hf
        exact Or.inr ⟨fn, rfl, (Option.some.inj hf).symm⟩
    · rw [Function.update_noteq hi] at hf
      exact Or.inl hf
  unfold registerBy at h
  cases hf : findHash st.objectClassList (md5 r.2.name) st.objectClassCount with
  | some i0 =>
    rw [ModRegisterObject_STD.eq_found md5 { st with currentMod := r.1 } r.2 i0 hf] at h
    exact hcases i0 _ (by rfl) h
  | none =>
    rw [ModRegisterObject_STD.eq_fresh md5 { st with currentMod := r.1 } r.2 _ hf rfl] at h
    exact hcases st.objectClassCount _ (by rfl) h

theorem registerAll.staticLoad_sound (md5 : CStr → Hash) (base : ModState)
    (regs : List (Option Nat × RegisterArgs))
    (hbase : ∀ i, (base.objectClassList i).original)
    (hregs : ∀ r ∈ regs, r.2.callsNoSuper = true) (i : Nat) (f : Callable)
    (h : ((registerAll md5 base regs).objectClassList i).info.staticLoad = some f) :
    f.callsNoSuper = true ∧ f.target = none := by
  have hI := registerAll_induction md5
    (fun _ st => ∀ i f, (st.objectClassList i).info.staticLoad = some f →
      f.callsNoSuper = true ∧ f.target = none)
    regs
    (fun _ st r hr hI i f hf => by
      rcases registerBy.staticLoad_cases md5 st r i f hf with h1 | ⟨fn, hfn, rfl⟩
      · exact hI i f h1
      · exact ⟨RegisterArgs.callsNoSuper_staticLoad r.2 (hregs r hr) fn hfn, rfl⟩)
    0 base (fun i f hf => (hbase i).2.2 f hf)
  exact hI i f h

theorem registerAll.dispatchInvariant (md5 : CStr → Hash) (base : ModState)
    (regs : List (Option Nat × RegisterArgs))
    (hbase : ∀ i, (base.objectClassList i).original)
    (hregs : ∀ r ∈ regs, r.2.callsNoSuper = true) :
    DispatchInvariant (registerAll md5 base regs).objectClassList
      (registerAll md5 base regs).objectClassCount regs.length ∧
    (registerAll md5 base regs).objectClassCount ≤ base.objectClassCount + regs.length := by
  have h := registerAll_induction md5
    (fun n st => DispatchInvariant st.objectClassList st.objectClassCount n ∧
      st.objectClassCount ≤ base.objectClassCount + n)
    regs
    (fun n st r hr hI => by
      refine ⟨registerBy.keeps_invariant md5 st r n hI.1 (hregs r hr), ?_⟩
      obtain ⟨i0, anc0, c, -, -, -, -, -, -, -, hcase⟩ := registerBy.spec md5 st r
      rcases hcase with ⟨-, -, -, h3⟩ | ⟨-, h3, -⟩
      · rw [h3]
        have := hI.2
        omega
      · rw [h3]
        have := hI.2
        omega)
    0 base ⟨DispatchInvariant.of_original _ _ hbase, Nat.le_refl _⟩
  rw [Nat.zero_add] at h
  exact h

/-- Termination of Super dispatch on a table without left-over records: in a
table reached by ModRegisterObject_STD calls (overrides and extensions in any
order) from a table all of whose entries, live or not, have no ancestor, the slot
functions of the table and of the registrations not calling Super, and in any
state with that table whose superLevels counts are far from 2^32: invoking one
of the nine inheritable slots of a live record, a synthesized default or a
provided function, returns as soon as the bound on nested calls exceeds
(number of base records + number of registrations) * (number of registrations
+ 2); invoking a `staticLoad` slot, which is never a synthesized default,
returns with any positive bound. -/
theorem Super_dispatch_terminates (md5 : CStr → Hash) (base : ModState)
    (regs : List (Option Nat × RegisterArgs)) (st : ModState)
    (hbase : ∀ i, (base.objectClassList i).original)
    (hregs : ∀ r ∈ regs, r.2.callsNoSuper = true)
    (htable : st.objectClassList = (registerAll md5 base regs).objectClassList)
    (hctr : ∀ key,
      st.superLevels key + (base.objectClassCount + 2 * regs.length) ≤ 4294967294) :
    (∀ (idx : Nat) (kind : ModSuper) (f : Callable) (arg fuel : Nat),
      idx < (registerAll md5 base regs).objectClassCount →
      (st.objectClassList idx).slot kind = some f →
      (base.objectClassCount + regs.length) * (regs.length + 2) < fuel →
      (invoke fuel f arg st).isSome = true) ∧
    (∀ (idx : Nat) (f : Callable) (arg fuel : Nat),
      (st.objectClassList idx).info.staticLoad = some f → 0 < fuel →
      (invoke fuel f arg st).isSome = true) := by
  refine ⟨?_, ?_⟩
  · intro idx kind f arg fuel hidx hf hfuel
    obtain ⟨inv0, hcount⟩ := registerAll.dispatchInvariant md5 base regs hbase hregs
    have inv : DispatchInvariant st.objectClassList
        (registerAll md5 base regs).objectClassCount regs.length := htable ▸ inv0
    obtain ⟨F, rfl⟩ : ∃ F, fuel = F + 1 := ⟨fuel - 1, by omega⟩
    show (Callable.call (invoke F) f arg st).isSome = true
    have hs := inv.sound idx 0
    rw [SuperInternal.walk_zero] at hs
    apply Callable.call_isSome _ _ _ _ (hs kind f hf).1
    intro m j cb hfj
    have htj : f.target = some j := by
      rw [hfj]
      rfl
    have ht := inv.targets idx 0
    rw [SuperInternal.walk_zero] at ht
    have hj := ht kind f j hf htj
    have hmul : (j + 1) * (regs.length + 2) ≤
        (base.objectClassCount + regs.length) * (regs.length + 2) :=
      Nat.mul_le_mul_right _ (by omega)
    have hsucc : (j + 1) * (regs.length + 2) = j * (regs.length + 2) + (regs.length + 2) :=
      Nat.succ_mul _ _
    exact SuperInternal.terminates (registerAll md5 base regs).objectClassCount regs.length F
      { st with currentMod := m } j cb _ inv
      (fun key => by
        show st.superLevels key + j ≤ 4294967294
        have := hctr key
        omega)
      (by
        have := hctr 0
        omega)
      (by
        show j * (regs.length + 2) +
          (regs.length + 1 - st.superLevels (levelKey st.inheritLevel)) < F
        omega)
  · intro idx f arg fuel hf hfuel
    rw [htable] at hf
    have hs := registerAll.staticLoad_sound md5 base regs hbase hregs idx f hf
    obtain ⟨F, rfl⟩ : ∃ F, fuel = F + 1 := ⟨fuel - 1, by omega⟩
    show (Callable.call (invoke F) f arg st).isSome = true
    apply Callable.call_isSome _ _ _ _ hs.1
    intro m j cb hfj
    rw [hfj] at hs
    exact absurd hs.2 (Option.some_ne_none j)

/-- On the table of `mixedRegs` the draw slot of the live `Boss` is a
synthesized default, and invoking it with a bound of 25 nested calls
returns. -/
theorem Super_dispatch_terminates_witness :
    (mixedState.objectClassList 1).slot ModSuper.SUPER_DRAW =
      some (Callable.superCall (some 4) 1 ModSuper.SUPER_DRAW) ∧
    (invoke 25 (Callable.superCall (some 4) 1 ModSuper.SUPER_DRAW) 0 mixedState).isSome = true :=
  ⟨rfl,
    (Super_dispatch_terminates exampleMd5 initialState mixedRegs mixedState
      (fun _ => ObjectClass.zero_original) (by decide) rfl
      (fun _ => show 0 + (0 + 2 * 4) ≤ 4294967294 by decide)).1
      1 ModSuper.SUPER_DRAW (Callable.superCall (some 4) 1 ModSuper.SUPER_DRAW) 0 25
      (by decide) rfl (by decide)⟩

/-- The events of that call: the default of the live `Boss` resolves the
replaced `Boss`, whose default resolves the `Enemy` it extends, whose draw
function runs under the marker of mod 1. -/
theorem mixedState_draw_history :
    (invoke 3 (Callable.superCall (some 4) 1 ModSuper.SUPER_DRAW) 0 mixedState).map
      (fun s => s.history) =
      some [Event.target (SuperInternal.walk 1 (mixedState.objectClassList 1))
              ModSuper.SUPER_DRAW,
            Event.target (SuperInternal.walk 2 (mixedState.objectClassList 1))
              ModSuper.SUPER_DRAW,
            Event.user 1 (some 1) 0] ∧
    (SuperInternal.walk 2 (mixedState.objectClassList 1)).hash = exampleMd5 "Enemy".toList ∧
    invoke 2 (Callable.superCall (some 4) 1 ModSuper.SUPER_DRAW) 0 mixedState = none :=
  ⟨rfl, rfl, rfl⟩

/-! ### A left-over record as ancestor -/

end RSDK

